import Mathlib

/-! # Polygon chain synchronisation: the `Sync` driver of `polygon/sync/sync.go`

A shallow embedding of `commitExecution`, `handleMilestoneMismatch`,
`onMilestoneEvent`, `onNewBlockEvent`, `onNewBlockHashesEvent`, `Run`,
`syncToTip` and `sync`.

The collaborators of `Sync` (store, execution client, heimdall and bridge
synchronisers, block downloader, peer-to-peer service) are interface values in
the source.  Here each one is a record of functions over an arbitrary world
state `W`: a call takes the world and returns its result together with the next
world, so a collaborator may answer differently on every call.  The canonical
chain builder is an interface value as well; it is a record of functions over
an arbitrary builder state `B`.

Every call that leaves `Sync` is appended to a trace together with what it
returned.  The trace is ghost state: it does not influence the run, it only lets
the theorems speak about which calls were made, with which arguments and in
which order.  The reading methods of the chain builder (`Root`, `Tip`,
`ContainsHash`, `HeadersInRange`) and the logger are not recorded.

Block numbers are natural numbers; `Uint64` is the conversion
`(*big.Int).Uint64()` and `u64add` the addition of `uint64`, both modulo `2^64`.
The loop of `sync` has no bound in the source, so `sync`, `syncToTip` and `Run`
take fuel, and `none` means that the fuel ran out.  `Run` is given the list of
the events that the channel delivers before the context is done.

`Tip()` returns a `*types.Header`, and `onNewBlockEvent` compares two such
pointers.  A pointer is modelled by its address and the header at that address
(`HeaderPtr`); the builder gives the address of its tip by `TipAddr`.  A header
is not modified once it is built, so two pointers are equal exactly when address
and header agree.
-/

namespace PolygonSync

/-! ## Data model -/

/-- A header hash (32 bytes in the source, an abstract number here). -/
abbrev Hash := Nat

/-- A peer identifier. -/
abbrev PeerId := Nat

/-- The part of `types.Header` that `Sync` and the chain builder read.  `number`
is the `*big.Int` field `Number`. -/
structure Header where
  hash : Hash
  parentHash : Hash
  number : Nat
  difficulty : Nat
deriving DecidableEq, Repr

/-- A block: its header and an uninterpreted body. -/
structure Block where
  header : Header
  body : Nat
deriving DecidableEq, Repr

/-- The conversion `(*big.Int).Uint64()`: the low 64 bits. -/
def Uint64 (n : Nat) : Nat := n % 2 ^ 64

/-- Addition of two `uint64` values. -/
def u64add (a b : Nat) : Nat := (a + b) % 2 ^ 64

/-- The errors that `Sync` tells apart.  `incompleteHeaders` and `missingBodies`
are the errors recognised by `(p2p.ErrIncompleteHeaders{}).Is` and
`(p2p.ErrMissingBodies{}).Is`; `noMilestoneHeaders` is the `errors.New` value of
`handleMilestoneMismatch`; `contextDone` is `ctx.Err()`; the three after it are
the failures of the chain builder named in the specification; `other` is any
other error. -/
inductive Error where
  | incompleteHeaders
  | missingBodies
  | noMilestoneHeaders
  | contextDone
  | disconnectedParent
  | badLinkage
  | belowRoot
  | other (code : Nat)
deriving DecidableEq, Repr

/-- Whether `(p2p.ErrIncompleteHeaders{}).Is(err)` holds. -/
def Error.isIncompleteHeaders : Error → Bool
  | .incompleteHeaders => true
  | _ => false

/-- Whether `(p2p.ErrMissingBodies{}).Is(err)` holds. -/
def Error.isMissingBodies : Error → Bool
  | .missingBodies => true
  | _ => false

/-- The milestone carried by a new-milestone event: `StartBlock()` and
`EndBlock()` are `*big.Int`, `Length()` is a `uint64`. -/
structure EventNewMilestone where
  startBlock : Nat
  endBlock : Nat
  length : Nat
  rootHash : Hash
deriving DecidableEq, Repr

/-- A new-block event. -/
structure EventNewBlock where
  NewBlock : Block
  PeerId : PeerId
deriving DecidableEq, Repr

/-- One announcement of a new-block-hashes event. -/
structure HashNum where
  Hash : Hash
  Number : Nat
deriving DecidableEq, Repr

/-- A new-block-hashes event. -/
structure EventNewBlockHashes where
  NewBlockHashes : List HashNum
  PeerId : PeerId
deriving DecidableEq, Repr

/-- What the event channel delivers: the three event types that the `switch` of
`Run` handles. -/
inductive Event where
  | NewMilestone (e : EventNewMilestone)
  | NewBlock (e : EventNewBlock)
  | NewBlockHashes (e : EventNewBlockHashes)
deriving DecidableEq, Repr

/-! ## The trace of calls -/

/-- A call made by `Sync`, with its arguments. -/
inductive Call where
  | Flush
  | SynchronizeCheckpoints
  | SynchronizeMilestones
  | SynchronizeSpans (blockNum : Nat)
  | BridgeSynchronize (blockNum : Nat)
  | CurrentHeader
  | InsertBlocks (blocks : List Block)
  | UpdateForkChoice (tip finalizedHeader : Header)
  | DownloadBlocksUsingCheckpoints (startBlockNum : Nat)
  | DownloadBlocksUsingMilestones (startBlockNum : Nat)
  | tipDownloader (startBlockNum : Nat)
  | FetchBlocks (start endExclusive : Nat) (peerId : PeerId)
  | Penalize (peerId : PeerId)
  | milestoneVerifier (milestone : EventNewMilestone) (headers : List Header)
  | blocksVerifier (blocks : List Block)
  | Connect (headers : List Header)
  | Prune (blockNum : Nat)
  | Reset (root : Header)
  | ccBuilderFactory (root : Header)
deriving DecidableEq, Repr

/-- What a call returned. -/
inductive Reply where
  | ok
  | err (e : Error)
  | header (h : Option Header)
  | blocks (bs : List Block)
deriving DecidableEq, Repr

/-- The reply of a call that returns only an `error`. -/
def Reply.ofErr : Option Error → Reply
  | none => .ok
  | some e => .err e

/-- The reply of a call that returns `(*types.Header, error)`. -/
def Reply.ofHeader : Except Error (Option Header) → Reply
  | .ok h => .header h
  | .error e => .err e

/-- The reply of a call that returns a block list or an error. -/
def Reply.ofBlocks : Except Error (List Block) → Reply
  | .ok bs => .blocks bs
  | .error e => .err e

/-- One entry of the trace: a call and what it returned. -/
structure Entry where
  call : Call
  reply : Reply
deriving DecidableEq, Repr

/-- The state outside `Sync`: the world of the collaborators and the trace of
the calls made so far. -/
structure Ext (W : Type) where
  world : W
  trace : List Entry

/-- Record a call of a pure function (a verifier) or of the chain builder. -/
def Ext.note {W : Type} (st : Ext W) (c : Call) (r : Reply) : Ext W :=
  { world := st.world, trace := st.trace ++ [⟨c, r⟩] }

/-- Make a call that returns an `error`, and record it. -/
def invokeErr {W : Type} (c : Call) (f : W → Option Error × W) (st : Ext W) :
    Option Error × Ext W :=
  ((f st.world).1, { world := (f st.world).2, trace := st.trace ++ [⟨c, Reply.ofErr (f st.world).1⟩] })

/-- Make a call that returns `(*types.Header, error)`, and record it. -/
def invokeHeader {W : Type} (c : Call) (f : W → Except Error (Option Header) × W) (st : Ext W) :
    Except Error (Option Header) × Ext W :=
  ((f st.world).1,
    { world := (f st.world).2, trace := st.trace ++ [⟨c, Reply.ofHeader (f st.world).1⟩] })

/-- Make a call that returns a block list or an error, and record it. -/
def invokeBlocks {W : Type} (c : Call) (f : W → Except Error (List Block) × W) (st : Ext W) :
    Except Error (List Block) × Ext W :=
  ((f st.world).1,
    { world := (f st.world).2, trace := st.trace ++ [⟨c, Reply.ofBlocks (f st.world).1⟩] })

/-! ## The collaborators -/

/-- The interface `Store`, as far as `Sync` uses it. -/
structure Store (W : Type) where
  Flush : W → Option Error × W

/-- The interface `ExecutionClient`. -/
structure ExecutionClient (W : Type) where
  CurrentHeader : W → Except Error Header × W
  InsertBlocks : List Block → W → Option Error × W
  UpdateForkChoice : Header → Header → W → Option Error × W

/-- The interface `heimdallSynchronizer`. -/
structure heimdallSynchronizer (W : Type) where
  SynchronizeCheckpoints : W → Option Error × W
  SynchronizeMilestones : W → Option Error × W
  SynchronizeSpans : Nat → W → Option Error × W

/-- The interface `bridgeSynchronizer`. -/
structure bridgeSynchronizer (W : Type) where
  Synchronize : Nat → W → Option Error × W

/-- The interface `BlockDownloader`. -/
structure BlockDownloader (W : Type) where
  DownloadBlocksUsingCheckpoints : Nat → W → Except Error (Option Header) × W
  DownloadBlocksUsingMilestones : Nat → W → Except Error (Option Header) × W

/-- The part of `p2p.Service` that `Sync` calls: `FetchBlocks` (of `Fetcher`)
and `Penalize` (of `PeerPenalizer`). -/
structure Service (W : Type) where
  FetchBlocks : Nat → Nat → PeerId → W → Except Error (List Block) × W
  Penalize : PeerId → W → Option Error × W

/-- A `*types.Header` as `Tip()` returns it: the address and the header at that
address.  A header is not modified once it is built, so two pointers are equal,
in the sense of `==` on pointers, exactly when address and header agree. -/
structure HeaderPtr where
  addr : Nat
  header : Header
deriving DecidableEq, Repr

/-- The interface `CanonicalChainBuilder` over a builder state `B`.  A method
that mutates the builder returns the next state; `Connect` and `Prune` also
return an `error`.  `Tip()` returns a pointer: `Tip` is the header it points to
and `TipAddr` its address. -/
structure CanonicalChainBuilder (B : Type) where
  Root : B → Header
  Tip : B → Header
  TipAddr : B → Nat
  ContainsHash : B → Hash → Bool
  HeadersInRange : B → Nat → Nat → List Header
  Connect : B → List Header → Option Error × B
  Prune : B → Nat → Option Error × B
  Reset : B → Header → B

/-- The pointer that the method `Tip()` returns. -/
def CanonicalChainBuilder.TipPtr {B : Type} (M : CanonicalChainBuilder B) (b : B) : HeaderPtr :=
  { addr := M.TipAddr b, header := M.Tip b }

/-- The struct `Sync`.  `events` is an argument of `Run` and `logger` is not
modelled; `ccBuilderMethods` holds the methods of the builders that
`ccBuilderFactory` creates. -/
structure Sync (W B : Type) where
  store : Store W
  execution : ExecutionClient W
  milestoneVerifier : EventNewMilestone → List Header → Option Error
  blocksVerifier : List Block → Option Error
  p2pService : Service W
  blockDownloader : BlockDownloader W
  ccBuilderFactory : Header → B
  ccBuilderMethods : CanonicalChainBuilder B
  heimdallSync : heimdallSynchronizer W
  bridgeSync : bridgeSynchronizer W

/-! ## The functions of `sync.go` -/

variable {W B : Type}

/-- The method `Sync.commitExecution`. -/
def commitExecution (s : Sync W B) (newTip finalizedHeader : Header) (st : Ext W) :
    Option Error × Ext W :=
  match invokeErr .Flush s.store.Flush st with
  | (some err, st) => (some err, st)
  | (none, st) =>
    let blockNum := Uint64 newTip.number
    match invokeErr (.SynchronizeSpans blockNum) (s.heimdallSync.SynchronizeSpans blockNum) st with
    | (some err, st) => (some err, st)
    | (none, st) =>
      match invokeErr (.BridgeSynchronize blockNum) (s.bridgeSync.Synchronize blockNum) st with
      | (some err, st) => (some err, st)
      | (none, st) =>
        invokeErr (.UpdateForkChoice newTip finalizedHeader)
          (s.execution.UpdateForkChoice newTip finalizedHeader) st

/-- The method `Sync.handleMilestoneMismatch`. -/
def handleMilestoneMismatch (s : Sync W B) (ccBuilder : B) (st : Ext W) :
    Option Error × B × Ext W :=
  let oldTip := s.ccBuilderMethods.Root ccBuilder
  let oldTipNum := Uint64 oldTip.number
  match invokeErr (.UpdateForkChoice oldTip oldTip)
      (s.execution.UpdateForkChoice oldTip oldTip) st with
  | (some err, st) => (some err, ccBuilder, st)
  | (none, st) =>
    match invokeHeader (.DownloadBlocksUsingMilestones oldTipNum)
        (s.blockDownloader.DownloadBlocksUsingMilestones oldTipNum) st with
    | (.error err, st) => (some err, ccBuilder, st)
    | (.ok none, st) => (some .noMilestoneHeaders, ccBuilder, st)
    | (.ok (some newTip), st) =>
      match commitExecution s newTip newTip st with
      | (some err, st) => (some err, ccBuilder, st)
      | (none, st) =>
        (none, s.ccBuilderMethods.Reset ccBuilder newTip, st.note (.Reset newTip) .ok)

/-- The method `Sync.onMilestoneEvent`. -/
def onMilestoneEvent (s : Sync W B) (event : EventNewMilestone) (ccBuilder : B) (st : Ext W) :
    Option Error × B × Ext W :=
  let milestone := event
  if Uint64 milestone.endBlock ≤ Uint64 (s.ccBuilderMethods.Root ccBuilder).number then
    (none, ccBuilder, st)
  else
    let milestoneHeaders :=
      s.ccBuilderMethods.HeadersInRange ccBuilder (Uint64 milestone.startBlock) milestone.length
    match s.milestoneVerifier milestone milestoneHeaders with
    | some err =>
      handleMilestoneMismatch s ccBuilder
        (st.note (.milestoneVerifier milestone milestoneHeaders) (.err err))
    | none =>
      let st := st.note (.milestoneVerifier milestone milestoneHeaders) .ok
      let pruned := s.ccBuilderMethods.Prune ccBuilder (Uint64 milestone.endBlock)
      (pruned.1, pruned.2, st.note (.Prune (Uint64 milestone.endBlock)) (Reply.ofErr pruned.1))

/-- The tail of `Sync.onNewBlockEvent`, from the call of the blocks verifier on:
verify `newBlocks`, connect their headers, and insert them and move the fork
choice when the tip changed.  `oldTip` and `newTip` are the pointers that
`Tip()` returns before and after `Connect`, and `newTip != oldTip` compares
the pointers. -/
def onNewBlocks (s : Sync W B) (peerId : PeerId) (newBlocks : List Block) (ccBuilder : B)
    (st : Ext W) : Option Error × B × Ext W :=
  match s.blocksVerifier newBlocks with
  | some err =>
    let st := st.note (.blocksVerifier newBlocks) (.err err)
    match invokeErr (.Penalize peerId) (s.p2pService.Penalize peerId) st with
    | (_, st) => (none, ccBuilder, st)
  | none =>
    let st := st.note (.blocksVerifier newBlocks) .ok
    let newHeaders := newBlocks.map Block.header
    let oldTip := s.ccBuilderMethods.TipPtr ccBuilder
    match s.ccBuilderMethods.Connect ccBuilder newHeaders with
    | (some err, ccBuilder) => (none, ccBuilder, st.note (.Connect newHeaders) (.err err))
    | (none, ccBuilder) =>
      let st := st.note (.Connect newHeaders) .ok
      let newTip := s.ccBuilderMethods.TipPtr ccBuilder
      if newTip ≠ oldTip then
        match invokeErr (.InsertBlocks newBlocks) (s.execution.InsertBlocks newBlocks) st with
        | (some err, st) => (some err, ccBuilder, st)
        | (none, st) =>
          match invokeErr (.UpdateForkChoice newTip.header (s.ccBuilderMethods.Root ccBuilder))
              (s.execution.UpdateForkChoice newTip.header (s.ccBuilderMethods.Root ccBuilder))
              st with
          | (some err, st) => (some err, ccBuilder, st)
          | (none, st) => (none, ccBuilder, st)
      else
        (none, ccBuilder, st)

/-- The method `Sync.onNewBlockEvent`. -/
def onNewBlockEvent (s : Sync W B) (event : EventNewBlock) (ccBuilder : B) (st : Ext W) :
    Option Error × B × Ext W :=
  let newBlockHeader := event.NewBlock.header
  let newBlockHeaderNum := Uint64 newBlockHeader.number
  let rootNum := Uint64 (s.ccBuilderMethods.Root ccBuilder).number
  if newBlockHeaderNum ≤ rootNum then
    (none, ccBuilder, st)
  else if s.ccBuilderMethods.ContainsHash ccBuilder newBlockHeader.parentHash then
    onNewBlocks s event.PeerId [event.NewBlock] ccBuilder st
  else
    match invokeBlocks (.FetchBlocks rootNum (u64add newBlockHeaderNum 1) event.PeerId)
        (s.p2pService.FetchBlocks rootNum (u64add newBlockHeaderNum 1) event.PeerId) st with
    | (.error err, st) =>
      if err.isIncompleteHeaders || err.isMissingBodies then
        (none, ccBuilder, st)
      else
        (some err, ccBuilder, st)
    | (.ok blocks, st) => onNewBlocks s event.PeerId blocks ccBuilder st

/-- A run-time panic of the Go program. -/
inductive Panic where
  | indexOutOfRange (index length : Nat)
deriving DecidableEq, Repr

/-- The `for` loop of `Sync.onNewBlockHashesEvent` over the announcements still
to be handled, for the event of peer `peerId`.  `newBlocks.Data[0]` panics when
the fetched list is empty. -/
def onNewBlockHashes (s : Sync W B) (peerId : PeerId) :
    List HashNum → B → Ext W → Except Panic (Option Error × B × Ext W)
  | [], ccBuilder, st => .ok (none, ccBuilder, st)
  | headerHashNum :: rest, ccBuilder, st =>
    if headerHashNum.Number ≤ Uint64 (s.ccBuilderMethods.Root ccBuilder).number
        || s.ccBuilderMethods.ContainsHash ccBuilder headerHashNum.Hash then
      onNewBlockHashes s peerId rest ccBuilder st
    else
      match invokeBlocks
          (.FetchBlocks headerHashNum.Number (u64add headerHashNum.Number 1) peerId)
          (s.p2pService.FetchBlocks headerHashNum.Number (u64add headerHashNum.Number 1) peerId)
          st with
      | (.error err, st) =>
        if err.isIncompleteHeaders || err.isMissingBodies then
          onNewBlockHashes s peerId rest ccBuilder st
        else
          .ok (some err, ccBuilder, st)
      | (.ok [], _) => .error (.indexOutOfRange 0 0)
      | (.ok (block :: _), st) =>
        match onNewBlockEvent s { NewBlock := block, PeerId := peerId } ccBuilder st with
        | (some err, ccBuilder, st) => .ok (some err, ccBuilder, st)
        | (none, ccBuilder, st) => onNewBlockHashes s peerId rest ccBuilder st

/-- The method `Sync.onNewBlockHashesEvent`. -/
def onNewBlockHashesEvent (s : Sync W B) (event : EventNewBlockHashes) (ccBuilder : B)
    (st : Ext W) : Except Panic (Option Error × B × Ext W) :=
  onNewBlockHashes s event.PeerId event.NewBlockHashes ccBuilder st

/-- The block number that `sync` asks the downloader for:
`tip.Number.Uint64()+1` in `uint64` arithmetic. -/
def nextBlockNum (tip : Header) : Nat := u64add (Uint64 tip.number) 1

/-- The method `Sync.sync`.  The loop has no bound in the source; `fuel` bounds
the number of rounds, and `none` means that the fuel ran out. -/
def sync (s : Sync W B)
    (tipDownloader : Nat → Ext W → Except Error (Option Header) × Ext W) :
    Nat → Header → Ext W → Option (Except Error Header × Ext W)
  | 0, _, _ => none
  | fuel + 1, tip, st =>
    match tipDownloader (nextBlockNum tip) st with
    | (.error err, st) => some (.error err, st)
    | (.ok none, st) => some (.ok tip, st)
    | (.ok (some newTip), st) =>
      match commitExecution s newTip newTip st with
      | (some err, st) => some (.error err, st)
      | (none, st) => sync s tipDownloader fuel newTip st

/-- The function literal passed to `sync` by `syncToTipUsingCheckpoints`. -/
def checkpointTipDownloader (s : Sync W B) (startBlockNum : Nat) (st : Ext W) :
    Except Error (Option Header) × Ext W :=
  match invokeErr .SynchronizeCheckpoints s.heimdallSync.SynchronizeCheckpoints st with
  | (some err, st) => (.error err, st)
  | (none, st) =>
    invokeHeader (.DownloadBlocksUsingCheckpoints startBlockNum)
      (s.blockDownloader.DownloadBlocksUsingCheckpoints startBlockNum) st

/-- The function literal passed to `sync` by `syncToTipUsingMilestones`. -/
def milestoneTipDownloader (s : Sync W B) (startBlockNum : Nat) (st : Ext W) :
    Except Error (Option Header) × Ext W :=
  match invokeErr .SynchronizeMilestones s.heimdallSync.SynchronizeMilestones st with
  | (some err, st) => (.error err, st)
  | (none, st) =>
    invokeHeader (.DownloadBlocksUsingMilestones startBlockNum)
      (s.blockDownloader.DownloadBlocksUsingMilestones startBlockNum) st

/-- The method `Sync.syncToTipUsingCheckpoints`. -/
def syncToTipUsingCheckpoints (s : Sync W B) (fuel : Nat) (tip : Header) (st : Ext W) :
    Option (Except Error Header × Ext W) :=
  sync s (checkpointTipDownloader s) fuel tip st

/-- The method `Sync.syncToTipUsingMilestones`. -/
def syncToTipUsingMilestones (s : Sync W B) (fuel : Nat) (tip : Header) (st : Ext W) :
    Option (Except Error Header × Ext W) :=
  sync s (milestoneTipDownloader s) fuel tip st

/-- The method `Sync.syncToTip`; each of the two passes gets `fuel` rounds. -/
def syncToTip (s : Sync W B) (fuel : Nat) (st : Ext W) : Option (Except Error Header × Ext W) :=
  match s.execution.CurrentHeader st.world with
  | (.error err, w) =>
    some (.error err, { world := w, trace := st.trace ++ [⟨.CurrentHeader, .err err⟩] })
  | (.ok tip, w) =>
    let st : Ext W := { world := w, trace := st.trace ++ [⟨.CurrentHeader, .header (some tip)⟩] }
    match syncToTipUsingCheckpoints s fuel tip st with
    | none => none
    | some (.error err, st) => some (.error err, st)
    | some (.ok tip, st) =>
      match syncToTipUsingMilestones s fuel tip st with
      | none => none
      | some (.error err, st) => some (.error err, st)
      | some (.ok tip, st) => some (.ok tip, st)

/-- The `switch event.Type` of `Sync.Run`: the handler of one event. -/
def handleEvent (s : Sync W B) (event : Event) (ccBuilder : B) (st : Ext W) :
    Except Panic (Option Error × B × Ext W) :=
  match event with
  | .NewMilestone e => .ok (onMilestoneEvent s e ccBuilder st)
  | .NewBlock e => .ok (onNewBlockEvent s e ccBuilder st)
  | .NewBlockHashes e => onNewBlockHashesEvent s e ccBuilder st

/-- The `for`/`select` loop of `Sync.Run` on the events that the channel
delivers before the context is done, in arrival order; when they are used up the
context is done and the loop returns `ctx.Err()`. -/
def eventLoop (s : Sync W B) : List Event → B → Ext W → Except Panic (Option Error × B × Ext W)
  | [], ccBuilder, st => .ok (some .contextDone, ccBuilder, st)
  | event :: rest, ccBuilder, st =>
    match handleEvent s event ccBuilder st with
    | .error p => .error p
    | .ok (some err, ccBuilder, st) => .ok (some err, ccBuilder, st)
    | .ok (none, ccBuilder, st) => eventLoop s rest ccBuilder st

/-- The method `Sync.Run` on the events `events`.  The result is `none` when the
catch-up ran out of fuel; otherwise it is a panic, or the returned error with
the chain builder (if one was created) and the outside state at that point. -/
def Run (s : Sync W B) (fuel : Nat) (events : List Event) (st : Ext W) :
    Option (Except Panic (Option Error × Option B × Ext W)) :=
  match syncToTip s fuel st with
  | none => none
  | some (.error err, st) => some (.ok (some err, none, st))
  | some (.ok tip, st) =>
    let ccBuilder := s.ccBuilderFactory tip
    match eventLoop s events ccBuilder (st.note (.ccBuilderFactory tip) .ok) with
    | .error p => some (.error p)
    | .ok (err, ccBuilder, st) => some (.ok (err, some ccBuilder, st))

/-! ## The canonical chain builder of the specification -/

/-- Modelled from the spec: the state of the canonical chain builder of section
4.1, whose implementation is not among the source files: the root (the last
finalized header) and the stored headers, the root among them. -/
structure ChainTree where
  root : Header
  nodes : List Header
deriving DecidableEq, Repr

/-- Modelled from the spec: the stored header with hash `h`, if there is one. -/
def ChainTree.lookup (t : ChainTree) (h : Hash) : Option Header :=
  t.nodes.find? (fun x => x.hash == h)

/-- Modelled from the spec: the root-ward path of a header, root first, found
by following parent hashes for at most `fuel` steps. -/
def ChainTree.pathFrom (t : ChainTree) : Nat → Header → List Header
  | 0, h => [h]
  | fuel + 1, h =>
    if h.hash = t.root.hash then [h]
    else
      match t.lookup h.parentHash with
      | none => [h]
      | some parent => t.pathFrom fuel parent ++ [h]

/-- Modelled from the spec: the path from the root to a stored header. -/
def ChainTree.path (t : ChainTree) (h : Header) : List Header :=
  t.pathFrom t.nodes.length h

/-- Modelled from the spec: the cumulative difficulty of a stored header, the
sum of the difficulties on its path from the root. -/
def ChainTree.cumulativeDifficulty (t : ChainTree) (h : Header) : Nat :=
  ((t.path h).map Header.difficulty).sum

/-- Modelled from the spec: a leaf is a stored header without a stored child. -/
def ChainTree.isLeaf (t : ChainTree) (h : Header) : Bool :=
  t.nodes.all (fun x => x.hash == t.root.hash || x.parentHash != h.hash)

/-- Modelled from the spec: the tip selection rule, greatest cumulative
difficulty first and the smallest hash among equals. -/
def ChainTree.better (t : ChainTree) (a b : Header) : Bool :=
  decide (t.cumulativeDifficulty b < t.cumulativeDifficulty a)
    || (t.cumulativeDifficulty a == t.cumulativeDifficulty b && decide (a.hash < b.hash))

/-- Modelled from the spec: the tip, the best leaf; a function of the node set. -/
def ChainTree.tip (t : ChainTree) : Header :=
  match t.nodes.filter t.isLeaf with
  | [] => t.root
  | leaf :: leaves => leaves.foldl (fun best x => if t.better x best then x else best) leaf

/-- Modelled from the spec: `ContainsHash`, membership in the tree. -/
def ChainTree.ContainsHash (t : ChainTree) (h : Hash) : Bool :=
  t.nodes.any (fun x => x.hash == h)

/-- Modelled from the spec: `HeadersInRange`, the headers on the path from root
to tip with numbers in `[start, start+length)`.  The method of the source
returns only a list, so the failure of the specification (a requested number
outside `[root.Number, tip.Number]`, or without a header on the path) is the
empty list. -/
def ChainTree.HeadersInRange (t : ChainTree) (start length : Nat) : List Header :=
  if (List.range length).all (fun i =>
      decide (t.root.number ≤ start + i) && decide (start + i ≤ t.tip.number)
        && (t.path t.tip).any (fun h => h.number == start + i)) then
    (t.path t.tip).filter (fun h => decide (start ≤ h.number) && decide (h.number < start + length))
  else
    []

/-- Modelled from the spec: whether each header of the list has the one before
it as its parent. -/
def linked : List Header → Bool
  | [] => true
  | [_] => true
  | a :: b :: rest => (b.parentHash == a.hash) && linked (b :: rest)

/-- Modelled from the spec: `Connect`.  It fails with `DisconnectedParent` when
the parent of the first header is absent, with `BadLinkage` when a header does
not have its predecessor as parent, with `BelowRoot` when a number is at or
below the number of the root; otherwise every header not yet stored is inserted
(a header already present with identical content is left alone). -/
def ChainTree.Connect (t : ChainTree) (headers : List Header) : Option Error × ChainTree :=
  match headers with
  | [] => (none, t)
  | first :: _ =>
    if !t.ContainsHash first.parentHash then (some .disconnectedParent, t)
    else if !linked headers then (some .badLinkage, t)
    else if headers.any (fun h => decide (h.number ≤ t.root.number)) then (some .belowRoot, t)
    else (none, { root := t.root, nodes := t.nodes ++ headers.filter (fun h => !t.nodes.contains h) })

/-- Modelled from the spec: `Prune`.  It requires
`root.Number ≤ uptoBlockNum ≤ tip.Number`, moves the root to the header with
that number on the path from root to tip and keeps the stored headers that
descend from the new root.  The specification names no error for a call outside
the requirement; `other 0` stands for it. -/
def ChainTree.Prune (t : ChainTree) (uptoBlockNum : Nat) : Option Error × ChainTree :=
  if t.root.number ≤ uptoBlockNum ∧ uptoBlockNum ≤ t.tip.number then
    match (t.path t.tip).find? (fun h => h.number == uptoBlockNum) with
    | none => (some (.other 0), t)
    | some newRoot =>
      (none, { root := newRoot, nodes := t.nodes.filter (fun h => (t.path h).contains newRoot) })
  else
    (some (.other 0), t)

/-- Modelled from the spec: `Reset` discards all nodes and sets
`root = tip = newRoot`. -/
def ChainTree.Reset (_t : ChainTree) (newRoot : Header) : ChainTree :=
  { root := newRoot, nodes := [newRoot] }

/-- Modelled from the spec: a builder is created with the caught-up header as
`root = tip`. -/
def ChainTree.create (root : Header) : ChainTree :=
  { root := root, nodes := [root] }

/-- Modelled from the spec: the methods of the chain builder of section 4.1.
The builder stores each header once and hands out the stored header, so the
address of the tip is a function of the tip; the hash stands for it. -/
def specChainBuilder : CanonicalChainBuilder ChainTree where
  Root := ChainTree.root
  Tip := ChainTree.tip
  TipAddr := fun t => t.tip.hash
  ContainsHash := ChainTree.ContainsHash
  HeadersInRange := ChainTree.HeadersInRange
  Connect := ChainTree.Connect
  Prune := ChainTree.Prune
  Reset := ChainTree.Reset

/-! ## Scripted collaborators, for the scenarios -/

/-- A world whose collaborators replay scripts: the header that the execution
client reports, the answers still to come from the two downloads and from
`FetchBlocks`, and the error that `Penalize` returns.  A used-up download script
answers with no header; a used-up fetch script answers with no block. -/
structure Script where
  current : Header
  checkpoints : List (Except Error (Option Header))
  milestones : List (Except Error (Option Header))
  fetches : List (Except Error (List Block))
  penalizeErr : Option Error

/-- The next answer of a download script. -/
def popHeader :
    List (Except Error (Option Header)) →
      Except Error (Option Header) × List (Except Error (Option Header))
  | [] => (.ok none, [])
  | r :: rest => (r, rest)

/-- The next answer of the fetch script. -/
def popBlocks :
    List (Except Error (List Block)) → Except Error (List Block) × List (Except Error (List Block))
  | [] => (.ok [], [])
  | r :: rest => (r, rest)

/-- A `Sync` over scripted collaborators, the chain builder of the
specification and the given verifiers.  Every call without a script succeeds. -/
def scriptedSync (milestoneVerifier : EventNewMilestone → List Header → Option Error)
    (blocksVerifier : List Block → Option Error) : Sync Script ChainTree where
  store := { Flush := fun w => (none, w) }
  execution :=
    { CurrentHeader := fun w => (.ok w.current, w)
      InsertBlocks := fun _ w => (none, w)
      UpdateForkChoice := fun _ _ w => (none, w) }
  milestoneVerifier := milestoneVerifier
  blocksVerifier := blocksVerifier
  p2pService :=
    { FetchBlocks := fun _ _ _ w =>
        ((popBlocks w.fetches).1, { w with fetches := (popBlocks w.fetches).2 })
      Penalize := fun _ w => (w.penalizeErr, w) }
  blockDownloader :=
    { DownloadBlocksUsingCheckpoints := fun _ w =>
        ((popHeader w.checkpoints).1, { w with checkpoints := (popHeader w.checkpoints).2 })
      DownloadBlocksUsingMilestones := fun _ w =>
        ((popHeader w.milestones).1, { w with milestones := (popHeader w.milestones).2 }) }
  ccBuilderFactory := ChainTree.create
  ccBuilderMethods := specChainBuilder
  heimdallSync :=
    { SynchronizeCheckpoints := fun w => (none, w)
      SynchronizeMilestones := fun w => (none, w)
      SynchronizeSpans := fun _ w => (none, w) }
  bridgeSync := { Synchronize := fun _ w => (none, w) }

/-- A blocks verifier that accepts every batch. -/
def acceptBlocks : List Block → Option Error := fun _ => none

/-- A blocks verifier that rejects every batch. -/
def rejectBlocks : List Block → Option Error := fun _ => some (.other 1)

/-- A milestone verifier that accepts headers ending in the attested hash. -/
def verifyByLastHash : EventNewMilestone → List Header → Option Error := fun m hs =>
  if hs.getLast?.map Header.hash = some m.rootHash then none else some (.other 2)

/-- The header numbered `n` of the main branch of the scenarios: its hash is
`n` and its parent is the header before it. -/
def hdr (n : Nat) : Header :=
  { hash := n, parentHash := n - 1, number := n, difficulty := 1 }

/-- The block of the main branch numbered `n`. -/
def blk (n : Nat) : Block := { header := hdr n, body := 0 }

/-- The world of scenario S1: execution is at block 100, the checkpoint
downloads end at 500 and 1000, the milestone download ends at 1200. -/
def worldS1 : Script :=
  { current := hdr 100
    checkpoints := [.ok (some (hdr 500)), .ok (some (hdr 1000)), .ok none]
    milestones := [.ok (some (hdr 1200)), .ok none]
    fetches := []
    penalizeErr := none }

/-- The `Sync` of the scenarios: scripted collaborators, a milestone verifier
that compares the last hash, and a blocks verifier that accepts. -/
def syncS : Sync Script ChainTree := scriptedSync verifyByLastHash acceptBlocks

/-- The same with a blocks verifier that rejects. -/
def syncReject : Sync Script ChainTree := scriptedSync verifyByLastHash rejectBlocks

/-- The header numbered `n` of a competing branch B of the scenarios. -/
def hdrB (n : Nat) : Header :=
  { hash := n + 100000, parentHash := n - 1 + 100000, number := n, difficulty := 1 }

/-- A chain builder with root 1200 and tip 1202 on the main branch. -/
def treeA : ChainTree := { root := hdr 1200, nodes := [hdr 1200, hdr 1201, hdr 1202] }

/-- A world in which no script has an answer left. -/
def worldIdle : Script :=
  { current := hdr 1200, checkpoints := [], milestones := [], fetches := [], penalizeErr := none }

/-- The world of scenario S5 (on a shorter chain): the milestone download
answers with the header numbered 1202 of branch B. -/
def worldS5 : Script :=
  { current := hdr 1200, checkpoints := [], milestones := [.ok (some (hdrB 1202))],
    fetches := [], penalizeErr := none }

/-- A milestone over blocks 1201 to 1202 attesting the main branch. -/
def milestoneA : EventNewMilestone :=
  { startBlock := 1201, endBlock := 1202, length := 2, rootHash := (hdr 1202).hash }

/-- A milestone over blocks 1201 to 1202 attesting branch B. -/
def milestoneB : EventNewMilestone :=
  { startBlock := 1201, endBlock := 1202, length := 2, rootHash := (hdrB 1202).hash }

/-- The blocks 1201 to 1205 of the main branch. -/
def blocksS3 : List Block := [blk 1201, blk 1202, blk 1203, blk 1204, blk 1205]

/-- The chain builder of scenarios S2 to S4: root and tip at block 1200. -/
def treeS3 : ChainTree := ChainTree.create (hdr 1200)

/-- The event of scenario S2: block 1201, whose parent 1200 is known. -/
def eventS2 : EventNewBlock := { NewBlock := blk 1201, PeerId := 1 }

/-- The event of scenario S3: block 1205 from peer 2, whose parent is unknown. -/
def eventS3 : EventNewBlock := { NewBlock := blk 1205, PeerId := 2 }

/-- The world of scenario S3: the peer answers the fetch with five blocks. -/
def worldS3 : Script :=
  { current := hdr 1200, checkpoints := [], milestones := [], fetches := [.ok blocksS3],
    penalizeErr := none }

/-- The world of scenario S4: as S3, and `Penalize` itself fails. -/
def worldS4 : Script :=
  { current := hdr 1200, checkpoints := [], milestones := [], fetches := [.ok blocksS3],
    penalizeErr := some (.other 3) }

/-- A world whose peer answers the fetch with the given error. -/
def worldFetchError (e : Error) : Script :=
  { current := hdr 1200, checkpoints := [], milestones := [], fetches := [.error e],
    penalizeErr := none }

/-- The calls of a trace, without their replies. -/
def calls (trace : List Entry) : List Call := trace.map Entry.call

/-! ## Vocabulary of the theorems -/

/-- The calls of the commit barrier, in order. -/
def barrierCalls (newTip finalizedHeader : Header) : List Call :=
  [.Flush, .SynchronizeSpans (Uint64 newTip.number), .BridgeSynchronize (Uint64 newTip.number),
    .UpdateForkChoice newTip finalizedHeader]

/-- The trace of a commit barrier in which every call succeeds. -/
def barrierEntries (newTip finalizedHeader : Header) : List Entry :=
  (barrierCalls newTip finalizedHeader).map (fun c => ⟨c, .ok⟩)

/-- A downloader for `sync`: an arbitrary function of the world, whose calls are
recorded in the trace. -/
def tracedDownloader (d : Nat → W → Except Error (Option Header) × W) (startBlockNum : Nat)
    (st : Ext W) : Except Error (Option Header) × Ext W :=
  invokeHeader (.tipDownloader startBlockNum) (d startBlockNum) st

/-- How a run of `sync` ends: the downloader answers with no header, the
downloader fails, or the downloader answers with a header and the commit barrier
for it fails. -/
inductive Ending where
  | caughtUp
  | downloadFails (err : Error)
  | commitFails (newTip : Header) (err : Error)
deriving DecidableEq, Repr

/-- What `sync` returns at an ending, `last` being the last committed tip. -/
def Ending.result (last : Header) : Ending → Except Error Header
  | .caughtUp => .ok last
  | .downloadFails err => .error err
  | .commitFails _ err => .error err

/-- What the last download of a run answered. -/
def Ending.reply : Ending → Reply
  | .caughtUp => .header none
  | .downloadFails err => .err err
  | .commitFails newTip _ => .header (some newTip)

/-- The run of `sync` from `tip` in state `st` in which the downloader `dl`
answers the headers `hs`, one per round, each followed by a commit barrier that
succeeds, and then ends as `ending` says. -/
def CatchUp (s : Sync W B) (dl : Nat → Ext W → Except Error (Option Header) × Ext W) :
    Header → List Header → Ending → Ext W → Prop
  | tip, [], .caughtUp, st => (dl (nextBlockNum tip) st).1 = .ok none
  | tip, [], .downloadFails err, st => (dl (nextBlockNum tip) st).1 = .error err
  | tip, [], .commitFails newTip err, st =>
    (dl (nextBlockNum tip) st).1 = .ok (some newTip) ∧
      (commitExecution s newTip newTip (dl (nextBlockNum tip) st).2).1 = some err
  | tip, h :: hs, ending, st =>
    (dl (nextBlockNum tip) st).1 = .ok (some h) ∧
      (commitExecution s h h (dl (nextBlockNum tip) st).2).1 = none ∧
      CatchUp s dl h hs ending (commitExecution s h h (dl (nextBlockNum tip) st).2).2

/-- The trace of the rounds of `sync` that download the headers `hs` from
`tip` on: each round is one download followed by one commit barrier. -/
def roundsTrace : Header → List Header → List Entry
  | _, [] => []
  | tip, h :: hs =>
    ⟨.tipDownloader (nextBlockNum tip), .header (some h)⟩ :: barrierEntries h h ++ roundsTrace h hs

/-- The start block numbers of the downloader calls of a trace. -/
def downloadStarts (trace : List Entry) : List Nat :=
  trace.filterMap (fun e => match e.call with
    | .tipDownloader n => some n
    | _ => none)

/-- The `(tip, finalized)` arguments of the fork-choice updates of a trace. -/
def forkChoices (trace : List Entry) : List (Header × Header) :=
  trace.filterMap (fun e => match e.call with
    | .UpdateForkChoice t f => some (t, f)
    | _ => none)

/-- Handle the events of a list one after the other, as long as every handler
returns `nil`: the chain builder and outside state after the last of them. -/
def handledAll (s : Sync W B) : List Event → B → Ext W → Option (B × Ext W)
  | [], ccBuilder, st => some (ccBuilder, st)
  | event :: rest, ccBuilder, st =>
    match handleEvent s event ccBuilder st with
    | .ok (none, ccBuilder, st) => handledAll s rest ccBuilder st
    | _ => none

/-- Whether a call is a call of the blocks verifier. -/
def Call.isBlocksVerifier : Call → Bool
  | .blocksVerifier _ => true
  | _ => false

/-- Whether a call is a call of `FetchBlocks`. -/
def Call.isFetchBlocks : Call → Bool
  | .FetchBlocks _ _ _ => true
  | _ => false

/-- Whether, in a list of calls, a call satisfying `p` occurs and a call
satisfying `q` occurs, the first `p` before the first `q`. -/
def occursBefore (p q : Call → Bool) (cs : List Call) : Bool :=
  decide (cs.findIdx p < cs.findIdx q) && decide (cs.findIdx q < cs.length)

/-- The call sequences that `onNewBlockEvent` can make from the blocks verifier
on, for the batch `newBlocks` of peer `peerId`: rejected and penalized; verified
and connected (or not connected) without a change of tip; inserted, with
`InsertBlocks` failing; inserted and fork choice moved to `newTip` over `root`. -/
def batchCalls (peerId : PeerId) (newBlocks : List Block) (newTip root : Header) :
    List (List Call) :=
  [ [.blocksVerifier newBlocks, .Penalize peerId],
    [.blocksVerifier newBlocks, .Connect (newBlocks.map Block.header)],
    [.blocksVerifier newBlocks, .Connect (newBlocks.map Block.header), .InsertBlocks newBlocks],
    [.blocksVerifier newBlocks, .Connect (newBlocks.map Block.header), .InsertBlocks newBlocks,
      .UpdateForkChoice newTip root] ]

/-- The last header of `tip :: hs`: the tip that `sync` holds after the rounds
that download `hs`. -/
def lastTip : Header → List Header → Header
  | tip, [] => tip
  | _, h :: hs => lastTip h hs

/-- What follows the last download of a run in the trace: nothing, unless a
commit barrier failed; then the calls of that barrier up to the failing one. -/
def Ending.tail : Ending → List Entry → Prop
  | .caughtUp, es => es = []
  | .downloadFails _, es => es = []
  | .commitFails newTip err, es =>
    es ≠ [] ∧ calls es = (barrierCalls newTip newTip).take es.length ∧
      (∀ e ∈ es.dropLast, e.reply = Reply.ok) ∧ es.getLast?.map Entry.reply = some (.err err)

/-- The number of commit barriers started in a trace: its `Flush` calls. -/
def barrierCount (trace : List Entry) : Nat := (calls trace).count .Flush

/-- The block numbers of the finalized headers of the fork-choice updates of a
trace. -/
def finalizedNumbers (trace : List Entry) : List Nat :=
  (forkChoices trace).map (fun p => p.2.number)

/-- What a run of `Run` that returned shows: the error, the chain builder and
the trace at that point. -/
def summary : Option (Except Panic (Option Error × Option B × Ext W)) →
    Option (Option Error × Option B × List Entry)
  | some (.ok (err, ccBuilder, st)) => some (err, ccBuilder, st.trace)
  | _ => none

/-- The new-block event `event` is above the root and `onNewBlockEvent` forms
the batch `blocks` for it, reaching the blocks verifier in the outside state
`st1`: either the parent of the block is in the builder, the batch is the block
of the event and nothing was called; or the parent is not in the builder,
`FetchBlocks(root.Number, N+1, peerId)` was called and answered `blocks`. -/
def HasBatch (s : Sync W B) (event : EventNewBlock) (ccBuilder : B) (st : Ext W)
    (blocks : List Block) (st1 : Ext W) : Prop :=
  Uint64 (s.ccBuilderMethods.Root ccBuilder).number < Uint64 event.NewBlock.header.number ∧
  ((s.ccBuilderMethods.ContainsHash ccBuilder event.NewBlock.header.parentHash = true ∧
      blocks = [event.NewBlock] ∧ st1 = st) ∨
    (s.ccBuilderMethods.ContainsHash ccBuilder event.NewBlock.header.parentHash = false ∧
      (s.p2pService.FetchBlocks (Uint64 (s.ccBuilderMethods.Root ccBuilder).number)
        (u64add (Uint64 event.NewBlock.header.number) 1) event.PeerId st.world).1 = .ok blocks ∧
      st1 =
        { world := (s.p2pService.FetchBlocks (Uint64 (s.ccBuilderMethods.Root ccBuilder).number)
            (u64add (Uint64 event.NewBlock.header.number) 1) event.PeerId st.world).2,
          trace := st.trace ++
            [⟨.FetchBlocks (Uint64 (s.ccBuilderMethods.Root ccBuilder).number)
              (u64add (Uint64 event.NewBlock.header.number) 1) event.PeerId, .blocks blocks⟩] }))

/-- The world of scenario S3 with a peer that answers the range asked for,
blocks 1200 to 1205, the first of them at the number of the root. -/
def worldRange : Script :=
  { current := hdr 1200, checkpoints := [], milestones := [], fetches := [.ok (blk 1200 :: blocksS3)],
    penalizeErr := none }

/-- The outside state after a call of `FetchBlocks`: the world that the call
leaves and the trace with the call and its answer added. -/
def afterFetch (s : Sync W B) (start endExclusive : Nat) (peerId : PeerId) (st : Ext W) : Ext W :=
  (invokeBlocks (.FetchBlocks start endExclusive peerId)
    (s.p2pService.FetchBlocks start endExclusive peerId) st).2

/-- Whether `onNewBlockHashesEvent` skips an announcement without a call: its
number is at or below the number of the root, or its hash is in the builder. -/
def skipped (s : Sync W B) (ccBuilder : B) (a : HashNum) : Bool :=
  decide (a.Number ≤ Uint64 (s.ccBuilderMethods.Root ccBuilder).number)
    || s.ccBuilderMethods.ContainsHash ccBuilder a.Hash

/-- What a handler that returned shows: the error, the chain builder and the
trace; `none` when the handler panicked. -/
def handled : Except Panic (Option Error × B × Ext W) → Option (Option Error × B × List Entry)
  | .ok (err, ccBuilder, st) => some (err, ccBuilder, st.trace)
  | .error _ => none

/-- The event of scenario S6: one announcement at number 1150, below the root,
from peer 3. -/
def eventS6 : EventNewBlockHashes :=
  { NewBlockHashes := [{ Hash := 77, Number := 1150 }], PeerId := 3 }

/-- An announcement of block 1201 from peer 3. -/
def eventAnnounce1201 : EventNewBlockHashes :=
  { NewBlockHashes := [{ Hash := 1201, Number := 1201 }], PeerId := 3 }

/-- A world whose peer answers the fetch with block 1201. -/
def worldOneBlock : Script :=
  { current := hdr 1200, checkpoints := [], milestones := [], fetches := [.ok [blk 1201]],
    penalizeErr := none }

/-- An announcement with the greatest `uint64` number, from peer 3. -/
def eventAnnounceMax : EventNewBlockHashes :=
  { NewBlockHashes := [{ Hash := 5, Number := 2 ^ 64 - 1 }], PeerId := 3 }

/-- Whether a call is a call of the execution client. -/
def Call.isExecution : Call → Bool
  | .CurrentHeader => true
  | .InsertBlocks _ => true
  | .UpdateForkChoice _ _ => true
  | _ => false

/-- The fork-choice pointers of the execution engine after a trace: the head and
the finalized header of the last `UpdateForkChoice` that succeeded, if any. -/
def forkChoicePointers (trace : List Entry) : Option (Header × Header) :=
  (trace.filterMap (fun e => match e with
    | ⟨.UpdateForkChoice t f, .ok⟩ => some (t, f)
    | _ => none)).getLast?

/-- The part of the contract of section 4.1 that concerns `Connect`: it never
moves the root, never removes a hash, leaves the builder as it was when it
fails, and is a no-op on headers already present: connecting a batch again, or
one header of a batch that was connected, changes nothing.  The no-op extends to
the pointer that `Tip()` returns: as long as `Connect` leaves the tip header the
same, `Tip()` returns it at the same address (`tip_pointer`).  A builder that
returns an equal header at another address after `Connect` does not keep this
contract. -/
structure ConnectContract (M : CanonicalChainBuilder B) : Prop where
  tip_pointer : ∀ (b : B) (hs : List Header),
    M.Tip (M.Connect b hs).2 = M.Tip b → M.TipAddr (M.Connect b hs).2 = M.TipAddr b
  root_kept : ∀ (b : B) (hs : List Header), M.Root (M.Connect b hs).2 = M.Root b
  hash_kept : ∀ (b : B) (hs : List Header) (x : Hash),
    M.ContainsHash b x = true → M.ContainsHash (M.Connect b hs).2 x = true
  failed_kept : ∀ (b : B) (hs : List Header), (M.Connect b hs).1 ≠ none → (M.Connect b hs).2 = b
  again : ∀ (b : B) (hs : List Header), (M.Connect (M.Connect b hs).2 hs).2 = (M.Connect b hs).2
  present : ∀ (b : B) (hs : List Header) (h : Header), h ∈ hs → (M.Connect b hs).1 = none →
    (M.Connect (M.Connect b hs).2 [h]).2 = (M.Connect b hs).2

/-- Handling the same new-block event a second time, from the builder and the
outside state that the first handling left. -/
def handleTwice (s : Sync W B) (event : EventNewBlock) (ccBuilder : B) (st : Ext W) :
    Option Error × B × Ext W :=
  onNewBlockEvent s event (onNewBlockEvent s event ccBuilder st).2.1
    (onNewBlockEvent s event ccBuilder st).2.2

/-- The `Sync` of the scenarios with a peer whose `FetchBlocks` gives the same
answer to every call. -/
def steadySync (answer : Except Error (List Block)) : Sync Script ChainTree :=
  { syncS with
    p2pService :=
      { FetchBlocks := fun _ _ _ w => (answer, w)
        Penalize := fun _ w => (w.penalizeErr, w) } }

/-- The blocks 1201 to 1204 of the main branch. -/
def blocksTo1204 : List Block := [blk 1201, blk 1202, blk 1203, blk 1204]

/-- A chain builder that stores the headers as the builder of the specification
does and returns its tip as a copy that every successful `Connect` makes anew:
the state counts these calls, and the count is the address of the tip. -/
def copyingBuilder : CanonicalChainBuilder (ChainTree × Nat) where
  Root := fun b => b.1.root
  Tip := fun b => b.1.tip
  TipAddr := fun b => b.2
  ContainsHash := fun b h => b.1.ContainsHash h
  HeadersInRange := fun b start length => b.1.HeadersInRange start length
  Connect := fun b headers =>
    match b.1.Connect headers with
    | (none, t) => (none, (t, b.2 + 1))
    | (some err, t) => (some err, (t, b.2))
  Prune := fun b uptoBlockNum =>
    ((b.1.Prune uptoBlockNum).1, ((b.1.Prune uptoBlockNum).2, b.2 + 1))
  Reset := fun b newRoot => (b.1.Reset newRoot, b.2 + 1)

/-- The `Sync` of the scenarios over the copying builder. -/
def copyingSync : Sync Script (ChainTree × Nat) where
  store := syncS.store
  execution := syncS.execution
  milestoneVerifier := syncS.milestoneVerifier
  blocksVerifier := syncS.blocksVerifier
  p2pService := syncS.p2pService
  blockDownloader := syncS.blockDownloader
  ccBuilderFactory := fun root => (ChainTree.create root, 0)
  ccBuilderMethods := copyingBuilder
  heimdallSync := syncS.heimdallSync
  bridgeSync := syncS.bridgeSync

/-! # Theorems -/

/-! ## Shared lemmas -/

theorem Uint64_of_lt {n : Nat} (h : n < 2 ^ 64) : Uint64 n = n := Nat.mod_eq_of_lt h

/-- The header that the pointer of `Tip()` points to. -/
theorem TipPtr_header (M : CanonicalChainBuilder B) (b : B) : (M.TipPtr b).header = M.Tip b :=
  rfl

/-- Two tips with different headers are different pointers. -/
theorem TipPtr_ne_of_tip_ne (M : CanonicalChainBuilder B) (b1 b2 : B)
    (h : M.Tip b1 ≠ M.Tip b2) : M.TipPtr b1 ≠ M.TipPtr b2 :=
  fun hp => h (congrArg HeaderPtr.header hp)

/-- What a commit barrier adds to the trace: a non-empty initial segment of the
four barrier calls, all but the last successful, the last one giving the result. -/
theorem commitExecution_trace (s : Sync W B) (newTip finalizedHeader : Header) (st : Ext W) :
    ∃ es : List Entry,
      (commitExecution s newTip finalizedHeader st).2.trace = st.trace ++ es ∧
      es ≠ [] ∧
      calls es = (barrierCalls newTip finalizedHeader).take es.length ∧
      (∀ e ∈ es.dropLast, e.reply = Reply.ok) ∧
      es.getLast?.map Entry.reply
        = some (Reply.ofErr (commitExecution s newTip finalizedHeader st).1) ∧
      ((commitExecution s newTip finalizedHeader st).1 = none
        ↔ es = barrierEntries newTip finalizedHeader) := by
  rcases h1 : s.store.Flush st.world with ⟨_ | e1, w1⟩
  · rcases h2 : s.heimdallSync.SynchronizeSpans (Uint64 newTip.number) w1 with ⟨_ | e2, w2⟩
    · rcases h3 : s.bridgeSync.Synchronize (Uint64 newTip.number) w2 with ⟨_ | e3, w3⟩
      · rcases h4 : s.execution.UpdateForkChoice newTip finalizedHeader w3 with ⟨r4, w4⟩
        refine ⟨[⟨.Flush, .ok⟩, ⟨.SynchronizeSpans (Uint64 newTip.number), .ok⟩,
          ⟨.BridgeSynchronize (Uint64 newTip.number), .ok⟩,
          ⟨.UpdateForkChoice newTip finalizedHeader, Reply.ofErr r4⟩], ?_⟩
        cases r4 <;>
          simp [commitExecution, invokeErr, h1, h2, h3, h4, calls, barrierCalls, barrierEntries,
            Reply.ofErr]
      · refine ⟨[⟨.Flush, .ok⟩, ⟨.SynchronizeSpans (Uint64 newTip.number), .ok⟩,
          ⟨.BridgeSynchronize (Uint64 newTip.number), .err e3⟩], ?_⟩
        simp [commitExecution, invokeErr, h1, h2, h3, calls, barrierCalls, barrierEntries,
          Reply.ofErr]
    · refine ⟨[⟨.Flush, .ok⟩, ⟨.SynchronizeSpans (Uint64 newTip.number), .err e2⟩], ?_⟩
      simp [commitExecution, invokeErr, h1, h2, calls, barrierCalls, barrierEntries, Reply.ofErr]
  · refine ⟨[⟨.Flush, .err e1⟩], ?_⟩
    simp [commitExecution, invokeErr, h1, calls, barrierCalls, barrierEntries, Reply.ofErr]

/-- A commit barrier that returns `nil` made exactly the four calls, each
successful. -/
theorem commitExecution_ok_trace (s : Sync W B) (newTip finalizedHeader : Header) (st : Ext W)
    (h : (commitExecution s newTip finalizedHeader st).1 = none) :
    (commitExecution s newTip finalizedHeader st).2.trace
      = st.trace ++ barrierEntries newTip finalizedHeader := by
  obtain ⟨es, h1, -, -, -, -, h6⟩ := commitExecution_trace s newTip finalizedHeader st
  rw [h1, h6.1 h]

/-! ## The commit barrier -/

/-- C1: for every new tip, finalized header and behaviour of the collaborators,
the calls that `commitExecution` adds to the trace are a non-empty initial
segment of `Flush`, `SynchronizeSpans(blockNum)`, `Synchronize(blockNum)`,
`UpdateForkChoice(newTip, finalizedHeader)` with
`blockNum = newTip.Number.Uint64()`; every call before the last one succeeded,
and the result of `commitExecution` is exactly what the last call returned.  It
returns `nil` if and only if all four calls were made and every one succeeded.
`blockNum` is `newTip.Number` whenever that number fits in 64 bits. -/
theorem commitExecution_call_sequence (s : Sync W B) (newTip finalizedHeader : Header)
    (st : Ext W) :
    (∃ es : List Entry,
      (commitExecution s newTip finalizedHeader st).2.trace = st.trace ++ es ∧
      es ≠ [] ∧
      calls es = (barrierCalls newTip finalizedHeader).take es.length ∧
      (∀ e ∈ es.dropLast, e.reply = Reply.ok) ∧
      es.getLast?.map Entry.reply
        = some (Reply.ofErr (commitExecution s newTip finalizedHeader st).1) ∧
      ((commitExecution s newTip finalizedHeader st).1 = none
        ↔ calls es = barrierCalls newTip finalizedHeader ∧ ∀ e ∈ es, e.reply = Reply.ok)) ∧
    barrierCalls newTip finalizedHeader =
      [.Flush, .SynchronizeSpans (Uint64 newTip.number),
        .BridgeSynchronize (Uint64 newTip.number), .UpdateForkChoice newTip finalizedHeader] ∧
    (newTip.number < 2 ^ 64 → Uint64 newTip.number = newTip.number) := by
  refine ⟨?_, rfl, Uint64_of_lt⟩
  obtain ⟨es, h1, h2, h3, h4, h5, h6⟩ := commitExecution_trace s newTip finalizedHeader st
  refine ⟨es, h1, h2, h3, h4, h5, h6.trans ⟨?_, ?_⟩⟩
  · rintro rfl
    simp [barrierEntries, calls, Function.comp_def]
  · rintro ⟨hc, hr⟩
    apply List.ext_getElem
    · simpa [calls, barrierEntries] using congrArg List.length hc
    · intro i hi hi2
      have hci : (calls es)[i]? = (barrierCalls newTip finalizedHeader)[i]? := by rw [hc]
      have hri := hr es[i] (List.getElem_mem _)
      simp only [calls, List.getElem?_map, List.getElem?_eq_getElem hi, Option.map_some] at hci
      simp only [barrierEntries, List.getElem_map]
      have hlen : i < (barrierCalls newTip finalizedHeader).length := by
        simpa [barrierEntries] using hi2
      rw [List.getElem?_eq_getElem hlen] at hci
      cases hx : es[i] with
      | mk c r =>
        rw [hx] at hci hri
        have hci := Option.some.inj hci
        have hri2 : r = Reply.ok := hri
        rw [← hci, hri2]

/-! ## The catch-up loop -/

theorem tracedDownloader_trace (d : Nat → W → Except Error (Option Header) × W) (n : Nat)
    (st : Ext W) :
    (tracedDownloader d n st).2.trace
      = st.trace ++ [⟨.tipDownloader n, Reply.ofHeader (tracedDownloader d n st).1⟩] := rfl

/-- The run of `sync` described by `CatchUp`, by induction on the headers. -/
theorem sync_of_catchUp (s : Sync W B) (d : Nat → W → Except Error (Option Header) × W) :
    ∀ (hs : List Header) (tip : Header) (ending : Ending) (st : Ext W) (fuel : Nat),
      hs.length + 1 ≤ fuel → CatchUp s (tracedDownloader d) tip hs ending st →
      ∃ (st1 : Ext W) (es : List Entry),
        sync s (tracedDownloader d) fuel tip st = some (ending.result (lastTip tip hs), st1) ∧
        st1.trace = st.trace ++ roundsTrace tip hs
          ++ ⟨.tipDownloader (nextBlockNum (lastTip tip hs)), ending.reply⟩ :: es ∧
        ending.tail es := by
  intro hs
  induction hs with
  | nil =>
    intro tip ending st fuel hfuel hrun
    obtain ⟨fuel, rfl⟩ : ∃ k, fuel = k + 1 := ⟨fuel - 1, by simp at hfuel; omega⟩
    have ht := tracedDownloader_trace d (nextBlockNum tip) st
    cases ending with
    | caughtUp =>
      have h : (tracedDownloader d (nextBlockNum tip) st).1 = .ok none := hrun
      rw [h] at ht
      refine ⟨(tracedDownloader d (nextBlockNum tip) st).2, [], ?_, ?_, rfl⟩
      · rcases hdl : tracedDownloader d (nextBlockNum tip) st with ⟨r, st1⟩
        rw [hdl] at h
        simp only at h
        subst h
        simp [sync, hdl, Ending.result, lastTip]
      · simpa [roundsTrace, Ending.reply, Reply.ofHeader, lastTip] using ht
    | downloadFails err =>
      have h : (tracedDownloader d (nextBlockNum tip) st).1 = .error err := hrun
      rw [h] at ht
      refine ⟨(tracedDownloader d (nextBlockNum tip) st).2, [], ?_, ?_, rfl⟩
      · rcases hdl : tracedDownloader d (nextBlockNum tip) st with ⟨r, st1⟩
        rw [hdl] at h
        simp only at h
        subst h
        simp [sync, hdl, Ending.result, lastTip]
      · simpa [roundsTrace, Ending.reply, Reply.ofHeader, lastTip] using ht
    | commitFails newTip err =>
      obtain ⟨h, hc⟩ : (tracedDownloader d (nextBlockNum tip) st).1 = .ok (some newTip) ∧
          (commitExecution s newTip newTip (tracedDownloader d (nextBlockNum tip) st).2).1
            = some err := hrun
      rw [h] at ht
      obtain ⟨es, he1, he2, he3, he4, he5, -⟩ :=
        commitExecution_trace s newTip newTip (tracedDownloader d (nextBlockNum tip) st).2
      rw [hc] at he5
      refine ⟨(commitExecution s newTip newTip (tracedDownloader d (nextBlockNum tip) st).2).2,
        es, ?_, ?_, ⟨he2, he3, he4, he5⟩⟩
      · rcases hdl : tracedDownloader d (nextBlockNum tip) st with ⟨r, st1⟩
        rw [hdl] at h hc
        simp only at h hc
        subst h
        rcases hce : commitExecution s newTip newTip st1 with ⟨rc, st2⟩
        rw [hce] at hc
        simp only at hc
        subst hc
        simp [sync, hdl, hce, Ending.result, lastTip]
      · rw [he1, ht]
        simp [roundsTrace, Ending.reply, Reply.ofHeader, lastTip]
  | cons h hs ih =>
    intro tip ending st fuel hfuel hrun
    obtain ⟨fuel, rfl⟩ : ∃ k, fuel = k + 1 := ⟨fuel - 1, by simp at hfuel; omega⟩
    have ht := tracedDownloader_trace d (nextBlockNum tip) st
    obtain ⟨hd, hc, hrest⟩ : (tracedDownloader d (nextBlockNum tip) st).1 = .ok (some h) ∧
        (commitExecution s h h (tracedDownloader d (nextBlockNum tip) st).2).1 = none ∧
        CatchUp s (tracedDownloader d) h hs ending
          (commitExecution s h h (tracedDownloader d (nextBlockNum tip) st).2).2 := hrun
    rw [hd] at ht
    have hct := commitExecution_ok_trace s h h (tracedDownloader d (nextBlockNum tip) st).2 hc
    obtain ⟨st1, es, hs1, hs2, hs3⟩ := ih h ending _ fuel (by simp at hfuel; omega) hrest
    refine ⟨st1, es, ?_, ?_, hs3⟩
    · rcases hdl : tracedDownloader d (nextBlockNum tip) st with ⟨r, st2⟩
      rw [hdl] at hd hc hs1
      simp only at hd hc hs1
      subst hd
      rcases hce : commitExecution s h h st2 with ⟨rc, st3⟩
      rw [hce] at hc hs1
      simp only at hc hs1
      subst hc
      simp [sync, hdl, hce, hs1, lastTip]
    · rw [hs2, hct, ht]
      simp [roundsTrace, Reply.ofHeader, lastTip]

theorem downloadStarts_roundsTrace (r : Reply) :
    ∀ (hs : List Header) (tip : Header),
      downloadStarts (roundsTrace tip hs ++ [⟨.tipDownloader (nextBlockNum (lastTip tip hs)), r⟩])
        = (tip :: hs).map nextBlockNum := by
  intro hs
  induction hs with
  | nil => intro tip; simp [roundsTrace, downloadStarts, lastTip]
  | cons h hs ih =>
    intro tip
    have := ih h
    simp only [downloadStarts, List.filterMap_append] at this ⊢
    simp only [List.filterMap_cons, List.filterMap_nil] at this
    simp [roundsTrace, barrierEntries, barrierCalls, List.filterMap_cons, List.filterMap_append,
      lastTip, this]

theorem forkChoices_roundsTrace (r : Reply) (n : Nat) :
    ∀ (hs : List Header) (tip : Header),
      forkChoices (roundsTrace tip hs ++ [⟨.tipDownloader n, r⟩]) = hs.map (fun h => (h, h)) := by
  intro hs
  induction hs with
  | nil => intro tip; simp [roundsTrace, forkChoices]
  | cons h hs ih =>
    intro tip
    have := ih h
    simp only [forkChoices] at this ⊢
    simp [roundsTrace, barrierEntries, barrierCalls, List.filterMap_cons, List.filterMap_append,
      this]

theorem nextBlockNum_of_lt (h : Header) (hlt : h.number + 1 < 2 ^ 64) :
    nextBlockNum h = h.number + 1 := by
  unfold nextBlockNum u64add Uint64
  rw [Nat.mod_eq_of_lt (by omega : h.number < 2 ^ 64), Nat.mod_eq_of_lt hlt]

/-- C2: let the downloader (any function of the world, its calls recorded)
answer the headers `hs = h1, ..., hk` from tip `t0` on, each followed by a commit
barrier that succeeds, and then end the run: with no header, with an error, or
with a header whose commit barrier fails.  Given fuel for `k+1` rounds, `sync`
returns: in the first case `hk` (`t0` when `k = 0`) and no error, in the other
two cases the error and no header.  What it adds to the trace is, for each `hi`
in order, one downloader call followed by the four successful barrier calls with
`tip = finalized = hi`, then the last downloader call, then (only when a commit
barrier failed) the calls of that barrier up to the failing one; nothing
follows.  So the downloader is called `k+1` times, with start numbers
`t0.Number+1, h1.Number+1, ..., hk.Number+1` in `uint64` arithmetic, and the
fork-choice updates of the completed rounds are `(h1, h1), ..., (hk, hk)`. -/
theorem sync_catch_up (s : Sync W B) (d : Nat → W → Except Error (Option Header) × W)
    (t0 : Header) (hs : List Header) (ending : Ending) (st : Ext W) (fuel : Nat)
    (hfuel : hs.length + 1 ≤ fuel) (hrun : CatchUp s (tracedDownloader d) t0 hs ending st) :
    (∃ (st1 : Ext W) (es : List Entry),
      sync s (tracedDownloader d) fuel t0 st = some (ending.result (lastTip t0 hs), st1) ∧
      st1.trace = st.trace ++ roundsTrace t0 hs
        ++ ⟨.tipDownloader (nextBlockNum (lastTip t0 hs)), ending.reply⟩ :: es ∧
      ending.tail es) ∧
    downloadStarts
        (roundsTrace t0 hs ++ [⟨.tipDownloader (nextBlockNum (lastTip t0 hs)), ending.reply⟩])
      = (t0 :: hs).map nextBlockNum ∧
    forkChoices
        (roundsTrace t0 hs ++ [⟨.tipDownloader (nextBlockNum (lastTip t0 hs)), ending.reply⟩])
      = hs.map (fun h => (h, h)) ∧
    (∀ h : Header, h.number + 1 < 2 ^ 64 → nextBlockNum h = h.number + 1) :=
  ⟨sync_of_catchUp s d hs t0 ending st fuel hfuel hrun, downloadStarts_roundsTrace _ hs t0,
    forkChoices_roundsTrace _ _ hs t0, nextBlockNum_of_lt⟩

/-- C2, at the checkpoint pass of scenario S1: from block 100 the downloader
answers 500, 1000 and then no header. -/
theorem sync_catch_up_witness :
    ([hdr 500, hdr 1000].length + 1 ≤ 3 ∧
      CatchUp syncS (tracedDownloader syncS.blockDownloader.DownloadBlocksUsingCheckpoints)
        (hdr 100) [hdr 500, hdr 1000] .caughtUp ⟨worldS1, []⟩) ∧
    ((∃ (st1 : Ext Script) (es : List Entry),
      sync syncS (tracedDownloader syncS.blockDownloader.DownloadBlocksUsingCheckpoints) 3
          (hdr 100) ⟨worldS1, []⟩
        = some (Ending.caughtUp.result (lastTip (hdr 100) [hdr 500, hdr 1000]), st1) ∧
      st1.trace = [] ++ roundsTrace (hdr 100) [hdr 500, hdr 1000]
        ++ ⟨.tipDownloader (nextBlockNum (lastTip (hdr 100) [hdr 500, hdr 1000])),
            Ending.caughtUp.reply⟩ :: es ∧
      Ending.caughtUp.tail es) ∧
    downloadStarts
        (roundsTrace (hdr 100) [hdr 500, hdr 1000]
          ++ [⟨.tipDownloader (nextBlockNum (lastTip (hdr 100) [hdr 500, hdr 1000])),
            Ending.caughtUp.reply⟩])
      = [hdr 100, hdr 500, hdr 1000].map nextBlockNum ∧
    forkChoices
        (roundsTrace (hdr 100) [hdr 500, hdr 1000]
          ++ [⟨.tipDownloader (nextBlockNum (lastTip (hdr 100) [hdr 500, hdr 1000])),
            Ending.caughtUp.reply⟩])
      = [hdr 500, hdr 1000].map (fun h => (h, h)) ∧
    (∀ h : Header, h.number + 1 < 2 ^ 64 → nextBlockNum h = h.number + 1)) :=
  ⟨⟨by decide, rfl, rfl, rfl, rfl, rfl⟩,
    sync_catch_up syncS syncS.blockDownloader.DownloadBlocksUsingCheckpoints (hdr 100)
      [hdr 500, hdr 1000] .caughtUp ⟨worldS1, []⟩ 3 (by decide) ⟨rfl, rfl, rfl, rfl, rfl⟩⟩

/-- More fuel does not change a run of `sync` that returned. -/
theorem sync_fuel_mono (s : Sync W B)
    (dl : Nat → Ext W → Except Error (Option Header) × Ext W) (k : Nat) :
    ∀ (fuel : Nat) (tip : Header) (st : Ext W) (r : Except Error Header × Ext W),
      sync s dl fuel tip st = some r → sync s dl (fuel + k) tip st = some r := by
  intro fuel
  induction fuel with
  | zero => intro tip st r h; simp [sync] at h
  | succ f ih =>
    intro tip st r h
    rw [Nat.add_right_comm f 1 k]
    rcases hdl : dl (nextBlockNum tip) st with ⟨_ | _ | newTip, st1⟩
    · simpa [sync, hdl] using h
    · simpa [sync, hdl] using h
    · rcases hce : commitExecution s newTip newTip st1 with ⟨_ | err, st2⟩
      · simp only [sync, hdl, hce] at h ⊢
        exact ih newTip st2 r h
      · simpa [sync, hdl, hce] using h

/-- More fuel does not change a run of `syncToTip` that returned. -/
theorem syncToTip_fuel_mono (s : Sync W B) (k fuel : Nat) (st : Ext W)
    (r : Except Error Header × Ext W) (h : syncToTip s fuel st = some r) :
    syncToTip s (fuel + k) st = some r := by
  rcases hcur : s.execution.CurrentHeader st.world with ⟨err | tip, w⟩
  · simpa [syncToTip, hcur] using h
  · simp only [syncToTip, hcur, syncToTipUsingCheckpoints, syncToTipUsingMilestones] at h ⊢
    rcases h1 : sync s (checkpointTipDownloader s) fuel tip
        { world := w, trace := st.trace ++ [⟨.CurrentHeader, .header (some tip)⟩] }
      with _ | ⟨_ | tip1, st1⟩
    · simp [h1] at h
    · rw [sync_fuel_mono s _ k _ _ _ _ h1]
      simpa [h1] using h
    · rw [sync_fuel_mono s _ k _ _ _ _ h1]
      rw [h1] at h
      simp only at h ⊢
      rcases h2 : sync s (milestoneTipDownloader s) fuel tip1 st1 with _ | ⟨_ | tip2, st2⟩
      · simp [h2] at h
      · rw [sync_fuel_mono s _ k _ _ _ _ h2]
        simpa [h2] using h
      · rw [sync_fuel_mono s _ k _ _ _ _ h2]
        simpa [h2] using h

/-- More fuel does not change a run of `Run` that returned. -/
theorem Run_fuel_mono (s : Sync W B) (k fuel : Nat) (events : List Event) (st : Ext W)
    (r : Except Panic (Option Error × Option B × Ext W)) (h : Run s fuel events st = some r) :
    Run s (fuel + k) events st = some r := by
  rcases h1 : syncToTip s fuel st with _ | r1
  · simp [Run, h1] at h
  · simp only [Run, syncToTip_fuel_mono s k fuel st r1 h1] at h ⊢
    simpa [h1] using h

/-! ## Scenario S1 -/

/-- C3, as stated, fails: in scenario S1 (execution at block 100, checkpoint
downloads ending at 500 and 1000, milestone download ending at 1200) the
catch-up of `Run` returns having run three commit barriers, not four. -/
theorem S1_not_four_barriers :
    (summary (Run syncS 3 [] ⟨worldS1, []⟩)).map (fun r => barrierCount r.2.2) = some 3 ∧
    (summary (Run syncS 3 [] ⟨worldS1, []⟩)).map (fun r => barrierCount r.2.2) ≠ some 4 := by
  decide

/-- C3, amended: in scenario S1, with fuel for three rounds or more per pass,
`Run` on no event runs exactly three commit barriers, with
`tip = finalized` at 500, 1000 and 1200 in this order, then creates the chain
builder by `ccBuilderFactory` from the header numbered 1200, whose root and tip
are that header, and returns `ctx.Err()`. -/
theorem S1_three_barriers (k : Nat) :
    (summary (Run syncS (3 + k) [] ⟨worldS1, []⟩)).map (fun r => (r.1, r.2.1))
      = some (some .contextDone, some (ChainTree.create (hdr 1200))) ∧
    (summary (Run syncS (3 + k) [] ⟨worldS1, []⟩)).map (fun r => barrierCount r.2.2) = some 3 ∧
    (summary (Run syncS (3 + k) [] ⟨worldS1, []⟩)).map (fun r => forkChoices r.2.2)
      = some [(hdr 500, hdr 500), (hdr 1000, hdr 1000), (hdr 1200, hdr 1200)] ∧
    (summary (Run syncS (3 + k) [] ⟨worldS1, []⟩)).map (fun r => finalizedNumbers r.2.2)
      = some [500, 1000, 1200] ∧
    (summary (Run syncS (3 + k) [] ⟨worldS1, []⟩)).map (fun r => (calls r.2.2).getLast?)
      = some (some (.ccBuilderFactory (hdr 1200))) ∧
    specChainBuilder.Root (ChainTree.create (hdr 1200)) = hdr 1200 ∧
    specChainBuilder.Tip (ChainTree.create (hdr 1200)) = hdr 1200 := by
  have h3 : (Run syncS 3 [] ⟨worldS1, []⟩).isSome = true := by decide
  obtain ⟨r, hr⟩ := Option.isSome_iff_exists.mp h3
  rw [Run_fuel_mono syncS k 3 [] _ r hr, ← hr]
  decide

/-! ## The builder of the specification keeps its contract -/

/-- `Reset` of the specification sets `root = tip = newRoot`. -/
theorem specChainBuilder_reset (b : ChainTree) (h : Header) :
    specChainBuilder.Root (specChainBuilder.Reset b h) = h ∧
    specChainBuilder.Tip (specChainBuilder.Reset b h) = h := by
  simp [specChainBuilder, ChainTree.Reset, ChainTree.tip, ChainTree.isLeaf]

/-- After a `Prune` of the specification that succeeds, the number of the root
is the number asked for. -/
theorem specChainBuilder_prune (b : ChainTree) (n : Nat)
    (h : (specChainBuilder.Prune b n).1 = none) :
    (specChainBuilder.Root (specChainBuilder.Prune b n).2).number = n := by
  simp only [specChainBuilder, ChainTree.Prune] at h ⊢
  by_cases hcond : b.root.number ≤ n ∧ n ≤ b.tip.number
  · simp only [hcond, and_self, if_true] at h ⊢
    cases hfind : (b.path b.tip).find? (fun x => x.number == n) with
    | none => simp [hfind] at h
    | some newRoot =>
      have hp := List.find?_some hfind
      simpa using hp
  · simp [hcond] at h

/-! ## Milestone events -/

/-- If the events `pre` are all handled with `nil`, the event loop on
`pre ++ rest` continues with `rest` from the state that they leave. -/
theorem eventLoop_append (s : Sync W B) (rest : List Event) :
    ∀ (pre : List Event) (ccBuilder ccBuilder1 : B) (st st1 : Ext W),
      handledAll s pre ccBuilder st = some (ccBuilder1, st1) →
      eventLoop s (pre ++ rest) ccBuilder st = eventLoop s rest ccBuilder1 st1 := by
  intro pre
  induction pre with
  | nil =>
    intro ccBuilder ccBuilder1 st st1 h
    simp only [handledAll, Option.some.injEq, Prod.mk.injEq] at h
    obtain ⟨rfl, rfl⟩ := h
    rfl
  | cons event pre ih =>
    intro ccBuilder ccBuilder1 st st1 h
    rcases hh : handleEvent s event ccBuilder st with p | ⟨_ | err, ccBuilder2, st2⟩
    · simp [handledAll, hh] at h
    · simp only [handledAll, hh] at h
      simp only [List.cons_append, eventLoop, hh]
      exact ih _ _ _ _ h
    · simp [handledAll, hh] at h

/-- C4: whenever `handleMilestoneMismatch` returns `nil`, what it added to the
trace is, in this order, `UpdateForkChoice(r, r)` for the root `r` of the chain
builder, `DownloadBlocksUsingMilestones(r.Number.Uint64())` answering some
header `newTip`, the four calls of the commit barrier with
`tip = finalized = newTip`, and `Reset(newTip)`, every call successful; the
chain builder it leaves is the result of `Reset(newTip)`, so for a builder whose
`Reset` sets `root = tip = newRoot` both `Root()` and `Tip()` are `newTip`. -/
theorem handleMilestoneMismatch_effects (s : Sync W B) (ccBuilder : B) (st : Ext W)
    (hOk : (handleMilestoneMismatch s ccBuilder st).1 = none) :
    ∃ newTip : Header,
      (handleMilestoneMismatch s ccBuilder st).2.2.trace
        = st.trace
          ++ ⟨.UpdateForkChoice (s.ccBuilderMethods.Root ccBuilder)
                (s.ccBuilderMethods.Root ccBuilder), .ok⟩
            :: ⟨.DownloadBlocksUsingMilestones (Uint64 (s.ccBuilderMethods.Root ccBuilder).number),
                .header (some newTip)⟩
            :: barrierEntries newTip newTip
          ++ [⟨.Reset newTip, .ok⟩] ∧
      (handleMilestoneMismatch s ccBuilder st).2.1 = s.ccBuilderMethods.Reset ccBuilder newTip ∧
      ((∀ (b : B) (h : Header), s.ccBuilderMethods.Root (s.ccBuilderMethods.Reset b h) = h ∧
          s.ccBuilderMethods.Tip (s.ccBuilderMethods.Reset b h) = h) →
        s.ccBuilderMethods.Root (handleMilestoneMismatch s ccBuilder st).2.1 = newTip ∧
        s.ccBuilderMethods.Tip (handleMilestoneMismatch s ccBuilder st).2.1 = newTip) := by
  rcases h1 : s.execution.UpdateForkChoice (s.ccBuilderMethods.Root ccBuilder)
      (s.ccBuilderMethods.Root ccBuilder) st.world with ⟨_ | e1, w1⟩
  · rcases h2 : s.blockDownloader.DownloadBlocksUsingMilestones
        (Uint64 (s.ccBuilderMethods.Root ccBuilder).number) w1 with ⟨e2 | _ | newTip, w2⟩
    · simp [handleMilestoneMismatch, invokeErr, invokeHeader, h1, h2] at hOk
    · simp [handleMilestoneMismatch, invokeErr, invokeHeader, h1, h2] at hOk
    · simp only [handleMilestoneMismatch, invokeErr, invokeHeader, h1, h2] at hOk ⊢
      have ht := commitExecution_trace s newTip newTip
        { world := w2,
          trace := (st.trace ++ [⟨.UpdateForkChoice (s.ccBuilderMethods.Root ccBuilder)
                (s.ccBuilderMethods.Root ccBuilder), Reply.ofErr none⟩])
            ++ [⟨.DownloadBlocksUsingMilestones (Uint64 (s.ccBuilderMethods.Root ccBuilder).number),
                Reply.ofHeader (.ok (some newTip))⟩] }
      generalize hce : commitExecution s newTip newTip _ = rc at hOk ht ⊢
      rcases rc with ⟨_ | e3, st3⟩
      · obtain ⟨es, he1, -, -, -, -, he6⟩ := ht
        have hes := he6.1 rfl
        subst hes
        refine ⟨newTip, ?_, rfl, fun hReset => hReset ccBuilder newTip⟩
        simp only at he1
        simp [Ext.note, he1, Reply.ofErr, Reply.ofHeader]
      · simp at hOk
  · simp [handleMilestoneMismatch, invokeErr, h1] at hOk

/-- C4, at scenario S5: the builder has root 1200 and the milestone download
answers with the header 1202 of branch B. -/
theorem handleMilestoneMismatch_effects_witness :
    (handleMilestoneMismatch syncS treeA ⟨worldS5, []⟩).1 = none ∧
    (∀ (b : ChainTree) (h : Header),
      syncS.ccBuilderMethods.Root (syncS.ccBuilderMethods.Reset b h) = h ∧
        syncS.ccBuilderMethods.Tip (syncS.ccBuilderMethods.Reset b h) = h) ∧
    ∃ newTip : Header,
      (handleMilestoneMismatch syncS treeA ⟨worldS5, []⟩).2.2.trace
        = [] ++ ⟨.UpdateForkChoice (syncS.ccBuilderMethods.Root treeA)
                (syncS.ccBuilderMethods.Root treeA), .ok⟩
            :: ⟨.DownloadBlocksUsingMilestones (Uint64 (syncS.ccBuilderMethods.Root treeA).number),
                .header (some newTip)⟩
            :: barrierEntries newTip newTip
          ++ [⟨.Reset newTip, .ok⟩] ∧
      (handleMilestoneMismatch syncS treeA ⟨worldS5, []⟩).2.1
        = syncS.ccBuilderMethods.Reset treeA newTip ∧
      ((∀ (b : ChainTree) (h : Header),
          syncS.ccBuilderMethods.Root (syncS.ccBuilderMethods.Reset b h) = h ∧
            syncS.ccBuilderMethods.Tip (syncS.ccBuilderMethods.Reset b h) = h) →
        syncS.ccBuilderMethods.Root (handleMilestoneMismatch syncS treeA ⟨worldS5, []⟩).2.1
          = newTip ∧
        syncS.ccBuilderMethods.Tip (handleMilestoneMismatch syncS treeA ⟨worldS5, []⟩).2.1
          = newTip) :=
  ⟨by decide, specChainBuilder_reset,
    handleMilestoneMismatch_effects syncS treeA ⟨worldS5, []⟩ (by decide)⟩

/-- C5: let a milestone event with `endBlock` above the root be rejected by the
milestone verifier, let the unwinding `UpdateForkChoice(r, r)` succeed and let
`DownloadBlocksUsingMilestones` then answer with no header and no error.  Then
`handleMilestoneMismatch` returns the error `noMilestoneHeaders`;
`onMilestoneEvent` returns that error; the event loop of `Run` returns it
without handling any later event, and so does `Run` itself, whatever events
were handled with `nil` before.  The trace gains only the verifier call, the
unwinding fork-choice update and the download: no commit barrier call and no
`Reset`; the chain builder is the one from before the event. -/
theorem milestone_void_is_fatal (s : Sync W B) (m : EventNewMilestone) (ccBuilder : B)
    (st : Ext W) (e : Error)
    (hEnd : Uint64 (s.ccBuilderMethods.Root ccBuilder).number < Uint64 m.endBlock)
    (hMis : s.milestoneVerifier m
        (s.ccBuilderMethods.HeadersInRange ccBuilder (Uint64 m.startBlock) m.length) = some e)
    (hUfc : (s.execution.UpdateForkChoice (s.ccBuilderMethods.Root ccBuilder)
        (s.ccBuilderMethods.Root ccBuilder) st.world).1 = none)
    (hVoid : (s.blockDownloader.DownloadBlocksUsingMilestones
        (Uint64 (s.ccBuilderMethods.Root ccBuilder).number)
        (s.execution.UpdateForkChoice (s.ccBuilderMethods.Root ccBuilder)
          (s.ccBuilderMethods.Root ccBuilder) st.world).2).1 = .ok none) :
    ∃ stEnd : Ext W,
      stEnd.trace = st.trace ++
        [⟨.milestoneVerifier m
            (s.ccBuilderMethods.HeadersInRange ccBuilder (Uint64 m.startBlock) m.length), .err e⟩,
          ⟨.UpdateForkChoice (s.ccBuilderMethods.Root ccBuilder)
            (s.ccBuilderMethods.Root ccBuilder), .ok⟩,
          ⟨.DownloadBlocksUsingMilestones (Uint64 (s.ccBuilderMethods.Root ccBuilder).number),
            .header none⟩] ∧
      handleMilestoneMismatch s ccBuilder
          (st.note (.milestoneVerifier m
            (s.ccBuilderMethods.HeadersInRange ccBuilder (Uint64 m.startBlock) m.length)) (.err e))
        = (some .noMilestoneHeaders, ccBuilder, stEnd) ∧
      onMilestoneEvent s m ccBuilder st = (some .noMilestoneHeaders, ccBuilder, stEnd) ∧
      (∀ rest : List Event,
        eventLoop s (.NewMilestone m :: rest) ccBuilder st
          = .ok (some .noMilestoneHeaders, ccBuilder, stEnd)) ∧
      (∀ (fuel : Nat) (st0 st1 : Ext W) (tip : Header) (pre rest : List Event),
        syncToTip s fuel st0 = some (.ok tip, st1) →
        handledAll s pre (s.ccBuilderFactory tip) (st1.note (.ccBuilderFactory tip) .ok)
          = some (ccBuilder, st) →
        Run s fuel (pre ++ .NewMilestone m :: rest) st0
          = some (.ok (some .noMilestoneHeaders, some ccBuilder, stEnd))) := by
  rcases h1 : s.execution.UpdateForkChoice (s.ccBuilderMethods.Root ccBuilder)
      (s.ccBuilderMethods.Root ccBuilder) st.world with ⟨r1, w1⟩
  rw [h1] at hUfc hVoid
  simp only at hUfc hVoid
  subst hUfc
  rcases h2 : s.blockDownloader.DownloadBlocksUsingMilestones
      (Uint64 (s.ccBuilderMethods.Root ccBuilder).number) w1 with ⟨r2, w2⟩
  rw [h2] at hVoid
  simp only at hVoid
  subst hVoid
  have hMM : handleMilestoneMismatch s ccBuilder
      (st.note (.milestoneVerifier m
        (s.ccBuilderMethods.HeadersInRange ccBuilder (Uint64 m.startBlock) m.length)) (.err e))
      = (some .noMilestoneHeaders, ccBuilder,
        { world := w2,
          trace := st.trace ++
            [⟨.milestoneVerifier m
                (s.ccBuilderMethods.HeadersInRange ccBuilder (Uint64 m.startBlock) m.length),
                .err e⟩,
              ⟨.UpdateForkChoice (s.ccBuilderMethods.Root ccBuilder)
                (s.ccBuilderMethods.Root ccBuilder), .ok⟩,
              ⟨.DownloadBlocksUsingMilestones
                (Uint64 (s.ccBuilderMethods.Root ccBuilder).number), .header none⟩] }) := by
    simp [handleMilestoneMismatch, invokeErr, invokeHeader, Ext.note, h1, h2, Reply.ofErr,
      Reply.ofHeader]
  have hOn : onMilestoneEvent s m ccBuilder st
      = handleMilestoneMismatch s ccBuilder
          (st.note (.milestoneVerifier m
            (s.ccBuilderMethods.HeadersInRange ccBuilder (Uint64 m.startBlock) m.length))
            (.err e)) := by
    simp [onMilestoneEvent, Nat.not_le.mpr hEnd, hMis]
  have hLoop : ∀ rest : List Event,
      eventLoop s (.NewMilestone m :: rest) ccBuilder st
        = .ok (handleMilestoneMismatch s ccBuilder
          (st.note (.milestoneVerifier m
            (s.ccBuilderMethods.HeadersInRange ccBuilder (Uint64 m.startBlock) m.length))
            (.err e))) := by
    intro rest
    simp [eventLoop, handleEvent, hOn, hMM]
  refine ⟨_, rfl, hMM, hOn.trans hMM, fun rest => (hLoop rest).trans (by rw [hMM]), ?_⟩
  intro fuel st0 st1 tip pre rest hsync hpre
  simp only [Run, hsync]
  rw [eventLoop_append s _ pre _ _ _ _ hpre, hLoop rest, hMM]

/-- C5, at a builder with root 1200 and tip 1202, a milestone attesting branch B
and a milestone download with nothing to answer. -/
theorem milestone_void_is_fatal_witness :
    (Uint64 (syncS.ccBuilderMethods.Root treeA).number < Uint64 milestoneB.endBlock ∧
      syncS.milestoneVerifier milestoneB
        (syncS.ccBuilderMethods.HeadersInRange treeA (Uint64 milestoneB.startBlock)
          milestoneB.length) = some (.other 2) ∧
      (syncS.execution.UpdateForkChoice (syncS.ccBuilderMethods.Root treeA)
        (syncS.ccBuilderMethods.Root treeA) worldIdle).1 = none ∧
      (syncS.blockDownloader.DownloadBlocksUsingMilestones
        (Uint64 (syncS.ccBuilderMethods.Root treeA).number)
        (syncS.execution.UpdateForkChoice (syncS.ccBuilderMethods.Root treeA)
          (syncS.ccBuilderMethods.Root treeA) worldIdle).2).1 = .ok none) ∧
    ∃ stEnd : Ext Script,
      stEnd.trace = [] ++
        [⟨.milestoneVerifier milestoneB
            (syncS.ccBuilderMethods.HeadersInRange treeA (Uint64 milestoneB.startBlock)
              milestoneB.length), .err (.other 2)⟩,
          ⟨.UpdateForkChoice (syncS.ccBuilderMethods.Root treeA)
            (syncS.ccBuilderMethods.Root treeA), .ok⟩,
          ⟨.DownloadBlocksUsingMilestones (Uint64 (syncS.ccBuilderMethods.Root treeA).number),
            .header none⟩] ∧
      handleMilestoneMismatch syncS treeA
          (Ext.note ⟨worldIdle, []⟩ (.milestoneVerifier milestoneB
            (syncS.ccBuilderMethods.HeadersInRange treeA (Uint64 milestoneB.startBlock)
              milestoneB.length)) (.err (.other 2)))
        = (some .noMilestoneHeaders, treeA, stEnd) ∧
      onMilestoneEvent syncS milestoneB treeA ⟨worldIdle, []⟩
        = (some .noMilestoneHeaders, treeA, stEnd) ∧
      (∀ rest : List Event,
        eventLoop syncS (.NewMilestone milestoneB :: rest) treeA ⟨worldIdle, []⟩
          = .ok (some .noMilestoneHeaders, treeA, stEnd)) ∧
      (∀ (fuel : Nat) (st0 st1 : Ext Script) (tip : Header) (pre rest : List Event),
        syncToTip syncS fuel st0 = some (.ok tip, st1) →
        handledAll syncS pre (syncS.ccBuilderFactory tip) (st1.note (.ccBuilderFactory tip) .ok)
          = some (treeA, ⟨worldIdle, []⟩) →
        Run syncS fuel (pre ++ .NewMilestone milestoneB :: rest) st0
          = some (.ok (some .noMilestoneHeaders, some treeA, stEnd))) :=
  ⟨⟨by decide, by decide, rfl, rfl⟩,
    milestone_void_is_fatal syncS milestoneB treeA ⟨worldIdle, []⟩ (.other 2) (by decide)
      (by decide) rfl rfl⟩

/-- C6: for a milestone event with `endBlock` above the root whose headers
`HeadersInRange(startBlock, length)` the milestone verifier accepts,
`onMilestoneEvent` adds to the trace the verifier call and `Prune(endBlock)` and
nothing else, leaves the world of the collaborators untouched, and returns the
error and the builder that `Prune` returned.  For a builder whose `Prune`, when
it succeeds, leaves a root with the number asked for, a `nil` result means that
the number of the root is `endBlock` (its `Uint64()` value, which is `endBlock`
whenever that fits in 64 bits). -/
theorem onMilestoneEvent_accepted (s : Sync W B) (m : EventNewMilestone) (ccBuilder : B)
    (st : Ext W)
    (hEnd : Uint64 (s.ccBuilderMethods.Root ccBuilder).number < Uint64 m.endBlock)
    (hOk : s.milestoneVerifier m
        (s.ccBuilderMethods.HeadersInRange ccBuilder (Uint64 m.startBlock) m.length) = none) :
    (onMilestoneEvent s m ccBuilder st).1
      = (s.ccBuilderMethods.Prune ccBuilder (Uint64 m.endBlock)).1 ∧
    (onMilestoneEvent s m ccBuilder st).2.1
      = (s.ccBuilderMethods.Prune ccBuilder (Uint64 m.endBlock)).2 ∧
    (onMilestoneEvent s m ccBuilder st).2.2.world = st.world ∧
    (onMilestoneEvent s m ccBuilder st).2.2.trace = st.trace ++
      [⟨.milestoneVerifier m
          (s.ccBuilderMethods.HeadersInRange ccBuilder (Uint64 m.startBlock) m.length), .ok⟩,
        ⟨.Prune (Uint64 m.endBlock),
          Reply.ofErr (s.ccBuilderMethods.Prune ccBuilder (Uint64 m.endBlock)).1⟩] ∧
    ((∀ (b : B) (n : Nat), (s.ccBuilderMethods.Prune b n).1 = none →
        (s.ccBuilderMethods.Root (s.ccBuilderMethods.Prune b n).2).number = n) →
      (onMilestoneEvent s m ccBuilder st).1 = none →
      (s.ccBuilderMethods.Root (onMilestoneEvent s m ccBuilder st).2.1).number
        = Uint64 m.endBlock) ∧
    (m.endBlock < 2 ^ 64 → Uint64 m.endBlock = m.endBlock) := by
  have hOn : onMilestoneEvent s m ccBuilder st
      = ((s.ccBuilderMethods.Prune ccBuilder (Uint64 m.endBlock)).1,
        (s.ccBuilderMethods.Prune ccBuilder (Uint64 m.endBlock)).2,
        (st.note (.milestoneVerifier m
          (s.ccBuilderMethods.HeadersInRange ccBuilder (Uint64 m.startBlock) m.length)) .ok).note
          (.Prune (Uint64 m.endBlock))
          (Reply.ofErr (s.ccBuilderMethods.Prune ccBuilder (Uint64 m.endBlock)).1)) := by
    simp [onMilestoneEvent, Nat.not_le.mpr hEnd, hOk]
  rw [hOn]
  refine ⟨rfl, rfl, rfl, by simp [Ext.note], fun hPrune hnil => hPrune _ _ hnil, Uint64_of_lt⟩

/-- C6, at a builder with root 1200 and tip 1202 and a milestone over 1201 to
1202 that attests the local chain: the root moves to 1202. -/
theorem onMilestoneEvent_accepted_witness :
    (Uint64 (syncS.ccBuilderMethods.Root treeA).number < Uint64 milestoneA.endBlock ∧
      syncS.milestoneVerifier milestoneA
        (syncS.ccBuilderMethods.HeadersInRange treeA (Uint64 milestoneA.startBlock)
          milestoneA.length) = none ∧
      (∀ (b : ChainTree) (n : Nat), (syncS.ccBuilderMethods.Prune b n).1 = none →
        (syncS.ccBuilderMethods.Root (syncS.ccBuilderMethods.Prune b n).2).number = n) ∧
      (onMilestoneEvent syncS milestoneA treeA ⟨worldIdle, []⟩).1 = none) ∧
    (onMilestoneEvent syncS milestoneA treeA ⟨worldIdle, []⟩).2.2.trace = [] ++
      [⟨.milestoneVerifier milestoneA
          (syncS.ccBuilderMethods.HeadersInRange treeA (Uint64 milestoneA.startBlock)
            milestoneA.length), .ok⟩,
        ⟨.Prune (Uint64 milestoneA.endBlock),
          Reply.ofErr (syncS.ccBuilderMethods.Prune treeA (Uint64 milestoneA.endBlock)).1⟩] ∧
    (syncS.ccBuilderMethods.Root (onMilestoneEvent syncS milestoneA treeA ⟨worldIdle, []⟩).2.1).number
      = Uint64 milestoneA.endBlock :=
  ⟨⟨by decide, by decide, specChainBuilder_prune, by decide⟩,
    (onMilestoneEvent_accepted syncS milestoneA treeA ⟨worldIdle, []⟩ (by decide)
      (by decide)).2.2.2.1,
    (onMilestoneEvent_accepted syncS milestoneA treeA ⟨worldIdle, []⟩ (by decide)
      (by decide)).2.2.2.2.1 specChainBuilder_prune (by decide)⟩

/-! ## New-block events -/

/-- A rejected batch: the peer is penalized, the builder is untouched and the
result is `nil`, whatever `Penalize` returns. -/
theorem onNewBlocks_rejected (s : Sync W B) (peerId : PeerId) (newBlocks : List Block)
    (ccBuilder : B) (st : Ext W) (e : Error) (hV : s.blocksVerifier newBlocks = some e) :
    onNewBlocks s peerId newBlocks ccBuilder st
      = (none, ccBuilder,
        { world := (s.p2pService.Penalize peerId st.world).2,
          trace := st.trace ++ [⟨.blocksVerifier newBlocks, .err e⟩,
            ⟨.Penalize peerId, Reply.ofErr (s.p2pService.Penalize peerId st.world).1⟩] }) := by
  simp [onNewBlocks, hV, invokeErr, Ext.note]

/-- A batch that is verified, connected with a change of tip and inserted. -/
theorem onNewBlocks_accepted (s : Sync W B) (peerId : PeerId) (newBlocks : List Block)
    (ccBuilder : B) (st : Ext W) (hV : s.blocksVerifier newBlocks = none)
    (hC : (s.ccBuilderMethods.Connect ccBuilder (newBlocks.map Block.header)).1 = none)
    (hT : s.ccBuilderMethods.Tip
        (s.ccBuilderMethods.Connect ccBuilder (newBlocks.map Block.header)).2
      ≠ s.ccBuilderMethods.Tip ccBuilder)
    (hI : (s.execution.InsertBlocks newBlocks st.world).1 = none) :
    (onNewBlocks s peerId newBlocks ccBuilder st).2.2.trace
      = st.trace ++ [⟨.blocksVerifier newBlocks, .ok⟩,
          ⟨.Connect (newBlocks.map Block.header), .ok⟩,
          ⟨.InsertBlocks newBlocks, .ok⟩,
          ⟨.UpdateForkChoice
              (s.ccBuilderMethods.Tip
                (s.ccBuilderMethods.Connect ccBuilder (newBlocks.map Block.header)).2)
              (s.ccBuilderMethods.Root
                (s.ccBuilderMethods.Connect ccBuilder (newBlocks.map Block.header)).2),
            Reply.ofErr (onNewBlocks s peerId newBlocks ccBuilder st).1⟩] ∧
    (onNewBlocks s peerId newBlocks ccBuilder st).2.1
      = (s.ccBuilderMethods.Connect ccBuilder (newBlocks.map Block.header)).2 := by
  rcases hc : s.ccBuilderMethods.Connect ccBuilder (newBlocks.map Block.header) with ⟨rc, b1⟩
  rw [hc] at hC hT
  simp only at hC hT
  subst hC
  have hTp := TipPtr_ne_of_tip_ne s.ccBuilderMethods b1 ccBuilder hT
  rcases hi : s.execution.InsertBlocks newBlocks st.world with ⟨ri, w1⟩
  rw [hi] at hI
  simp only at hI
  subst hI
  rcases hu : s.execution.UpdateForkChoice (s.ccBuilderMethods.Tip b1)
      (s.ccBuilderMethods.Root b1) w1 with ⟨_ | eu, w2⟩ <;>
    simp [onNewBlocks, hV, hc, hTp, TipPtr_header, invokeErr, Ext.note, hi, hu, Reply.ofErr]

/-- The calls that `onNewBlockEvent` makes from the blocks verifier on are one
of the four sequences of `batchCalls`. -/
theorem onNewBlocks_calls (s : Sync W B) (peerId : PeerId) (newBlocks : List Block)
    (ccBuilder : B) (st : Ext W) :
    ∃ es : List Entry,
      (onNewBlocks s peerId newBlocks ccBuilder st).2.2.trace = st.trace ++ es ∧
      calls es ∈ batchCalls peerId newBlocks
        (s.ccBuilderMethods.Tip
          (s.ccBuilderMethods.Connect ccBuilder (newBlocks.map Block.header)).2)
        (s.ccBuilderMethods.Root
          (s.ccBuilderMethods.Connect ccBuilder (newBlocks.map Block.header)).2) := by
  rcases hV : s.blocksVerifier newBlocks with _ | e
  · rcases hc : s.ccBuilderMethods.Connect ccBuilder (newBlocks.map Block.header)
      with ⟨_ | ec, b1⟩
    · by_cases hT : s.ccBuilderMethods.TipPtr b1 = s.ccBuilderMethods.TipPtr ccBuilder
      · exact ⟨[⟨.blocksVerifier newBlocks, .ok⟩, ⟨.Connect (newBlocks.map Block.header), .ok⟩],
          by simp [onNewBlocks, hV, hc, hT, Ext.note], by simp [calls, batchCalls]⟩
      · rcases hi : s.execution.InsertBlocks newBlocks st.world with ⟨_ | ei, w1⟩
        · rcases hu : s.execution.UpdateForkChoice (s.ccBuilderMethods.Tip b1)
            (s.ccBuilderMethods.Root b1) w1 with ⟨ru, w2⟩
          refine ⟨[⟨.blocksVerifier newBlocks, .ok⟩,
            ⟨.Connect (newBlocks.map Block.header), .ok⟩, ⟨.InsertBlocks newBlocks, .ok⟩,
            ⟨.UpdateForkChoice (s.ccBuilderMethods.Tip b1) (s.ccBuilderMethods.Root b1),
              Reply.ofErr ru⟩], ?_, by simp [calls, batchCalls]⟩
          cases ru <;>
            simp [onNewBlocks, hV, hc, hT, TipPtr_header, invokeErr, Ext.note, hi, hu,
              Reply.ofErr]
        · exact ⟨[⟨.blocksVerifier newBlocks, .ok⟩,
            ⟨.Connect (newBlocks.map Block.header), .ok⟩,
            ⟨.InsertBlocks newBlocks, .err ei⟩],
            by simp [onNewBlocks, hV, hc, hT, invokeErr, Ext.note, hi, Reply.ofErr],
            by simp [calls, batchCalls]⟩
    · exact ⟨[⟨.blocksVerifier newBlocks, .ok⟩,
        ⟨.Connect (newBlocks.map Block.header), .err ec⟩],
        by simp [onNewBlocks, hV, hc, Ext.note], by simp [calls, batchCalls]⟩
  · exact ⟨[⟨.blocksVerifier newBlocks, .err e⟩,
      ⟨.Penalize peerId, Reply.ofErr (s.p2pService.Penalize peerId st.world).1⟩],
      by rw [onNewBlocks_rejected s peerId newBlocks ccBuilder st e hV],
      by simp [calls, batchCalls]⟩

/-- No call of `batchCalls` is a `FetchBlocks`. -/
theorem batchCalls_no_fetch (peerId : PeerId) (newBlocks : List Block) (newTip root : Header) :
    ∀ cs ∈ batchCalls peerId newBlocks newTip root, ∀ c ∈ cs, c.isFetchBlocks = false := by
  intro cs hcs c hc
  simp only [batchCalls, List.mem_cons, List.mem_singleton, List.not_mem_nil, or_false] at hcs
  rcases hcs with rfl | rfl | rfl | rfl <;>
    simp only [List.mem_cons, List.mem_singleton, List.not_mem_nil, or_false] at hc <;>
    rcases hc with rfl | rfl | rfl | rfl <;> rfl

/-- A new-block event above the root whose parent is in the builder: the batch
is the block of the event. -/
theorem onNewBlockEvent_known (s : Sync W B) (event : EventNewBlock) (ccBuilder : B)
    (st : Ext W)
    (hN : Uint64 (s.ccBuilderMethods.Root ccBuilder).number < Uint64 event.NewBlock.header.number)
    (hP : s.ccBuilderMethods.ContainsHash ccBuilder event.NewBlock.header.parentHash = true) :
    onNewBlockEvent s event ccBuilder st
      = onNewBlocks s event.PeerId [event.NewBlock] ccBuilder st := by
  simp [onNewBlockEvent, Nat.not_le.mpr hN, hP]

/-- A new-block event above the root whose parent is not in the builder, with a
fetch that succeeds: the batch is the fetched list. -/
theorem onNewBlockEvent_fetched (s : Sync W B) (event : EventNewBlock) (ccBuilder : B)
    (st : Ext W) (blocks : List Block)
    (hN : Uint64 (s.ccBuilderMethods.Root ccBuilder).number < Uint64 event.NewBlock.header.number)
    (hP : s.ccBuilderMethods.ContainsHash ccBuilder event.NewBlock.header.parentHash = false)
    (hF : (s.p2pService.FetchBlocks (Uint64 (s.ccBuilderMethods.Root ccBuilder).number)
        (u64add (Uint64 event.NewBlock.header.number) 1) event.PeerId st.world).1 = .ok blocks) :
    onNewBlockEvent s event ccBuilder st
      = onNewBlocks s event.PeerId blocks ccBuilder
        { world := (s.p2pService.FetchBlocks (Uint64 (s.ccBuilderMethods.Root ccBuilder).number)
            (u64add (Uint64 event.NewBlock.header.number) 1) event.PeerId st.world).2,
          trace := st.trace ++
            [⟨.FetchBlocks (Uint64 (s.ccBuilderMethods.Root ccBuilder).number)
              (u64add (Uint64 event.NewBlock.header.number) 1) event.PeerId, .blocks blocks⟩] } := by
  rcases hf : s.p2pService.FetchBlocks (Uint64 (s.ccBuilderMethods.Root ccBuilder).number)
      (u64add (Uint64 event.NewBlock.header.number) 1) event.PeerId st.world with ⟨r, w1⟩
  rw [hf] at hF
  simp only at hF
  subst hF
  simp [onNewBlockEvent, Nat.not_le.mpr hN, hP, invokeBlocks, hf, Reply.ofBlocks]

/-- A new-block event above the root whose parent is not in the builder, with a
fetch that fails: only the fetch is made. -/
theorem onNewBlockEvent_fetch_error (s : Sync W B) (event : EventNewBlock) (ccBuilder : B)
    (st : Ext W) (e : Error)
    (hN : Uint64 (s.ccBuilderMethods.Root ccBuilder).number < Uint64 event.NewBlock.header.number)
    (hP : s.ccBuilderMethods.ContainsHash ccBuilder event.NewBlock.header.parentHash = false)
    (hF : (s.p2pService.FetchBlocks (Uint64 (s.ccBuilderMethods.Root ccBuilder).number)
        (u64add (Uint64 event.NewBlock.header.number) 1) event.PeerId st.world).1 = .error e) :
    onNewBlockEvent s event ccBuilder st
      = (if e.isIncompleteHeaders || e.isMissingBodies then none else some e, ccBuilder,
        { world := (s.p2pService.FetchBlocks (Uint64 (s.ccBuilderMethods.Root ccBuilder).number)
            (u64add (Uint64 event.NewBlock.header.number) 1) event.PeerId st.world).2,
          trace := st.trace ++
            [⟨.FetchBlocks (Uint64 (s.ccBuilderMethods.Root ccBuilder).number)
              (u64add (Uint64 event.NewBlock.header.number) 1) event.PeerId, .err e⟩] }) := by
  rcases hf : s.p2pService.FetchBlocks (Uint64 (s.ccBuilderMethods.Root ccBuilder).number)
      (u64add (Uint64 event.NewBlock.header.number) 1) event.PeerId st.world with ⟨r, w1⟩
  rw [hf] at hF
  simp only at hF
  subst hF
  by_cases hb : (e.isIncompleteHeaders || e.isMissingBodies) = true
  · simp [onNewBlockEvent, Nat.not_le.mpr hN, hP, invokeBlocks, hf, Reply.ofBlocks, hb]
  · simp [onNewBlockEvent, Nat.not_le.mpr hN, hP, invokeBlocks, hf, Reply.ofBlocks, hb]

/-- C7, as stated, fails: in scenario S3 (root and tip at 1200, block 1205 with
an unknown parent from peer 2, five blocks fetched and accepted) the calls are
`FetchBlocks`, blocks verifier, `Connect`, `InsertBlocks`, `UpdateForkChoice`:
the blocks verifier is not applied before `FetchBlocks`, it is applied after. -/
theorem S3_verifier_not_before_fetch :
    calls (onNewBlockEvent syncS eventS3 treeS3 ⟨worldS3, []⟩).2.2.trace
      = [.FetchBlocks 1200 1206 2, .blocksVerifier blocksS3,
          .Connect (blocksS3.map Block.header), .InsertBlocks blocksS3,
          .UpdateForkChoice (hdr 1205) (hdr 1200)] ∧
    occursBefore Call.isBlocksVerifier Call.isFetchBlocks
      (calls (onNewBlockEvent syncS eventS3 treeS3 ⟨worldS3, []⟩).2.2.trace) = false ∧
    occursBefore Call.isFetchBlocks Call.isBlocksVerifier
      (calls (onNewBlockEvent syncS eventS3 treeS3 ⟨worldS3, []⟩).2.2.trace) = true := by
  decide

/-- C7, amended: for a new-block event above the root that needs backfill (its
parent is not in the builder) and is fully accepted (the fetch succeeds, the
blocks verifier accepts the fetched batch, `Connect` succeeds and changes the
tip, `InsertBlocks` succeeds), the calls are made in the order fetch, verify,
connect, insert, fork-choice: `FetchBlocks`, then the blocks verifier on the
fetched batch, then `Connect`, then `InsertBlocks`, then `UpdateForkChoice`,
whose result is the result of the handler. -/
theorem onNewBlockEvent_backfill_order (s : Sync W B) (event : EventNewBlock) (ccBuilder : B)
    (st : Ext W) (blocks : List Block)
    (hN : Uint64 (s.ccBuilderMethods.Root ccBuilder).number < Uint64 event.NewBlock.header.number)
    (hP : s.ccBuilderMethods.ContainsHash ccBuilder event.NewBlock.header.parentHash = false)
    (hF : (s.p2pService.FetchBlocks (Uint64 (s.ccBuilderMethods.Root ccBuilder).number)
        (u64add (Uint64 event.NewBlock.header.number) 1) event.PeerId st.world).1 = .ok blocks)
    (hV : s.blocksVerifier blocks = none)
    (hC : (s.ccBuilderMethods.Connect ccBuilder (blocks.map Block.header)).1 = none)
    (hT : s.ccBuilderMethods.Tip (s.ccBuilderMethods.Connect ccBuilder (blocks.map Block.header)).2
      ≠ s.ccBuilderMethods.Tip ccBuilder)
    (hI : (s.execution.InsertBlocks blocks
        (s.p2pService.FetchBlocks (Uint64 (s.ccBuilderMethods.Root ccBuilder).number)
          (u64add (Uint64 event.NewBlock.header.number) 1) event.PeerId st.world).2).1 = none) :
    (onNewBlockEvent s event ccBuilder st).2.2.trace
      = st.trace ++
        [⟨.FetchBlocks (Uint64 (s.ccBuilderMethods.Root ccBuilder).number)
            (u64add (Uint64 event.NewBlock.header.number) 1) event.PeerId, .blocks blocks⟩,
          ⟨.blocksVerifier blocks, .ok⟩,
          ⟨.Connect (blocks.map Block.header), .ok⟩,
          ⟨.InsertBlocks blocks, .ok⟩,
          ⟨.UpdateForkChoice
              (s.ccBuilderMethods.Tip
                (s.ccBuilderMethods.Connect ccBuilder (blocks.map Block.header)).2)
              (s.ccBuilderMethods.Root
                (s.ccBuilderMethods.Connect ccBuilder (blocks.map Block.header)).2),
            Reply.ofErr (onNewBlockEvent s event ccBuilder st).1⟩] := by
  rw [onNewBlockEvent_fetched s event ccBuilder st blocks hN hP hF]
  rw [(onNewBlocks_accepted s event.PeerId blocks ccBuilder _ hV hC hT hI).1]
  simp

/-- C7, amended, at scenario S3. -/
theorem onNewBlockEvent_backfill_order_witness :
    (Uint64 (syncS.ccBuilderMethods.Root treeS3).number < Uint64 eventS3.NewBlock.header.number ∧
      syncS.ccBuilderMethods.ContainsHash treeS3 eventS3.NewBlock.header.parentHash = false ∧
      (syncS.p2pService.FetchBlocks (Uint64 (syncS.ccBuilderMethods.Root treeS3).number)
        (u64add (Uint64 eventS3.NewBlock.header.number) 1) eventS3.PeerId worldS3).1
        = .ok blocksS3 ∧
      syncS.blocksVerifier blocksS3 = none ∧
      (syncS.ccBuilderMethods.Connect treeS3 (blocksS3.map Block.header)).1 = none ∧
      syncS.ccBuilderMethods.Tip
          (syncS.ccBuilderMethods.Connect treeS3 (blocksS3.map Block.header)).2
        ≠ syncS.ccBuilderMethods.Tip treeS3 ∧
      (syncS.execution.InsertBlocks blocksS3
        (syncS.p2pService.FetchBlocks (Uint64 (syncS.ccBuilderMethods.Root treeS3).number)
          (u64add (Uint64 eventS3.NewBlock.header.number) 1) eventS3.PeerId worldS3).2).1
        = none) ∧
    (onNewBlockEvent syncS eventS3 treeS3 ⟨worldS3, []⟩).2.2.trace
      = [] ++
        [⟨.FetchBlocks (Uint64 (syncS.ccBuilderMethods.Root treeS3).number)
            (u64add (Uint64 eventS3.NewBlock.header.number) 1) eventS3.PeerId, .blocks blocksS3⟩,
          ⟨.blocksVerifier blocksS3, .ok⟩,
          ⟨.Connect (blocksS3.map Block.header), .ok⟩,
          ⟨.InsertBlocks blocksS3, .ok⟩,
          ⟨.UpdateForkChoice
              (syncS.ccBuilderMethods.Tip
                (syncS.ccBuilderMethods.Connect treeS3 (blocksS3.map Block.header)).2)
              (syncS.ccBuilderMethods.Root
                (syncS.ccBuilderMethods.Connect treeS3 (blocksS3.map Block.header)).2),
            Reply.ofErr (onNewBlockEvent syncS eventS3 treeS3 ⟨worldS3, []⟩).1⟩] :=
  ⟨⟨by decide, by decide, rfl, rfl, by decide, by decide, rfl⟩,
    onNewBlockEvent_backfill_order syncS eventS3 treeS3 ⟨worldS3, []⟩ blocksS3 (by decide)
      (by decide) rfl rfl (by decide) (by decide) rfl⟩

/-- C8: for a new-block event above the root whose batch (the block of the
event when its parent is in the builder, the fetched list otherwise) is rejected
by the blocks verifier, `onNewBlockEvent` returns `nil`, whatever `Penalize`
returns, and leaves the builder as it was; after the verifier call the trace
gains exactly one call, `Penalize(peerId)`: no `Connect`, `InsertBlocks` or
`UpdateForkChoice`. -/
theorem onNewBlockEvent_rejected (s : Sync W B) (event : EventNewBlock) (ccBuilder : B)
    (st : Ext W) (e : Error)
    (hN : Uint64 (s.ccBuilderMethods.Root ccBuilder).number < Uint64 event.NewBlock.header.number) :
    (s.ccBuilderMethods.ContainsHash ccBuilder event.NewBlock.header.parentHash = true →
      s.blocksVerifier [event.NewBlock] = some e →
      onNewBlockEvent s event ccBuilder st
        = (none, ccBuilder,
          { world := (s.p2pService.Penalize event.PeerId st.world).2,
            trace := st.trace ++ [⟨.blocksVerifier [event.NewBlock], .err e⟩,
              ⟨.Penalize event.PeerId,
                Reply.ofErr (s.p2pService.Penalize event.PeerId st.world).1⟩] })) ∧
    (s.ccBuilderMethods.ContainsHash ccBuilder event.NewBlock.header.parentHash = false →
      ∀ blocks : List Block,
      (s.p2pService.FetchBlocks (Uint64 (s.ccBuilderMethods.Root ccBuilder).number)
        (u64add (Uint64 event.NewBlock.header.number) 1) event.PeerId st.world).1 = .ok blocks →
      s.blocksVerifier blocks = some e →
      onNewBlockEvent s event ccBuilder st
        = (none, ccBuilder,
          { world := (s.p2pService.Penalize event.PeerId
              (s.p2pService.FetchBlocks (Uint64 (s.ccBuilderMethods.Root ccBuilder).number)
                (u64add (Uint64 event.NewBlock.header.number) 1) event.PeerId st.world).2).2,
            trace := st.trace ++
              [⟨.FetchBlocks (Uint64 (s.ccBuilderMethods.Root ccBuilder).number)
                  (u64add (Uint64 event.NewBlock.header.number) 1) event.PeerId, .blocks blocks⟩,
                ⟨.blocksVerifier blocks, .err e⟩,
                ⟨.Penalize event.PeerId,
                  Reply.ofErr (s.p2pService.Penalize event.PeerId
                    (s.p2pService.FetchBlocks (Uint64 (s.ccBuilderMethods.Root ccBuilder).number)
                      (u64add (Uint64 event.NewBlock.header.number) 1) event.PeerId
                      st.world).2).1⟩] })) := by
  constructor
  · intro hP hV
    rw [onNewBlockEvent_known s event ccBuilder st hN hP,
      onNewBlocks_rejected s event.PeerId _ ccBuilder st e hV]
  · intro hP blocks hF hV
    rw [onNewBlockEvent_fetched s event ccBuilder st blocks hN hP hF,
      onNewBlocks_rejected s event.PeerId _ ccBuilder _ e hV]
    simp

/-- C8, at scenario S4, with a `Penalize` that itself fails, and at the event of
scenario S2 under a verifier that rejects. -/
theorem onNewBlockEvent_rejected_witness :
    (Uint64 (syncReject.ccBuilderMethods.Root treeS3).number
        < Uint64 eventS3.NewBlock.header.number ∧
      syncReject.ccBuilderMethods.ContainsHash treeS3 eventS3.NewBlock.header.parentHash = false ∧
      (syncReject.p2pService.FetchBlocks (Uint64 (syncReject.ccBuilderMethods.Root treeS3).number)
        (u64add (Uint64 eventS3.NewBlock.header.number) 1) eventS3.PeerId worldS4).1
        = .ok blocksS3 ∧
      syncReject.blocksVerifier blocksS3 = some (.other 1)) ∧
    onNewBlockEvent syncReject eventS3 treeS3 ⟨worldS4, []⟩
      = (none, treeS3,
        { world := (syncReject.p2pService.Penalize eventS3.PeerId
            (syncReject.p2pService.FetchBlocks
              (Uint64 (syncReject.ccBuilderMethods.Root treeS3).number)
              (u64add (Uint64 eventS3.NewBlock.header.number) 1) eventS3.PeerId worldS4).2).2,
          trace := [] ++
            [⟨.FetchBlocks 1200 1206 2, .blocks blocksS3⟩,
              ⟨.blocksVerifier blocksS3, .err (.other 1)⟩,
              ⟨.Penalize 2, .err (.other 3)⟩] }) ∧
    (Uint64 (syncReject.ccBuilderMethods.Root treeS3).number
        < Uint64 eventS2.NewBlock.header.number ∧
      syncReject.ccBuilderMethods.ContainsHash treeS3 eventS2.NewBlock.header.parentHash = true ∧
      syncReject.blocksVerifier [eventS2.NewBlock] = some (.other 1)) ∧
    onNewBlockEvent syncReject eventS2 treeS3 ⟨worldIdle, []⟩
      = (none, treeS3,
        { world := (syncReject.p2pService.Penalize eventS2.PeerId worldIdle).2,
          trace := [] ++ [⟨.blocksVerifier [blk 1201], .err (.other 1)⟩,
            ⟨.Penalize 1, .ok⟩] }) :=
  ⟨⟨by decide, by decide, rfl, rfl⟩,
    (onNewBlockEvent_rejected syncReject eventS3 treeS3 ⟨worldS4, []⟩ (.other 1)
      (by decide)).2 (by decide) blocksS3 rfl rfl,
    ⟨by decide, by decide, rfl⟩,
    (onNewBlockEvent_rejected syncReject eventS2 treeS3 ⟨worldIdle, []⟩ (.other 1)
      (by decide)).1 (by decide) rfl⟩

/-- C9: for a new-block event above the root.  If the parent hash is in the
builder, the calls of the handler are one of the sequences of `batchCalls` for
the batch `[block]`: the verifier, `Connect` and `InsertBlocks` get exactly the
block of the event, and no `FetchBlocks` is made.  Otherwise the first call is
`FetchBlocks(root.Number, N+1, peerId)` (numbers as `uint64`); when it fails
nothing follows, and when it succeeds the calls that follow are one of the
sequences of `batchCalls` for exactly the fetched list, so `FetchBlocks` is
called once and the block of the event is not added to the batch. -/
theorem onNewBlockEvent_batch (s : Sync W B) (event : EventNewBlock) (ccBuilder : B)
    (st : Ext W)
    (hN : Uint64 (s.ccBuilderMethods.Root ccBuilder).number < Uint64 event.NewBlock.header.number) :
    (s.ccBuilderMethods.ContainsHash ccBuilder event.NewBlock.header.parentHash = true →
      ∃ es : List Entry,
        (onNewBlockEvent s event ccBuilder st).2.2.trace = st.trace ++ es ∧
        calls es ∈ batchCalls event.PeerId [event.NewBlock]
          (s.ccBuilderMethods.Tip
            (s.ccBuilderMethods.Connect ccBuilder ([event.NewBlock].map Block.header)).2)
          (s.ccBuilderMethods.Root
            (s.ccBuilderMethods.Connect ccBuilder ([event.NewBlock].map Block.header)).2)) ∧
    (s.ccBuilderMethods.ContainsHash ccBuilder event.NewBlock.header.parentHash = false →
      ∃ es : List Entry,
        (onNewBlockEvent s event ccBuilder st).2.2.trace
          = st.trace ++
            ⟨.FetchBlocks (Uint64 (s.ccBuilderMethods.Root ccBuilder).number)
                (u64add (Uint64 event.NewBlock.header.number) 1) event.PeerId,
              Reply.ofBlocks
                (s.p2pService.FetchBlocks (Uint64 (s.ccBuilderMethods.Root ccBuilder).number)
                  (u64add (Uint64 event.NewBlock.header.number) 1) event.PeerId st.world).1⟩
            :: es ∧
        (∀ err : Error,
          (s.p2pService.FetchBlocks (Uint64 (s.ccBuilderMethods.Root ccBuilder).number)
            (u64add (Uint64 event.NewBlock.header.number) 1) event.PeerId st.world).1
            = .error err → es = []) ∧
        (∀ blocks : List Block,
          (s.p2pService.FetchBlocks (Uint64 (s.ccBuilderMethods.Root ccBuilder).number)
            (u64add (Uint64 event.NewBlock.header.number) 1) event.PeerId st.world).1
            = .ok blocks →
          calls es ∈ batchCalls event.PeerId blocks
            (s.ccBuilderMethods.Tip
              (s.ccBuilderMethods.Connect ccBuilder (blocks.map Block.header)).2)
            (s.ccBuilderMethods.Root
              (s.ccBuilderMethods.Connect ccBuilder (blocks.map Block.header)).2))) ∧
    (∀ (peerId : PeerId) (blocks : List Block) (newTip root : Header),
      ∀ cs ∈ batchCalls peerId blocks newTip root, ∀ c ∈ cs, c.isFetchBlocks = false) ∧
    (event.NewBlock.header.number + 1 < 2 ^ 64 →
      u64add (Uint64 event.NewBlock.header.number) 1 = event.NewBlock.header.number + 1) := by
  refine ⟨?_, ?_, batchCalls_no_fetch, fun h => nextBlockNum_of_lt _ h⟩
  · intro hP
    rw [onNewBlockEvent_known s event ccBuilder st hN hP]
    exact onNewBlocks_calls s event.PeerId [event.NewBlock] ccBuilder st
  · intro hP
    rcases hf : (s.p2pService.FetchBlocks (Uint64 (s.ccBuilderMethods.Root ccBuilder).number)
        (u64add (Uint64 event.NewBlock.header.number) 1) event.PeerId st.world).1
      with err | blocks
    · refine ⟨[], ?_, fun _ _ => rfl, fun blocks h => by simp at h⟩
      rw [onNewBlockEvent_fetch_error s event ccBuilder st err hN hP hf]
      simp [Reply.ofBlocks]
    · rw [onNewBlockEvent_fetched s event ccBuilder st blocks hN hP hf]
      obtain ⟨es, he1, he2⟩ := onNewBlocks_calls s event.PeerId blocks ccBuilder
        { world := (s.p2pService.FetchBlocks (Uint64 (s.ccBuilderMethods.Root ccBuilder).number)
            (u64add (Uint64 event.NewBlock.header.number) 1) event.PeerId st.world).2,
          trace := st.trace ++
            [⟨.FetchBlocks (Uint64 (s.ccBuilderMethods.Root ccBuilder).number)
              (u64add (Uint64 event.NewBlock.header.number) 1) event.PeerId, .blocks blocks⟩] }
      refine ⟨es, ?_, fun err h => by simp at h, fun blocks2 h => ?_⟩
      · rw [he1]
        simp [Reply.ofBlocks]
      · simp only [Except.ok.injEq] at h
        subst h
        exact he2

/-- C9, at scenario S3 (the parent is unknown, five blocks are fetched) and at
scenario S2 (the parent is the root). -/
theorem onNewBlockEvent_batch_witness :
    (Uint64 (syncS.ccBuilderMethods.Root treeS3).number < Uint64 eventS3.NewBlock.header.number ∧
      syncS.ccBuilderMethods.ContainsHash treeS3 eventS3.NewBlock.header.parentHash = false) ∧
    (∃ es : List Entry,
      (onNewBlockEvent syncS eventS3 treeS3 ⟨worldS3, []⟩).2.2.trace
        = [] ++
          ⟨.FetchBlocks (Uint64 (syncS.ccBuilderMethods.Root treeS3).number)
              (u64add (Uint64 eventS3.NewBlock.header.number) 1) eventS3.PeerId,
            Reply.ofBlocks
              (syncS.p2pService.FetchBlocks (Uint64 (syncS.ccBuilderMethods.Root treeS3).number)
                (u64add (Uint64 eventS3.NewBlock.header.number) 1) eventS3.PeerId worldS3).1⟩
          :: es ∧
      (∀ err : Error,
        (syncS.p2pService.FetchBlocks (Uint64 (syncS.ccBuilderMethods.Root treeS3).number)
          (u64add (Uint64 eventS3.NewBlock.header.number) 1) eventS3.PeerId worldS3).1
          = .error err → es = []) ∧
      (∀ blocks : List Block,
        (syncS.p2pService.FetchBlocks (Uint64 (syncS.ccBuilderMethods.Root treeS3).number)
          (u64add (Uint64 eventS3.NewBlock.header.number) 1) eventS3.PeerId worldS3).1
          = .ok blocks →
        calls es ∈ batchCalls eventS3.PeerId blocks
          (syncS.ccBuilderMethods.Tip
            (syncS.ccBuilderMethods.Connect treeS3 (blocks.map Block.header)).2)
          (syncS.ccBuilderMethods.Root
            (syncS.ccBuilderMethods.Connect treeS3 (blocks.map Block.header)).2))) ∧
    (Uint64 (syncS.ccBuilderMethods.Root treeS3).number < Uint64 eventS2.NewBlock.header.number ∧
      syncS.ccBuilderMethods.ContainsHash treeS3 eventS2.NewBlock.header.parentHash = true) ∧
    (∃ es : List Entry,
      (onNewBlockEvent syncS eventS2 treeS3 ⟨worldIdle, []⟩).2.2.trace = [] ++ es ∧
      calls es ∈ batchCalls eventS2.PeerId [eventS2.NewBlock]
        (syncS.ccBuilderMethods.Tip
          (syncS.ccBuilderMethods.Connect treeS3 ([eventS2.NewBlock].map Block.header)).2)
        (syncS.ccBuilderMethods.Root
          (syncS.ccBuilderMethods.Connect treeS3 ([eventS2.NewBlock].map Block.header)).2)) :=
  ⟨⟨by decide, by decide⟩,
    (onNewBlockEvent_batch syncS eventS3 treeS3 ⟨worldS3, []⟩ (by decide)).2.1 (by decide),
    ⟨by decide, by decide⟩,
    (onNewBlockEvent_batch syncS eventS2 treeS3 ⟨worldIdle, []⟩ (by decide)).1 (by decide)⟩

/-- C10: for a new-block event above the root that needs backfill and whose
`FetchBlocks` fails with the error `e`: the trace gains the `FetchBlocks` call
and nothing else (no blocks verifier, `Penalize`, `Connect` or execution call),
and the builder is the one from before; the handler returns `nil` when `e` is an
`ErrIncompleteHeaders` or an `ErrMissingBodies`, and exactly `e` otherwise. -/
theorem onNewBlockEvent_fetch_failed (s : Sync W B) (event : EventNewBlock) (ccBuilder : B)
    (st : Ext W) (e : Error)
    (hN : Uint64 (s.ccBuilderMethods.Root ccBuilder).number < Uint64 event.NewBlock.header.number)
    (hP : s.ccBuilderMethods.ContainsHash ccBuilder event.NewBlock.header.parentHash = false)
    (hF : (s.p2pService.FetchBlocks (Uint64 (s.ccBuilderMethods.Root ccBuilder).number)
        (u64add (Uint64 event.NewBlock.header.number) 1) event.PeerId st.world).1 = .error e) :
    (onNewBlockEvent s event ccBuilder st).2.1 = ccBuilder ∧
    (onNewBlockEvent s event ccBuilder st).2.2.trace
      = st.trace ++
        [⟨.FetchBlocks (Uint64 (s.ccBuilderMethods.Root ccBuilder).number)
          (u64add (Uint64 event.NewBlock.header.number) 1) event.PeerId, .err e⟩] ∧
    (onNewBlockEvent s event ccBuilder st).2.2.world
      = (s.p2pService.FetchBlocks (Uint64 (s.ccBuilderMethods.Root ccBuilder).number)
          (u64add (Uint64 event.NewBlock.header.number) 1) event.PeerId st.world).2 ∧
    (e.isIncompleteHeaders = true ∨ e.isMissingBodies = true →
      (onNewBlockEvent s event ccBuilder st).1 = none) ∧
    (e.isIncompleteHeaders = false → e.isMissingBodies = false →
      (onNewBlockEvent s event ccBuilder st).1 = some e) := by
  rw [onNewBlockEvent_fetch_error s event ccBuilder st e hN hP hF]
  refine ⟨rfl, rfl, rfl, ?_, ?_⟩
  · rintro (h | h) <;> simp [h]
  · intro h1 h2
    simp [h1, h2]

/-- C10, at a fetch that fails with missing bodies (the event is dropped) and at
a fetch that fails with another error (the error is returned). -/
theorem onNewBlockEvent_fetch_failed_witness :
    (Uint64 (syncS.ccBuilderMethods.Root treeS3).number < Uint64 eventS3.NewBlock.header.number ∧
      syncS.ccBuilderMethods.ContainsHash treeS3 eventS3.NewBlock.header.parentHash = false ∧
      (syncS.p2pService.FetchBlocks (Uint64 (syncS.ccBuilderMethods.Root treeS3).number)
        (u64add (Uint64 eventS3.NewBlock.header.number) 1) eventS3.PeerId
        (worldFetchError .missingBodies)).1 = .error .missingBodies ∧
      (syncS.p2pService.FetchBlocks (Uint64 (syncS.ccBuilderMethods.Root treeS3).number)
        (u64add (Uint64 eventS3.NewBlock.header.number) 1) eventS3.PeerId
        (worldFetchError (.other 9))).1 = .error (.other 9)) ∧
    ((onNewBlockEvent syncS eventS3 treeS3 ⟨worldFetchError .missingBodies, []⟩).2.1 = treeS3 ∧
      (onNewBlockEvent syncS eventS3 treeS3 ⟨worldFetchError .missingBodies, []⟩).2.2.trace
        = [] ++ [⟨.FetchBlocks 1200 1206 2, .err .missingBodies⟩] ∧
      (onNewBlockEvent syncS eventS3 treeS3 ⟨worldFetchError .missingBodies, []⟩).1 = none) ∧
    ((onNewBlockEvent syncS eventS3 treeS3 ⟨worldFetchError (.other 9), []⟩).2.1 = treeS3 ∧
      (onNewBlockEvent syncS eventS3 treeS3 ⟨worldFetchError (.other 9), []⟩).2.2.trace
        = [] ++ [⟨.FetchBlocks 1200 1206 2, .err (.other 9)⟩] ∧
      (onNewBlockEvent syncS eventS3 treeS3 ⟨worldFetchError (.other 9), []⟩).1
        = some (.other 9)) :=
  ⟨⟨by decide, by decide, rfl, rfl⟩,
    ⟨(onNewBlockEvent_fetch_failed syncS eventS3 treeS3 ⟨worldFetchError .missingBodies, []⟩
        .missingBodies (by decide) (by decide) rfl).1,
      (onNewBlockEvent_fetch_failed syncS eventS3 treeS3 ⟨worldFetchError .missingBodies, []⟩
        .missingBodies (by decide) (by decide) rfl).2.1,
      (onNewBlockEvent_fetch_failed syncS eventS3 treeS3 ⟨worldFetchError .missingBodies, []⟩
        .missingBodies (by decide) (by decide) rfl).2.2.2.1 (Or.inr rfl)⟩,
    ⟨(onNewBlockEvent_fetch_failed syncS eventS3 treeS3 ⟨worldFetchError (.other 9), []⟩
        (.other 9) (by decide) (by decide) rfl).1,
      (onNewBlockEvent_fetch_failed syncS eventS3 treeS3 ⟨worldFetchError (.other 9), []⟩
        (.other 9) (by decide) (by decide) rfl).2.1,
      (onNewBlockEvent_fetch_failed syncS eventS3 treeS3 ⟨worldFetchError (.other 9), []⟩
        (.other 9) (by decide) (by decide) rfl).2.2.2.2 rfl rfl⟩⟩

/-- With the batch formed, `onNewBlockEvent` is its tail from the blocks
verifier on. -/
theorem onNewBlockEvent_of_batch (s : Sync W B) (event : EventNewBlock) (ccBuilder : B)
    (st : Ext W) (blocks : List Block) (st1 : Ext W)
    (hB : HasBatch s event ccBuilder st blocks st1) :
    onNewBlockEvent s event ccBuilder st = onNewBlocks s event.PeerId blocks ccBuilder st1 := by
  obtain ⟨hN, ⟨hP, hb, hs⟩ | ⟨hP, hF, hs⟩⟩ := hB
  · rw [hb, hs]
    exact onNewBlockEvent_known s event ccBuilder st hN hP
  · rw [hs]
    exact onNewBlockEvent_fetched s event ccBuilder st blocks hN hP hF

/-- A verified batch that `Connect` refuses: the event is dropped. -/
theorem onNewBlocks_connect_failed (s : Sync W B) (peerId : PeerId) (newBlocks : List Block)
    (ccBuilder : B) (st : Ext W) (e : Error) (hV : s.blocksVerifier newBlocks = none)
    (hC : (s.ccBuilderMethods.Connect ccBuilder (newBlocks.map Block.header)).1 = some e) :
    onNewBlocks s peerId newBlocks ccBuilder st
      = (none, (s.ccBuilderMethods.Connect ccBuilder (newBlocks.map Block.header)).2,
        { world := st.world,
          trace := st.trace ++ [⟨.blocksVerifier newBlocks, .ok⟩,
            ⟨.Connect (newBlocks.map Block.header), .err e⟩] }) := by
  rcases hc : s.ccBuilderMethods.Connect ccBuilder (newBlocks.map Block.header) with ⟨rc, b1⟩
  rw [hc] at hC
  simp only at hC
  subst hC
  simp [onNewBlocks, hV, hc, Ext.note]

/-- A verified and connected batch that leaves the tip as it was: nothing more
is called. -/
theorem onNewBlocks_same_tip (s : Sync W B) (peerId : PeerId) (newBlocks : List Block)
    (ccBuilder : B) (st : Ext W) (hV : s.blocksVerifier newBlocks = none)
    (hC : (s.ccBuilderMethods.Connect ccBuilder (newBlocks.map Block.header)).1 = none)
    (hT : s.ccBuilderMethods.TipPtr
        (s.ccBuilderMethods.Connect ccBuilder (newBlocks.map Block.header)).2
      = s.ccBuilderMethods.TipPtr ccBuilder) :
    onNewBlocks s peerId newBlocks ccBuilder st
      = (none, (s.ccBuilderMethods.Connect ccBuilder (newBlocks.map Block.header)).2,
        { world := st.world,
          trace := st.trace ++ [⟨.blocksVerifier newBlocks, .ok⟩,
            ⟨.Connect (newBlocks.map Block.header), .ok⟩] }) := by
  rcases hc : s.ccBuilderMethods.Connect ccBuilder (newBlocks.map Block.header) with ⟨rc, b1⟩
  rw [hc] at hC hT
  simp only at hC hT
  subst hC
  simp [onNewBlocks, hV, hc, hT, Ext.note]

/-- A verified and connected batch with a new tip: `InsertBlocks` is called,
and `UpdateForkChoice` only when it succeeds. -/
theorem onNewBlocks_new_tip (s : Sync W B) (peerId : PeerId) (newBlocks : List Block)
    (ccBuilder : B) (st : Ext W) (hV : s.blocksVerifier newBlocks = none)
    (hC : (s.ccBuilderMethods.Connect ccBuilder (newBlocks.map Block.header)).1 = none)
    (hT : s.ccBuilderMethods.TipPtr
        (s.ccBuilderMethods.Connect ccBuilder (newBlocks.map Block.header)).2
      ≠ s.ccBuilderMethods.TipPtr ccBuilder) :
    (∀ e : Error, (s.execution.InsertBlocks newBlocks st.world).1 = some e →
      onNewBlocks s peerId newBlocks ccBuilder st
        = (some e, (s.ccBuilderMethods.Connect ccBuilder (newBlocks.map Block.header)).2,
          { world := (s.execution.InsertBlocks newBlocks st.world).2,
            trace := st.trace ++ [⟨.blocksVerifier newBlocks, .ok⟩,
              ⟨.Connect (newBlocks.map Block.header), .ok⟩,
              ⟨.InsertBlocks newBlocks, .err e⟩] })) ∧
    ((s.execution.InsertBlocks newBlocks st.world).1 = none →
      onNewBlocks s peerId newBlocks ccBuilder st
        = ((s.execution.UpdateForkChoice
              (s.ccBuilderMethods.Tip
                (s.ccBuilderMethods.Connect ccBuilder (newBlocks.map Block.header)).2)
              (s.ccBuilderMethods.Root
                (s.ccBuilderMethods.Connect ccBuilder (newBlocks.map Block.header)).2)
              (s.execution.InsertBlocks newBlocks st.world).2).1,
          (s.ccBuilderMethods.Connect ccBuilder (newBlocks.map Block.header)).2,
          { world := (s.execution.UpdateForkChoice
              (s.ccBuilderMethods.Tip
                (s.ccBuilderMethods.Connect ccBuilder (newBlocks.map Block.header)).2)
              (s.ccBuilderMethods.Root
                (s.ccBuilderMethods.Connect ccBuilder (newBlocks.map Block.header)).2)
              (s.execution.InsertBlocks newBlocks st.world).2).2,
            trace := st.trace ++ [⟨.blocksVerifier newBlocks, .ok⟩,
              ⟨.Connect (newBlocks.map Block.header), .ok⟩,
              ⟨.InsertBlocks newBlocks, .ok⟩,
              ⟨.UpdateForkChoice
                  (s.ccBuilderMethods.Tip
                    (s.ccBuilderMethods.Connect ccBuilder (newBlocks.map Block.header)).2)
                  (s.ccBuilderMethods.Root
                    (s.ccBuilderMethods.Connect ccBuilder (newBlocks.map Block.header)).2),
                Reply.ofErr (s.execution.UpdateForkChoice
                  (s.ccBuilderMethods.Tip
                    (s.ccBuilderMethods.Connect ccBuilder (newBlocks.map Block.header)).2)
                  (s.ccBuilderMethods.Root
                    (s.ccBuilderMethods.Connect ccBuilder (newBlocks.map Block.header)).2)
                  (s.execution.InsertBlocks newBlocks st.world).2).1⟩] })) := by
  rcases hc : s.ccBuilderMethods.Connect ccBuilder (newBlocks.map Block.header) with ⟨rc, b1⟩
  rw [hc] at hC hT
  simp only at hC hT
  subst hC
  rcases hi : s.execution.InsertBlocks newBlocks st.world with ⟨ri, w1⟩
  constructor
  · intro e he
    simp only at he
    subst he
    simp [onNewBlocks, hV, hc, hT, invokeErr, Ext.note, hi, Reply.ofErr]
  · intro he
    simp only at he
    subst he
    rcases hu : s.execution.UpdateForkChoice (s.ccBuilderMethods.Tip b1)
        (s.ccBuilderMethods.Root b1) w1 with ⟨_ | eu, w2⟩ <;>
      simp [onNewBlocks, hV, hc, hT, TipPtr_header, invokeErr, Ext.note, hi, hu, Reply.ofErr]

/-- C11: for a new-block event whose batch (the block of the event, or the
fetched list) passes the blocks verifier and whose `Connect` fails with any
error, `onNewBlockEvent` returns `nil`; after the verifier call the trace gains
only the failed `Connect`: no `Penalize`, `InsertBlocks` or `UpdateForkChoice`
call is made, and the world of the collaborators is the one in which the
verifier was reached. -/
theorem onNewBlockEvent_connect_failed (s : Sync W B) (event : EventNewBlock) (ccBuilder : B)
    (st : Ext W) (blocks : List Block) (st1 : Ext W) (e : Error)
    (hB : HasBatch s event ccBuilder st blocks st1)
    (hV : s.blocksVerifier blocks = none)
    (hC : (s.ccBuilderMethods.Connect ccBuilder (blocks.map Block.header)).1 = some e) :
    onNewBlockEvent s event ccBuilder st
      = (none, (s.ccBuilderMethods.Connect ccBuilder (blocks.map Block.header)).2,
        { world := st1.world,
          trace := st1.trace ++ [⟨.blocksVerifier blocks, .ok⟩,
            ⟨.Connect (blocks.map Block.header), .err e⟩] }) ∧
    (st1.trace = st.trace ∨
      st1.trace = st.trace ++
        [⟨.FetchBlocks (Uint64 (s.ccBuilderMethods.Root ccBuilder).number)
          (u64add (Uint64 event.NewBlock.header.number) 1) event.PeerId, .blocks blocks⟩]) := by
  refine ⟨?_, ?_⟩
  · rw [onNewBlockEvent_of_batch s event ccBuilder st blocks st1 hB,
      onNewBlocks_connect_failed s event.PeerId blocks ccBuilder st1 e hV hC]
  · obtain ⟨-, ⟨-, -, hs⟩ | ⟨-, -, hs⟩⟩ := hB
    · exact Or.inl (by rw [hs])
    · exact Or.inr (by rw [hs])

/-- C11, at scenario S3 with a peer that answers the whole range from the
number of the root on: the builder of the specification refuses the batch. -/
theorem onNewBlockEvent_connect_failed_witness :
    (HasBatch syncS eventS3 treeS3 ⟨worldRange, []⟩ (blk 1200 :: blocksS3)
        { world := (syncS.p2pService.FetchBlocks 1200 1206 2 worldRange).2,
          trace := [⟨.FetchBlocks 1200 1206 2, .blocks (blk 1200 :: blocksS3)⟩] } ∧
      syncS.blocksVerifier (blk 1200 :: blocksS3) = none ∧
      (syncS.ccBuilderMethods.Connect treeS3 ((blk 1200 :: blocksS3).map Block.header)).1
        = some .disconnectedParent) ∧
    onNewBlockEvent syncS eventS3 treeS3 ⟨worldRange, []⟩
      = (none, (syncS.ccBuilderMethods.Connect treeS3 ((blk 1200 :: blocksS3).map Block.header)).2,
        { world := (syncS.p2pService.FetchBlocks 1200 1206 2 worldRange).2,
          trace := [⟨.FetchBlocks 1200 1206 2, .blocks (blk 1200 :: blocksS3)⟩]
            ++ [⟨.blocksVerifier (blk 1200 :: blocksS3), .ok⟩,
              ⟨.Connect ((blk 1200 :: blocksS3).map Block.header), .err .disconnectedParent⟩] }) :=
  ⟨⟨⟨by decide, Or.inr ⟨by decide, rfl, rfl⟩⟩, rfl, by decide⟩,
    (onNewBlockEvent_connect_failed syncS eventS3 treeS3 ⟨worldRange, []⟩ (blk 1200 :: blocksS3)
      { world := (syncS.p2pService.FetchBlocks 1200 1206 2 worldRange).2,
        trace := [⟨.FetchBlocks 1200 1206 2, .blocks (blk 1200 :: blocksS3)⟩] }
      .disconnectedParent ⟨by decide, Or.inr ⟨by decide, rfl, rfl⟩⟩ rfl (by decide)).1⟩

/-- C12: for a new-block event whose batch `newBlocks` is verified and
connected, `newTip != oldTip` compares the pointers that `Tip()` returns after
and before `Connect`.  If they are the same pointer, nothing more is called.
If they differ, `InsertBlocks(newBlocks)` is called; when that fails its error
is returned and `UpdateForkChoice` is not called; when it succeeds
`UpdateForkChoice(newTip, Root())` is called, with the tip and the root of the
builder after `Connect`, and its result is returned.  No `Flush`,
`SynchronizeSpans` or `Synchronize` is called in any case.  The pointers differ
whenever the tip header changed, and also when `Tip()` returns an equal header
at another address; they are the same when `Tip()` returns the unchanged header
at the address from before. -/
theorem onNewBlockEvent_connected (s : Sync W B) (event : EventNewBlock) (ccBuilder : B)
    (st : Ext W) (blocks : List Block) (st1 : Ext W)
    (hB : HasBatch s event ccBuilder st blocks st1)
    (hV : s.blocksVerifier blocks = none)
    (hC : (s.ccBuilderMethods.Connect ccBuilder (blocks.map Block.header)).1 = none) :
    (s.ccBuilderMethods.TipPtr (s.ccBuilderMethods.Connect ccBuilder (blocks.map Block.header)).2
        = s.ccBuilderMethods.TipPtr ccBuilder →
      onNewBlockEvent s event ccBuilder st
        = (none, (s.ccBuilderMethods.Connect ccBuilder (blocks.map Block.header)).2,
          { world := st1.world,
            trace := st1.trace ++ [⟨.blocksVerifier blocks, .ok⟩,
              ⟨.Connect (blocks.map Block.header), .ok⟩] })) ∧
    (s.ccBuilderMethods.TipPtr (s.ccBuilderMethods.Connect ccBuilder (blocks.map Block.header)).2
        ≠ s.ccBuilderMethods.TipPtr ccBuilder →
      (∀ e : Error, (s.execution.InsertBlocks blocks st1.world).1 = some e →
        onNewBlockEvent s event ccBuilder st
          = (some e, (s.ccBuilderMethods.Connect ccBuilder (blocks.map Block.header)).2,
            { world := (s.execution.InsertBlocks blocks st1.world).2,
              trace := st1.trace ++ [⟨.blocksVerifier blocks, .ok⟩,
                ⟨.Connect (blocks.map Block.header), .ok⟩,
                ⟨.InsertBlocks blocks, .err e⟩] })) ∧
      ((s.execution.InsertBlocks blocks st1.world).1 = none →
        onNewBlockEvent s event ccBuilder st
          = ((s.execution.UpdateForkChoice
                (s.ccBuilderMethods.Tip
                  (s.ccBuilderMethods.Connect ccBuilder (blocks.map Block.header)).2)
                (s.ccBuilderMethods.Root
                  (s.ccBuilderMethods.Connect ccBuilder (blocks.map Block.header)).2)
                (s.execution.InsertBlocks blocks st1.world).2).1,
            (s.ccBuilderMethods.Connect ccBuilder (blocks.map Block.header)).2,
            { world := (s.execution.UpdateForkChoice
                (s.ccBuilderMethods.Tip
                  (s.ccBuilderMethods.Connect ccBuilder (blocks.map Block.header)).2)
                (s.ccBuilderMethods.Root
                  (s.ccBuilderMethods.Connect ccBuilder (blocks.map Block.header)).2)
                (s.execution.InsertBlocks blocks st1.world).2).2,
              trace := st1.trace ++ [⟨.blocksVerifier blocks, .ok⟩,
                ⟨.Connect (blocks.map Block.header), .ok⟩,
                ⟨.InsertBlocks blocks, .ok⟩,
                ⟨.UpdateForkChoice
                    (s.ccBuilderMethods.Tip
                      (s.ccBuilderMethods.Connect ccBuilder (blocks.map Block.header)).2)
                    (s.ccBuilderMethods.Root
                      (s.ccBuilderMethods.Connect ccBuilder (blocks.map Block.header)).2),
                  Reply.ofErr (s.execution.UpdateForkChoice
                    (s.ccBuilderMethods.Tip
                      (s.ccBuilderMethods.Connect ccBuilder (blocks.map Block.header)).2)
                    (s.ccBuilderMethods.Root
                      (s.ccBuilderMethods.Connect ccBuilder (blocks.map Block.header)).2)
                    (s.execution.InsertBlocks blocks st1.world).2).1⟩] }))) ∧
    (s.ccBuilderMethods.Tip (s.ccBuilderMethods.Connect ccBuilder (blocks.map Block.header)).2
        ≠ s.ccBuilderMethods.Tip ccBuilder →
      s.ccBuilderMethods.TipPtr
          (s.ccBuilderMethods.Connect ccBuilder (blocks.map Block.header)).2
        ≠ s.ccBuilderMethods.TipPtr ccBuilder) ∧
    (s.ccBuilderMethods.TipAddr
          (s.ccBuilderMethods.Connect ccBuilder (blocks.map Block.header)).2
        ≠ s.ccBuilderMethods.TipAddr ccBuilder →
      s.ccBuilderMethods.TipPtr
          (s.ccBuilderMethods.Connect ccBuilder (blocks.map Block.header)).2
        ≠ s.ccBuilderMethods.TipPtr ccBuilder) ∧
    (s.ccBuilderMethods.Tip (s.ccBuilderMethods.Connect ccBuilder (blocks.map Block.header)).2
        = s.ccBuilderMethods.Tip ccBuilder →
      s.ccBuilderMethods.TipAddr
          (s.ccBuilderMethods.Connect ccBuilder (blocks.map Block.header)).2
        = s.ccBuilderMethods.TipAddr ccBuilder →
      s.ccBuilderMethods.TipPtr
          (s.ccBuilderMethods.Connect ccBuilder (blocks.map Block.header)).2
        = s.ccBuilderMethods.TipPtr ccBuilder) := by
  rw [onNewBlockEvent_of_batch s event ccBuilder st blocks st1 hB]
  exact ⟨fun hT => onNewBlocks_same_tip s event.PeerId blocks ccBuilder st1 hV hC hT,
    fun hT => onNewBlocks_new_tip s event.PeerId blocks ccBuilder st1 hV hC hT,
    TipPtr_ne_of_tip_ne s.ccBuilderMethods _ _,
    fun h hp => h (congrArg HeaderPtr.addr hp),
    fun hT hA => by simp only [CanonicalChainBuilder.TipPtr, hT, hA]⟩

/-- C12, at scenario S2 (block 1201 on a builder with root and tip 1200: the tip
moves, `InsertBlocks([b1201])` and `UpdateForkChoice(1201, 1200)` are called)
and at the same event on a builder that already holds that block (`Tip()`
returns the pointer from before, nothing is called). -/
theorem onNewBlockEvent_connected_witness :
    (HasBatch syncS eventS2 treeS3 ⟨worldIdle, []⟩ [blk 1201] ⟨worldIdle, []⟩ ∧
      syncS.blocksVerifier [blk 1201] = none ∧
      (syncS.ccBuilderMethods.Connect treeS3 ([blk 1201].map Block.header)).1 = none ∧
      syncS.ccBuilderMethods.TipPtr
          (syncS.ccBuilderMethods.Connect treeS3 ([blk 1201].map Block.header)).2
        ≠ syncS.ccBuilderMethods.TipPtr treeS3 ∧
      (syncS.execution.InsertBlocks [blk 1201] worldIdle).1 = none) ∧
    onNewBlockEvent syncS eventS2 treeS3 ⟨worldIdle, []⟩
      = (none, (syncS.ccBuilderMethods.Connect treeS3 ([blk 1201].map Block.header)).2,
        { world := worldIdle,
          trace := [] ++ [⟨.blocksVerifier [blk 1201], .ok⟩,
            ⟨.Connect [hdr 1201], .ok⟩,
            ⟨.InsertBlocks [blk 1201], .ok⟩,
            ⟨.UpdateForkChoice (hdr 1201) (hdr 1200), .ok⟩] }) ∧
    (HasBatch syncS eventS2 treeA ⟨worldIdle, []⟩ [blk 1201] ⟨worldIdle, []⟩ ∧
      (syncS.ccBuilderMethods.Connect treeA ([blk 1201].map Block.header)).1 = none ∧
      syncS.ccBuilderMethods.TipPtr
          (syncS.ccBuilderMethods.Connect treeA ([blk 1201].map Block.header)).2
        = syncS.ccBuilderMethods.TipPtr treeA) ∧
    onNewBlockEvent syncS eventS2 treeA ⟨worldIdle, []⟩
      = (none, (syncS.ccBuilderMethods.Connect treeA ([blk 1201].map Block.header)).2,
        { world := worldIdle,
          trace := [] ++ [⟨.blocksVerifier [blk 1201], .ok⟩, ⟨.Connect [hdr 1201], .ok⟩] }) :=
  ⟨⟨⟨by decide, Or.inl ⟨by decide, rfl, rfl⟩⟩, rfl, by decide, by decide, rfl⟩,
    ((onNewBlockEvent_connected syncS eventS2 treeS3 ⟨worldIdle, []⟩ [blk 1201] ⟨worldIdle, []⟩
      ⟨by decide, Or.inl ⟨by decide, rfl, rfl⟩⟩ rfl (by decide)).2.1 (by decide)).2 rfl,
    ⟨⟨by decide, Or.inl ⟨by decide, rfl, rfl⟩⟩, by decide, by decide⟩,
    (onNewBlockEvent_connected syncS eventS2 treeA ⟨worldIdle, []⟩ [blk 1201] ⟨worldIdle, []⟩
      ⟨by decide, Or.inl ⟨by decide, rfl, rfl⟩⟩ rfl (by decide)).1 (by decide)⟩

/-! ## New-block-hashes events -/

/-- One round of the loop of `onNewBlockHashesEvent` for an announcement that is
skipped. -/
theorem onNewBlockHashes_skip (s : Sync W B) (peerId : PeerId) (a : HashNum)
    (rest : List HashNum) (ccBuilder : B) (st : Ext W) (h : skipped s ccBuilder a = true) :
    onNewBlockHashes s peerId (a :: rest) ccBuilder st
      = onNewBlockHashes s peerId rest ccBuilder st := by
  simp only [skipped] at h
  simp [onNewBlockHashes, h]

/-- One round of the loop of `onNewBlockHashesEvent` for an announcement that is
fetched. -/
theorem onNewBlockHashes_fetch (s : Sync W B) (peerId : PeerId) (a : HashNum)
    (rest : List HashNum) (ccBuilder : B) (st : Ext W) (h : skipped s ccBuilder a = false) :
    onNewBlockHashes s peerId (a :: rest) ccBuilder st
      = match (s.p2pService.FetchBlocks a.Number (u64add a.Number 1) peerId st.world).1 with
        | .error err =>
          if err.isIncompleteHeaders || err.isMissingBodies then
            onNewBlockHashes s peerId rest ccBuilder
              (afterFetch s a.Number (u64add a.Number 1) peerId st)
          else
            .ok (some err, ccBuilder, afterFetch s a.Number (u64add a.Number 1) peerId st)
        | .ok [] => .error (.indexOutOfRange 0 0)
        | .ok (block :: _) =>
          match onNewBlockEvent s { NewBlock := block, PeerId := peerId } ccBuilder
              (afterFetch s a.Number (u64add a.Number 1) peerId st) with
          | (some err, ccBuilder, st) => .ok (some err, ccBuilder, st)
          | (none, ccBuilder, st) => onNewBlockHashes s peerId rest ccBuilder st := by
  simp only [skipped] at h
  rcases hf : s.p2pService.FetchBlocks a.Number (u64add a.Number 1) peerId st.world
    with ⟨err | blocks, w1⟩
  · simp [onNewBlockHashes, h, invokeBlocks, afterFetch, hf]
  · cases blocks with
    | nil => simp [onNewBlockHashes, h, invokeBlocks, hf]
    | cons block more => simp [onNewBlockHashes, h, invokeBlocks, afterFetch, hf]

/-- When every announcement is skipped, nothing is called. -/
theorem onNewBlockHashes_all_skipped (s : Sync W B) (peerId : PeerId) (ccBuilder : B)
    (st : Ext W) :
    ∀ l : List HashNum, (∀ a ∈ l, skipped s ccBuilder a = true) →
      onNewBlockHashes s peerId l ccBuilder st = .ok (none, ccBuilder, st) := by
  intro l
  induction l with
  | nil => intro _; rfl
  | cons a rest ih =>
    intro h
    rw [onNewBlockHashes_skip s peerId a rest ccBuilder st (h a (List.mem_cons_self _ _))]
    exact ih (fun x hx => h x (List.mem_cons_of_mem _ hx))

/-- C13: `onNewBlockHashesEvent` handles the announcements in list order, each
on the builder and outside state that the one before it left.  With no
announcement left it returns `nil`.  An announcement whose number is at or below
the number of the root, or whose hash is in the builder, is skipped without any
call.  Any other announcement causes one call
`FetchBlocks(number, number+1, peerId)`.  When the fetch fails with an
`ErrIncompleteHeaders` or `ErrMissingBodies` the loop goes on with the next
announcement; when it fails with another error that error is returned at once.
When it answers with a first block `Data[0]`, `onNewBlockEvent` is run for that
block and the same peer; its error, if any, is returned at once, and otherwise
the loop goes on with the next announcement.  An event whose announcements are
all skipped makes no call at all. -/
theorem onNewBlockHashesEvent_steps (s : Sync W B) (peerId : PeerId) (a : HashNum)
    (rest : List HashNum) (ccBuilder : B) (st : Ext W) :
    onNewBlockHashesEvent s { NewBlockHashes := [], PeerId := peerId } ccBuilder st
      = .ok (none, ccBuilder, st) ∧
    (a.Number ≤ Uint64 (s.ccBuilderMethods.Root ccBuilder).number ∨
        s.ccBuilderMethods.ContainsHash ccBuilder a.Hash = true →
      onNewBlockHashesEvent s { NewBlockHashes := a :: rest, PeerId := peerId } ccBuilder st
        = onNewBlockHashesEvent s { NewBlockHashes := rest, PeerId := peerId } ccBuilder st) ∧
    (Uint64 (s.ccBuilderMethods.Root ccBuilder).number < a.Number →
      s.ccBuilderMethods.ContainsHash ccBuilder a.Hash = false →
      (afterFetch s a.Number (u64add a.Number 1) peerId st).trace
        = st.trace ++ [⟨.FetchBlocks a.Number (u64add a.Number 1) peerId,
            Reply.ofBlocks
              (s.p2pService.FetchBlocks a.Number (u64add a.Number 1) peerId st.world).1⟩] ∧
      (∀ e : Error,
        (s.p2pService.FetchBlocks a.Number (u64add a.Number 1) peerId st.world).1 = .error e →
        (e.isIncompleteHeaders = true ∨ e.isMissingBodies = true →
          onNewBlockHashesEvent s { NewBlockHashes := a :: rest, PeerId := peerId } ccBuilder st
            = onNewBlockHashesEvent s { NewBlockHashes := rest, PeerId := peerId } ccBuilder
                (afterFetch s a.Number (u64add a.Number 1) peerId st)) ∧
        (e.isIncompleteHeaders = false → e.isMissingBodies = false →
          onNewBlockHashesEvent s { NewBlockHashes := a :: rest, PeerId := peerId } ccBuilder st
            = .ok (some e, ccBuilder, afterFetch s a.Number (u64add a.Number 1) peerId st))) ∧
      (∀ (block : Block) (more : List Block),
        (s.p2pService.FetchBlocks a.Number (u64add a.Number 1) peerId st.world).1
          = .ok (block :: more) →
        (∀ e : Error,
          (onNewBlockEvent s { NewBlock := block, PeerId := peerId } ccBuilder
            (afterFetch s a.Number (u64add a.Number 1) peerId st)).1 = some e →
          onNewBlockHashesEvent s { NewBlockHashes := a :: rest, PeerId := peerId } ccBuilder st
            = .ok (onNewBlockEvent s { NewBlock := block, PeerId := peerId } ccBuilder
                (afterFetch s a.Number (u64add a.Number 1) peerId st))) ∧
        ((onNewBlockEvent s { NewBlock := block, PeerId := peerId } ccBuilder
            (afterFetch s a.Number (u64add a.Number 1) peerId st)).1 = none →
          onNewBlockHashesEvent s { NewBlockHashes := a :: rest, PeerId := peerId } ccBuilder st
            = onNewBlockHashesEvent s { NewBlockHashes := rest, PeerId := peerId }
                (onNewBlockEvent s { NewBlock := block, PeerId := peerId } ccBuilder
                  (afterFetch s a.Number (u64add a.Number 1) peerId st)).2.1
                (onNewBlockEvent s { NewBlock := block, PeerId := peerId } ccBuilder
                  (afterFetch s a.Number (u64add a.Number 1) peerId st)).2.2))) ∧
    (∀ l : List HashNum,
      (∀ x ∈ l, x.Number ≤ Uint64 (s.ccBuilderMethods.Root ccBuilder).number ∨
        s.ccBuilderMethods.ContainsHash ccBuilder x.Hash = true) →
      onNewBlockHashesEvent s { NewBlockHashes := l, PeerId := peerId } ccBuilder st
        = .ok (none, ccBuilder, st)) := by
  simp only [onNewBlockHashesEvent]
  refine ⟨rfl, ?_, ?_, ?_⟩
  · intro h
    apply onNewBlockHashes_skip
    rcases h with h | h <;> simp [skipped, h]
  · intro h1 h2
    have hs : skipped s ccBuilder a = false := by simp [skipped, h1, h2]
    refine ⟨rfl, ?_, ?_⟩
    · intro e he
      rw [onNewBlockHashes_fetch s peerId a rest ccBuilder st hs, he]
      refine ⟨?_, ?_⟩
      · rintro (h | h) <;> simp [h]
      · intro h3 h4
        simp [h3, h4]
    · intro block more hb
      rw [onNewBlockHashes_fetch s peerId a rest ccBuilder st hs, hb]
      rcases hev : onNewBlockEvent s { NewBlock := block, PeerId := peerId } ccBuilder
          (afterFetch s a.Number (u64add a.Number 1) peerId st) with ⟨_ | e1, b1, st1⟩
      · simp [hev]
      · simp [hev]
  · intro l hl
    apply onNewBlockHashes_all_skipped
    intro x hx
    rcases hl x hx with h | h <;> simp [skipped, h]

/-- C13, at scenario S6 (an announcement at 1150 on a builder with root 1200 is
skipped: no fetch, no penalize) and at an announcement of block 1201 that the
peer delivers (one fetch, then the new-block handling of that block). -/
theorem onNewBlockHashesEvent_steps_witness :
    handled (onNewBlockHashesEvent syncS eventS6 treeS3 ⟨worldIdle, []⟩)
      = some (none, treeS3, []) ∧
    (calls (afterFetch syncS 1201 (u64add 1201 1) 3 ⟨worldOneBlock, []⟩).trace
        = [.FetchBlocks 1201 1202 3] ∧
      onNewBlockHashesEvent syncS eventAnnounce1201 treeS3 ⟨worldOneBlock, []⟩
        = onNewBlockHashesEvent syncS { NewBlockHashes := [], PeerId := 3 }
            (onNewBlockEvent syncS { NewBlock := blk 1201, PeerId := 3 } treeS3
              (afterFetch syncS 1201 (u64add 1201 1) 3 ⟨worldOneBlock, []⟩)).2.1
            (onNewBlockEvent syncS { NewBlock := blk 1201, PeerId := 3 } treeS3
              (afterFetch syncS 1201 (u64add 1201 1) 3 ⟨worldOneBlock, []⟩)).2.2) ∧
    (handled (onNewBlockHashesEvent syncS eventAnnounce1201 treeS3 ⟨worldOneBlock, []⟩)).map
        (fun r => calls r.2.2)
      = some [.FetchBlocks 1201 1202 3, .blocksVerifier [blk 1201], .Connect [hdr 1201],
          .InsertBlocks [blk 1201], .UpdateForkChoice (hdr 1201) (hdr 1200)] :=
  ⟨congrArg handled
      ((onNewBlockHashesEvent_steps syncS 3 { Hash := 77, Number := 1150 } [] treeS3
        ⟨worldIdle, []⟩).2.2.2 [{ Hash := 77, Number := 1150 }] (by decide)),
    ⟨by decide,
      (((onNewBlockHashesEvent_steps syncS 3 { Hash := 1201, Number := 1201 } [] treeS3
        ⟨worldOneBlock, []⟩).2.2.1 (by decide) (by decide)).2.2 (blk 1201) [] rfl).2
        (by decide)⟩,
    by decide⟩

/-- C14: a milestone event whose `endBlock` is at or below the number of the
root, and a new-block event whose header number is at or below it (numbers as
`uint64`), each return `nil` with the chain builder and the outside state
exactly as they were: the trace gains no call, so no verifier, peer-to-peer,
block downloader, store or execution call is made, and no `Connect`, `Prune` or
`Reset`. -/
theorem stale_events_ignored (s : Sync W B) (m : EventNewMilestone) (event : EventNewBlock)
    (ccBuilder : B) (st : Ext W) :
    (Uint64 m.endBlock ≤ Uint64 (s.ccBuilderMethods.Root ccBuilder).number →
      onMilestoneEvent s m ccBuilder st = (none, ccBuilder, st)) ∧
    (Uint64 event.NewBlock.header.number ≤ Uint64 (s.ccBuilderMethods.Root ccBuilder).number →
      onNewBlockEvent s event ccBuilder st = (none, ccBuilder, st)) := by
  constructor
  · intro h
    simp [onMilestoneEvent, h]
  · intro h
    simp [onNewBlockEvent, h]

/-- C14, at a builder whose root is 1202: the milestone ending at 1202 and the
block 1201 are stale. -/
theorem stale_events_ignored_witness :
    (Uint64 milestoneA.endBlock
        ≤ Uint64 (syncS.ccBuilderMethods.Root (ChainTree.create (hdr 1202))).number ∧
      Uint64 eventS2.NewBlock.header.number
        ≤ Uint64 (syncS.ccBuilderMethods.Root (ChainTree.create (hdr 1202))).number) ∧
    onMilestoneEvent syncS milestoneA (ChainTree.create (hdr 1202)) ⟨worldS3, []⟩
      = (none, ChainTree.create (hdr 1202), ⟨worldS3, []⟩) ∧
    onNewBlockEvent syncS eventS2 (ChainTree.create (hdr 1202)) ⟨worldS3, []⟩
      = (none, ChainTree.create (hdr 1202), ⟨worldS3, []⟩) :=
  ⟨⟨by decide, by decide⟩,
    (stale_events_ignored syncS milestoneA eventS2 (ChainTree.create (hdr 1202))
      ⟨worldS3, []⟩).1 (by decide),
    (stale_events_ignored syncS milestoneA eventS2 (ChainTree.create (hdr 1202))
      ⟨worldS3, []⟩).2 (by decide)⟩

/-- An announcement that is fetched with an empty answer: the loop panics at
`newBlocks.Data[0]`. -/
theorem onNewBlockHashes_empty_fetch (s : Sync W B) (peerId : PeerId) (a : HashNum)
    (rest : List HashNum) (ccBuilder : B) (st : Ext W) (h : skipped s ccBuilder a = false)
    (hF : (s.p2pService.FetchBlocks a.Number (u64add a.Number 1) peerId st.world).1 = .ok []) :
    onNewBlockHashes s peerId (a :: rest) ccBuilder st = .error (.indexOutOfRange 0 0) := by
  rw [onNewBlockHashes_fetch s peerId a rest ccBuilder st h, hF]

/-- C19 fails on the code: for the announcement of block 1201 (above the root
1200, hash not in the builder) and a peer whose `FetchBlocks` succeeds with an
empty list, `newBlocks.Data[0]` is out of range and `onNewBlockHashesEvent`
panics instead of returning `nil` or an error. -/
theorem onNewBlockHashesEvent_empty_fetch_panics :
    skipped syncS treeS3 { Hash := 1201, Number := 1201 } = false ∧
    (syncS.p2pService.FetchBlocks 1201 (u64add 1201 1) 3 worldIdle).1 = .ok [] ∧
    onNewBlockHashesEvent syncS eventAnnounce1201 treeS3 ⟨worldIdle, []⟩
      = .error (.indexOutOfRange 0 0) ∧
    handled (onNewBlockHashesEvent syncS eventAnnounce1201 treeS3 ⟨worldIdle, []⟩) = none :=
  ⟨by decide, rfl, rfl, rfl⟩

/-- C20 fails on the code: for the announcement with number `2^64 - 1` (above
the root 1200, hash not in the builder) the end of the range, `number+1` in
`uint64` arithmetic, wraps to 0: the call is `FetchBlocks(2^64-1, 0, peerId)`,
and `start < endExclusive` does not hold.  For every smaller number the range
is `[number, number+1)`, one block. -/
theorem onNewBlockHashesEvent_range_wraps :
    skipped syncS treeS3 { Hash := 5, Number := 2 ^ 64 - 1 } = false ∧
    (handled (onNewBlockHashesEvent syncS eventAnnounceMax treeS3
        ⟨worldFetchError (.other 9), []⟩)).map (fun r => calls r.2.2)
      = some [.FetchBlocks 18446744073709551615 0 3] ∧
    u64add (2 ^ 64 - 1) 1 = 0 ∧
    ¬ (2 ^ 64 - 1 < u64add (2 ^ 64 - 1) 1) ∧
    (∀ n : Nat, n < 2 ^ 64 - 1 → n < u64add n 1 ∧ u64add n 1 - n = 1) := by
  refine ⟨by decide, by decide, by decide, by decide, ?_⟩
  intro n hn
  have h : u64add n 1 = n + 1 := by
    unfold u64add
    exact Nat.mod_eq_of_lt (by omega)
  rw [h]
  omega

/-! ## The event loop of `Run` -/

/-- Handling one more event after events that were all handled with `nil`. -/
theorem handledAll_snoc (s : Sync W B) (event : Event) (ccBuilder1 ccBuilder2 : B)
    (st1 st2 : Ext W) (h2 : handleEvent s event ccBuilder1 st1 = .ok (none, ccBuilder2, st2)) :
    ∀ (pre : List Event) (ccBuilder : B) (st : Ext W),
      handledAll s pre ccBuilder st = some (ccBuilder1, st1) →
      handledAll s (pre ++ [event]) ccBuilder st = some (ccBuilder2, st2) := by
  intro pre
  induction pre with
  | nil =>
    intro ccBuilder st h
    simp only [handledAll, Option.some.injEq, Prod.mk.injEq] at h
    obtain ⟨rfl, rfl⟩ := h
    simp [handledAll, h2]
  | cons ev pre ih =>
    intro ccBuilder st h
    rcases hh : handleEvent s ev ccBuilder st with p | ⟨_ | err, ccBuilder3, st3⟩
    · simp [handledAll, hh] at h
    · simp only [handledAll, hh] at h
      simp only [List.cons_append, handledAll, hh]
      exact ih _ _ h
    · simp [handledAll, hh] at h

/-- C18: after a catch-up that returns the tip `t`, `Run` creates the chain
builder by `ccBuilderFactory(t)` and handles the events in arrival order, each
with the handler of its type (`onMilestoneEvent`, `onNewBlockEvent`,
`onNewBlockHashesEvent`) on the builder and outside state that the handler of
the event before it left.  When a handler returns an error, `Run` returns that
error with the state at that point, whatever events follow; when every event is
handled with `nil`, `Run` returns `ctx.Err()` once the context is done. -/
theorem Run_handles_in_order (s : Sync W B) (fuel : Nat) (st0 st1 : Ext W) (tip : Header)
    (hSync : syncToTip s fuel st0 = some (.ok tip, st1)) :
    (∀ (pre rest : List Event) (event : Event) (ccBuilder ccBuilder2 : B) (st st2 : Ext W)
        (err : Error),
      handledAll s pre (s.ccBuilderFactory tip) (st1.note (.ccBuilderFactory tip) .ok)
        = some (ccBuilder, st) →
      handleEvent s event ccBuilder st = .ok (some err, ccBuilder2, st2) →
      Run s fuel (pre ++ event :: rest) st0 = some (.ok (some err, some ccBuilder2, st2))) ∧
    (∀ (events : List Event) (ccBuilder : B) (st : Ext W),
      handledAll s events (s.ccBuilderFactory tip) (st1.note (.ccBuilderFactory tip) .ok)
        = some (ccBuilder, st) →
      Run s fuel events st0 = some (.ok (some .contextDone, some ccBuilder, st))) ∧
    handledAll s [] (s.ccBuilderFactory tip) (st1.note (.ccBuilderFactory tip) .ok)
      = some (s.ccBuilderFactory tip, st1.note (.ccBuilderFactory tip) .ok) ∧
    (∀ (pre : List Event) (event : Event) (ccBuilder ccBuilder2 : B) (st st2 : Ext W),
      handledAll s pre (s.ccBuilderFactory tip) (st1.note (.ccBuilderFactory tip) .ok)
        = some (ccBuilder, st) →
      handleEvent s event ccBuilder st = .ok (none, ccBuilder2, st2) →
      handledAll s (pre ++ [event]) (s.ccBuilderFactory tip)
          (st1.note (.ccBuilderFactory tip) .ok)
        = some (ccBuilder2, st2)) ∧
    (∀ (ccBuilder : B) (st : Ext W),
      (∀ e : EventNewMilestone,
        handleEvent s (.NewMilestone e) ccBuilder st = .ok (onMilestoneEvent s e ccBuilder st)) ∧
      (∀ e : EventNewBlock,
        handleEvent s (.NewBlock e) ccBuilder st = .ok (onNewBlockEvent s e ccBuilder st)) ∧
      (∀ e : EventNewBlockHashes,
        handleEvent s (.NewBlockHashes e) ccBuilder st
          = onNewBlockHashesEvent s e ccBuilder st)) := by
  refine ⟨?_, ?_, rfl, ?_, fun _ _ => ⟨fun _ => rfl, fun _ => rfl, fun _ => rfl⟩⟩
  · intro pre rest event ccBuilder ccBuilder2 st st2 err hpre hev
    simp only [Run, hSync]
    rw [eventLoop_append s _ pre _ _ _ _ hpre]
    simp [eventLoop, hev]
  · intro events ccBuilder st hall
    simp only [Run, hSync]
    have := eventLoop_append s [] events _ _ _ _ hall
    rw [List.append_nil] at this
    rw [this]
    simp [eventLoop]
  · intro pre event ccBuilder ccBuilder2 st st2 hpre hev
    exact handledAll_snoc s event ccBuilder ccBuilder2 st st2 hev pre _ _ hpre

/-- C18, at a node that is caught up at block 1200: the block 1201 is handled
with `nil`, then a milestone attesting another branch, for which the download
has nothing, makes `Run` return the error; the block 1202 after it is not
handled. -/
theorem Run_handles_in_order_witness :
    syncToTip syncS 1 ⟨worldIdle, []⟩
      = some (.ok (hdr 1200),
        { world := worldIdle,
          trace := [⟨.CurrentHeader, .header (some (hdr 1200))⟩,
            ⟨.SynchronizeCheckpoints, .ok⟩,
            ⟨.DownloadBlocksUsingCheckpoints 1201, .header none⟩,
            ⟨.SynchronizeMilestones, .ok⟩,
            ⟨.DownloadBlocksUsingMilestones 1201, .header none⟩] }) ∧
    Run syncS 1 ([.NewBlock eventS2] ++ .NewMilestone milestoneB
        :: [.NewBlock { NewBlock := blk 1202, PeerId := 1 }]) ⟨worldIdle, []⟩
      = some (.ok (some .noMilestoneHeaders,
          some (onNewBlockEvent syncS eventS2 (ChainTree.create (hdr 1200)) ⟨worldIdle, []⟩).2.1,
          (onMilestoneEvent syncS milestoneB
            (onNewBlockEvent syncS eventS2 (ChainTree.create (hdr 1200)) ⟨worldIdle, []⟩).2.1
            (onNewBlockEvent syncS eventS2 (syncS.ccBuilderFactory (hdr 1200))
              (Ext.note
                { world := worldIdle,
                  trace := [⟨.CurrentHeader, .header (some (hdr 1200))⟩,
                    ⟨.SynchronizeCheckpoints, .ok⟩,
                    ⟨.DownloadBlocksUsingCheckpoints 1201, .header none⟩,
                    ⟨.SynchronizeMilestones, .ok⟩,
                    ⟨.DownloadBlocksUsingMilestones 1201, .header none⟩] }
                (.ccBuilderFactory (hdr 1200)) .ok)).2.2).2.2)) ∧
    (summary (Run syncS 1 ([.NewBlock eventS2] ++ .NewMilestone milestoneB
        :: [.NewBlock { NewBlock := blk 1202, PeerId := 1 }]) ⟨worldIdle, []⟩)).map
        (fun r => (calls r.2.2).drop 6)
      = some [.blocksVerifier [blk 1201], .Connect [hdr 1201], .InsertBlocks [blk 1201],
          .UpdateForkChoice (hdr 1201) (hdr 1200),
          .milestoneVerifier milestoneB [], .UpdateForkChoice (hdr 1200) (hdr 1200),
          .DownloadBlocksUsingMilestones 1200] :=
  ⟨rfl,
    (Run_handles_in_order syncS 1 ⟨worldIdle, []⟩ _ (hdr 1200) rfl).1 [.NewBlock eventS2]
      [.NewBlock { NewBlock := blk 1202, PeerId := 1 }] (.NewMilestone milestoneB) _ _ _ _
      .noMilestoneHeaders rfl rfl,
    by decide⟩

/-! ## The arguments of the fork-choice updates -/

theorem forkChoices_append (a b : List Entry) :
    forkChoices (a ++ b) = forkChoices a ++ forkChoices b := by
  simp [forkChoices]

/-- The fork-choice updates of a commit barrier: none when an earlier call
failed, otherwise the one with the arguments of the barrier.  A commit barrier
never calls `Reset`. -/
theorem commitExecution_forkChoices (s : Sync W B) (newTip finalizedHeader : Header)
    (st : Ext W) :
    ∃ es : List Entry,
      (commitExecution s newTip finalizedHeader st).2.trace = st.trace ++ es ∧
      (forkChoices es = [] ∨ forkChoices es = [(newTip, finalizedHeader)]) ∧
      ∀ e ∈ es, ∀ h : Header, e.call ≠ .Reset h := by
  rcases h1 : s.store.Flush st.world with ⟨_ | e1, w1⟩
  · rcases h2 : s.heimdallSync.SynchronizeSpans (Uint64 newTip.number) w1 with ⟨_ | e2, w2⟩
    · rcases h3 : s.bridgeSync.Synchronize (Uint64 newTip.number) w2 with ⟨_ | e3, w3⟩
      · rcases h4 : s.execution.UpdateForkChoice newTip finalizedHeader w3 with ⟨r4, w4⟩
        refine ⟨[⟨.Flush, .ok⟩, ⟨.SynchronizeSpans (Uint64 newTip.number), .ok⟩,
          ⟨.BridgeSynchronize (Uint64 newTip.number), .ok⟩,
          ⟨.UpdateForkChoice newTip finalizedHeader, Reply.ofErr r4⟩], ?_, Or.inr ?_, ?_⟩
        · simp [commitExecution, invokeErr, h1, h2, h3, h4, Reply.ofErr]
        · simp [forkChoices]
        · simp
      · refine ⟨[⟨.Flush, .ok⟩, ⟨.SynchronizeSpans (Uint64 newTip.number), .ok⟩,
          ⟨.BridgeSynchronize (Uint64 newTip.number), .err e3⟩], ?_, Or.inl ?_, ?_⟩
        · simp [commitExecution, invokeErr, h1, h2, h3, Reply.ofErr]
        · simp [forkChoices]
        · simp
    · refine ⟨[⟨.Flush, .ok⟩, ⟨.SynchronizeSpans (Uint64 newTip.number), .err e2⟩], ?_,
        Or.inl ?_, ?_⟩
      · simp [commitExecution, invokeErr, h1, h2, Reply.ofErr]
      · simp [forkChoices]
      · simp
  · refine ⟨[⟨.Flush, .err e1⟩], ?_, Or.inl ?_, ?_⟩
    · simp [commitExecution, invokeErr, h1, Reply.ofErr]
    · simp [forkChoices]
    · simp

/-- From the blocks verifier on, either no fork-choice update is made, or the
calls are verifier, `Connect`, `InsertBlocks`, all successful, and then the one
`UpdateForkChoice`, with the tip and the root of the builder that `Connect`
returned, which is the builder that the handler returns. -/
theorem onNewBlocks_forkChoices (s : Sync W B) (peerId : PeerId) (newBlocks : List Block)
    (ccBuilder : B) (st : Ext W) :
    (∃ es : List Entry,
      (onNewBlocks s peerId newBlocks ccBuilder st).2.2.trace = st.trace ++ es ∧
      forkChoices es = []) ∨
    ((onNewBlocks s peerId newBlocks ccBuilder st).2.2.trace
        = st.trace ++ [⟨.blocksVerifier newBlocks, .ok⟩,
          ⟨.Connect (newBlocks.map Block.header), .ok⟩,
          ⟨.InsertBlocks newBlocks, .ok⟩,
          ⟨.UpdateForkChoice
              (s.ccBuilderMethods.Tip
                (s.ccBuilderMethods.Connect ccBuilder (newBlocks.map Block.header)).2)
              (s.ccBuilderMethods.Root
                (s.ccBuilderMethods.Connect ccBuilder (newBlocks.map Block.header)).2),
            Reply.ofErr (onNewBlocks s peerId newBlocks ccBuilder st).1⟩] ∧
      (onNewBlocks s peerId newBlocks ccBuilder st).2.1
        = (s.ccBuilderMethods.Connect ccBuilder (newBlocks.map Block.header)).2) := by
  rcases hV : s.blocksVerifier newBlocks with _ | e
  · rcases hc : (s.ccBuilderMethods.Connect ccBuilder (newBlocks.map Block.header)).1 with _ | ec
    · by_cases hT : s.ccBuilderMethods.TipPtr
          (s.ccBuilderMethods.Connect ccBuilder (newBlocks.map Block.header)).2
          = s.ccBuilderMethods.TipPtr ccBuilder
      · rw [onNewBlocks_same_tip s peerId newBlocks ccBuilder st hV hc hT]
        exact Or.inl ⟨_, rfl, by simp [forkChoices]⟩
      · rcases hi : (s.execution.InsertBlocks newBlocks st.world).1 with _ | ei
        · rw [(onNewBlocks_new_tip s peerId newBlocks ccBuilder st hV hc hT).2 hi]
          exact Or.inr ⟨rfl, rfl⟩
        · rw [(onNewBlocks_new_tip s peerId newBlocks ccBuilder st hV hc hT).1 ei hi]
          exact Or.inl ⟨_, rfl, by simp [forkChoices]⟩
    · rw [onNewBlocks_connect_failed s peerId newBlocks ccBuilder st ec hV hc]
      exact Or.inl ⟨_, rfl, by simp [forkChoices]⟩
  · rw [onNewBlocks_rejected s peerId newBlocks ccBuilder st e hV]
    exact Or.inl ⟨_, rfl, by simp [forkChoices]⟩

/-- C16, as stated, fails: in scenario S5 (root 1200, tip 1202 on the local
branch, the milestone download answering 1202 of branch B) the recovery calls
`UpdateForkChoice(1200, 1200)` and then `UpdateForkChoice(1202_B, 1202_B)`, both
before `Reset`, the last call, so while the builder still has tip 1202 of the
local branch and root 1200: the head of the first call is the root, not
`ccb.Tip()`; the head of the second is neither the tip, nor is its finalized
header the root of the builder, at that moment or before the unwind. -/
theorem S5_head_is_not_tip :
    forkChoices (handleMilestoneMismatch syncS treeA ⟨worldS5, []⟩).2.2.trace
      = [(hdr 1200, hdr 1200), (hdrB 1202, hdrB 1202)] ∧
    (calls (handleMilestoneMismatch syncS treeA ⟨worldS5, []⟩).2.2.trace).getLast?
      = some (.Reset (hdrB 1202)) ∧
    specChainBuilder.Tip treeA = hdr 1202 ∧
    specChainBuilder.Root treeA = hdr 1200 ∧
    hdr 1200 ≠ specChainBuilder.Tip treeA ∧
    hdrB 1202 ≠ specChainBuilder.Tip treeA ∧
    hdrB 1202 ≠ specChainBuilder.Root treeA := by
  decide

/-- C16, amended.  New-block handling: either `onNewBlockEvent` makes no
`UpdateForkChoice`, or its calls for the batch end with verifier, `Connect`,
`InsertBlocks`, all successful, and `UpdateForkChoice(head, finalized)` with
`head = ccb.Tip()` and `finalized = ccb.Root()` of the builder that `Connect`
returned, the builder at the moment of the call and the one the handler
returns.  Milestone-mismatch recovery: when `handleMilestoneMismatch` returns
an error it has not called `Reset`, the builder is the one from before, and its
fork-choice updates are the unwind `(r, r)`, `r` the root of the builder, and,
if the commit barrier got that far, `(newTip, newTip)` for the header `newTip`
that the milestone download answered; when it returns `nil` its calls are, in
this order, `UpdateForkChoice(r, r)`, the download answering `newTip`, the
commit barrier ending in `UpdateForkChoice(newTip, newTip)`, and last
`Reset(newTip)`: both updates are issued before `Reset`, and for a builder whose
`Reset` sets `root = tip = newRoot` the builder left has
`Root() = Tip() = newTip`. -/
theorem forkChoice_arguments (s : Sync W B) (event : EventNewBlock) (ccBuilder : B)
    (st : Ext W) :
    ((∃ es : List Entry,
        (onNewBlockEvent s event ccBuilder st).2.2.trace = st.trace ++ es ∧
        forkChoices es = []) ∨
      ∃ (blocks : List Block) (st1 : Ext W),
        HasBatch s event ccBuilder st blocks st1 ∧
        (onNewBlockEvent s event ccBuilder st).2.2.trace
          = st1.trace ++ [⟨.blocksVerifier blocks, .ok⟩,
            ⟨.Connect (blocks.map Block.header), .ok⟩,
            ⟨.InsertBlocks blocks, .ok⟩,
            ⟨.UpdateForkChoice
                (s.ccBuilderMethods.Tip
                  (s.ccBuilderMethods.Connect ccBuilder (blocks.map Block.header)).2)
                (s.ccBuilderMethods.Root
                  (s.ccBuilderMethods.Connect ccBuilder (blocks.map Block.header)).2),
              Reply.ofErr (onNewBlockEvent s event ccBuilder st).1⟩] ∧
        (onNewBlockEvent s event ccBuilder st).2.1
          = (s.ccBuilderMethods.Connect ccBuilder (blocks.map Block.header)).2) ∧
    (∃ es : List Entry,
      (handleMilestoneMismatch s ccBuilder st).2.2.trace = st.trace ++ es ∧
      (((handleMilestoneMismatch s ccBuilder st).1 ≠ none ∧
          (handleMilestoneMismatch s ccBuilder st).2.1 = ccBuilder ∧
          (∀ e ∈ es, ∀ h : Header, e.call ≠ .Reset h) ∧
          (forkChoices es
              = [(s.ccBuilderMethods.Root ccBuilder, s.ccBuilderMethods.Root ccBuilder)] ∨
            ∃ newTip : Header,
              (⟨.DownloadBlocksUsingMilestones
                  (Uint64 (s.ccBuilderMethods.Root ccBuilder).number),
                  .header (some newTip)⟩ : Entry) ∈ es ∧
              forkChoices es
                = [(s.ccBuilderMethods.Root ccBuilder, s.ccBuilderMethods.Root ccBuilder),
                    (newTip, newTip)])) ∨
        ((handleMilestoneMismatch s ccBuilder st).1 = none ∧
          ∃ newTip : Header,
            es = ⟨.UpdateForkChoice (s.ccBuilderMethods.Root ccBuilder)
                    (s.ccBuilderMethods.Root ccBuilder), .ok⟩
                :: ⟨.DownloadBlocksUsingMilestones
                      (Uint64 (s.ccBuilderMethods.Root ccBuilder).number),
                    .header (some newTip)⟩
                :: barrierEntries newTip newTip
              ++ [⟨.Reset newTip, .ok⟩] ∧
            forkChoices es
              = [(s.ccBuilderMethods.Root ccBuilder, s.ccBuilderMethods.Root ccBuilder),
                  (newTip, newTip)] ∧
            (handleMilestoneMismatch s ccBuilder st).2.1
              = s.ccBuilderMethods.Reset ccBuilder newTip ∧
            ((∀ (b : B) (h : Header), s.ccBuilderMethods.Root (s.ccBuilderMethods.Reset b h) = h ∧
                s.ccBuilderMethods.Tip (s.ccBuilderMethods.Reset b h) = h) →
              s.ccBuilderMethods.Root (handleMilestoneMismatch s ccBuilder st).2.1 = newTip ∧
              s.ccBuilderMethods.Tip (handleMilestoneMismatch s ccBuilder st).2.1
                = newTip)))) := by
  constructor
  · by_cases hN : Uint64 (s.ccBuilderMethods.Root ccBuilder).number
        < Uint64 event.NewBlock.header.number
    · rcases hP : s.ccBuilderMethods.ContainsHash ccBuilder event.NewBlock.header.parentHash
      · rcases hf : (s.p2pService.FetchBlocks (Uint64 (s.ccBuilderMethods.Root ccBuilder).number)
            (u64add (Uint64 event.NewBlock.header.number) 1) event.PeerId st.world).1
          with err | blocks
        · rw [onNewBlockEvent_fetch_error s event ccBuilder st err hN hP hf]
          exact Or.inl ⟨_, rfl, by simp [forkChoices]⟩
        · rw [onNewBlockEvent_fetched s event ccBuilder st blocks hN hP hf]
          rcases onNewBlocks_forkChoices s event.PeerId blocks ccBuilder
            { world := (s.p2pService.FetchBlocks
                (Uint64 (s.ccBuilderMethods.Root ccBuilder).number)
                (u64add (Uint64 event.NewBlock.header.number) 1) event.PeerId st.world).2,
              trace := st.trace ++
                [⟨.FetchBlocks (Uint64 (s.ccBuilderMethods.Root ccBuilder).number)
                  (u64add (Uint64 event.NewBlock.header.number) 1) event.PeerId,
                  .blocks blocks⟩] }
            with ⟨es, he1, he2⟩ | ⟨he1, he2⟩
          · refine Or.inl ⟨⟨.FetchBlocks (Uint64 (s.ccBuilderMethods.Root ccBuilder).number)
                (u64add (Uint64 event.NewBlock.header.number) 1) event.PeerId, .blocks blocks⟩
              :: es, ?_, ?_⟩
            · rw [he1]
              simp
            · simpa [forkChoices] using he2
          · exact Or.inr ⟨blocks, _, ⟨hN, Or.inr ⟨hP, hf, rfl⟩⟩, he1, he2⟩
      · rw [onNewBlockEvent_known s event ccBuilder st hN hP]
        rcases onNewBlocks_forkChoices s event.PeerId [event.NewBlock] ccBuilder st
          with h | ⟨he1, he2⟩
        · exact Or.inl h
        · exact Or.inr ⟨[event.NewBlock], st, ⟨hN, Or.inl ⟨hP, rfl, rfl⟩⟩, he1, he2⟩
    · refine Or.inl ⟨[], ?_, by simp [forkChoices]⟩
      simp [onNewBlockEvent, Nat.le_of_not_lt hN]
  · rcases h1 : s.execution.UpdateForkChoice (s.ccBuilderMethods.Root ccBuilder)
        (s.ccBuilderMethods.Root ccBuilder) st.world with ⟨_ | e1, w1⟩
    · rcases h2 : s.blockDownloader.DownloadBlocksUsingMilestones
          (Uint64 (s.ccBuilderMethods.Root ccBuilder).number) w1 with ⟨e2 | _ | newTip, w2⟩
      · refine ⟨[⟨.UpdateForkChoice (s.ccBuilderMethods.Root ccBuilder)
                (s.ccBuilderMethods.Root ccBuilder), .ok⟩,
              ⟨.DownloadBlocksUsingMilestones
                  (Uint64 (s.ccBuilderMethods.Root ccBuilder).number), .err e2⟩], ?_,
          Or.inl ⟨?_, ?_, by simp, Or.inl (by simp [forkChoices])⟩⟩ <;>
          simp [handleMilestoneMismatch, invokeErr, invokeHeader, h1, h2, Reply.ofErr,
            Reply.ofHeader]
      · refine ⟨[⟨.UpdateForkChoice (s.ccBuilderMethods.Root ccBuilder)
                (s.ccBuilderMethods.Root ccBuilder), .ok⟩,
              ⟨.DownloadBlocksUsingMilestones
                  (Uint64 (s.ccBuilderMethods.Root ccBuilder).number), .header none⟩], ?_,
          Or.inl ⟨?_, ?_, by simp, Or.inl (by simp [forkChoices])⟩⟩ <;>
          simp [handleMilestoneMismatch, invokeErr, invokeHeader, h1, h2, Reply.ofErr,
            Reply.ofHeader]
      · simp only [handleMilestoneMismatch, invokeErr, invokeHeader, h1, h2]
        have ht := commitExecution_forkChoices s newTip newTip
          { world := w2,
            trace := (st.trace ++ [⟨.UpdateForkChoice (s.ccBuilderMethods.Root ccBuilder)
                  (s.ccBuilderMethods.Root ccBuilder), Reply.ofErr none⟩])
              ++ [⟨.DownloadBlocksUsingMilestones
                    (Uint64 (s.ccBuilderMethods.Root ccBuilder).number),
                  Reply.ofHeader (.ok (some newTip))⟩] }
        have ht2 := commitExecution_trace s newTip newTip
          { world := w2,
            trace := (st.trace ++ [⟨.UpdateForkChoice (s.ccBuilderMethods.Root ccBuilder)
                  (s.ccBuilderMethods.Root ccBuilder), Reply.ofErr none⟩])
              ++ [⟨.DownloadBlocksUsingMilestones
                    (Uint64 (s.ccBuilderMethods.Root ccBuilder).number),
                  Reply.ofHeader (.ok (some newTip))⟩] }
        generalize hce : commitExecution s newTip newTip _ = rc at ht ht2 ⊢
        rcases rc with ⟨_ | e3, st3⟩
        · obtain ⟨es, he1, -, -, -, -, he6⟩ := ht2
          have hes := he6.1 rfl
          subst hes
          refine ⟨⟨.UpdateForkChoice (s.ccBuilderMethods.Root ccBuilder)
                  (s.ccBuilderMethods.Root ccBuilder), .ok⟩
              :: ⟨.DownloadBlocksUsingMilestones
                    (Uint64 (s.ccBuilderMethods.Root ccBuilder).number),
                  .header (some newTip)⟩
              :: barrierEntries newTip newTip ++ [⟨.Reset newTip, .ok⟩], ?_,
            Or.inr ⟨rfl, newTip, rfl, ?_, rfl, fun hReset => hReset ccBuilder newTip⟩⟩
          · simp only at he1
            simp [Ext.note, he1, Reply.ofErr, Reply.ofHeader]
          · simp [forkChoices, barrierEntries, barrierCalls]
        · obtain ⟨es, he1, he2, he3⟩ := ht
          refine ⟨[⟨.UpdateForkChoice (s.ccBuilderMethods.Root ccBuilder)
                (s.ccBuilderMethods.Root ccBuilder), .ok⟩,
              ⟨.DownloadBlocksUsingMilestones
                  (Uint64 (s.ccBuilderMethods.Root ccBuilder).number),
                .header (some newTip)⟩] ++ es, ?_, Or.inl ⟨by simp, rfl, ?_, ?_⟩⟩
          · simp only at he1
            simp [he1, Reply.ofErr, Reply.ofHeader]
          · intro e he h
            simp only [List.mem_append, List.mem_cons, List.mem_singleton, List.not_mem_nil,
              or_false] at he
            rcases he with (rfl | rfl) | he
            · simp
            · simp
            · exact he3 e he h
          · rcases he2 with he2 | he2
            · refine Or.inl ?_
              rw [forkChoices_append, he2]
              simp [forkChoices]
            · refine Or.inr ⟨newTip, by simp, ?_⟩
              rw [forkChoices_append, he2]
              simp [forkChoices]
    · refine ⟨[⟨.UpdateForkChoice (s.ccBuilderMethods.Root ccBuilder)
          (s.ccBuilderMethods.Root ccBuilder), .err e1⟩], ?_,
        Or.inl ⟨?_, ?_, by simp, Or.inl (by simp [forkChoices])⟩⟩ <;>
        simp [handleMilestoneMismatch, invokeErr, h1, Reply.ofErr]

/-- C16, amended, at scenario S5: the recovery succeeds, the builder of the
specification keeps the contract of `Reset`, and the theorem gives the builder
left by the recovery `Root() = Tip() = 1202_B`, the header that the milestone
download answered, after the fork-choice updates `(1200, 1200)` and
`(1202_B, 1202_B)`. -/
theorem forkChoice_arguments_witness :
    (∀ (b : ChainTree) (h : Header),
      syncS.ccBuilderMethods.Root (syncS.ccBuilderMethods.Reset b h) = h ∧
      syncS.ccBuilderMethods.Tip (syncS.ccBuilderMethods.Reset b h) = h) ∧
    (handleMilestoneMismatch syncS treeA ⟨worldS5, []⟩).1 = none ∧
    syncS.ccBuilderMethods.Root (handleMilestoneMismatch syncS treeA ⟨worldS5, []⟩).2.1
      = hdrB 1202 ∧
    syncS.ccBuilderMethods.Tip (handleMilestoneMismatch syncS treeA ⟨worldS5, []⟩).2.1
      = hdrB 1202 ∧
    forkChoices (handleMilestoneMismatch syncS treeA ⟨worldS5, []⟩).2.2.trace
      = [(hdr 1200, hdr 1200), (hdrB 1202, hdrB 1202)] := by
  have hReset : ∀ (b : ChainTree) (h : Header),
      syncS.ccBuilderMethods.Root (syncS.ccBuilderMethods.Reset b h) = h ∧
      syncS.ccBuilderMethods.Tip (syncS.ccBuilderMethods.Reset b h) = h :=
    specChainBuilder_reset
  have hNil : (handleMilestoneMismatch syncS treeA ⟨worldS5, []⟩).1 = none := by decide
  refine ⟨hReset, hNil, ?_⟩
  obtain ⟨es, he, h⟩ := (forkChoice_arguments syncS eventS2 treeA ⟨worldS5, []⟩).2
  rcases h with ⟨hne, -⟩ | ⟨-, newTip, -, hfc, hb, hR⟩
  · exact absurd hNil hne
  · have hroot : (handleMilestoneMismatch syncS treeA ⟨worldS5, []⟩).2.1.root = hdrB 1202 := by
      decide
    have hT : newTip = hdrB 1202 := by
      rw [hb] at hroot
      exact hroot
    subst hT
    refine ⟨(hR hReset).1, (hR hReset).2, ?_⟩
    rw [he, List.nil_append, hfc]
    rfl

/-! ## Backfill and the contract of `Connect` -/

/-- `Connect` of the specification never moves the root. -/
theorem specChainBuilder_connect_root (b : ChainTree) (hs : List Header) :
    specChainBuilder.Root (specChainBuilder.Connect b hs).2 = specChainBuilder.Root b := by
  simp only [specChainBuilder, ChainTree.Connect]
  cases hs with
  | nil => rfl
  | cons first rest =>
    simp only
    split
    · rfl
    · split
      · rfl
      · split <;> rfl

/-- `Connect` of the specification refuses a batch with a header whose number
is at or below the number of the root. -/
theorem specChainBuilder_connect_below_root (b : ChainTree) (hs : List Header)
    (h : ∃ x ∈ hs, x.number ≤ b.root.number) :
    (specChainBuilder.Connect b hs).1 ≠ none := by
  obtain ⟨x, hx, hle⟩ := h
  simp only [specChainBuilder, ChainTree.Connect]
  cases hs with
  | nil => simp at hx
  | cons first rest =>
    simp only
    split
    · simp
    · split
      · simp
      · split
        · simp
        · rename_i hany
          exfalso
          apply hany
          simp only [List.any_eq_true, decide_eq_true_eq]
          exact ⟨x, hx, hle⟩

/-- C17, as stated, fails: in scenario S3 with a peer that answers the range
asked for, `FetchBlocks(1200, 1206, 2)` succeeds with the blocks 1200 to 1205
and the blocks verifier accepts them, but `Connect` of the specification fails
on their headers, the first of which has the number of the root; the event is
dropped, the builder is unchanged and `UpdateForkChoice` is not called. -/
theorem S3_range_answer_not_connected :
    (syncS.p2pService.FetchBlocks (Uint64 (syncS.ccBuilderMethods.Root treeS3).number)
      (u64add (Uint64 eventS3.NewBlock.header.number) 1) eventS3.PeerId worldRange).1
      = .ok (blk 1200 :: blocksS3) ∧
    syncS.blocksVerifier (blk 1200 :: blocksS3) = none ∧
    (syncS.ccBuilderMethods.Connect treeS3 ((blk 1200 :: blocksS3).map Block.header)).1
      = some .disconnectedParent ∧
    calls (onNewBlockEvent syncS eventS3 treeS3 ⟨worldRange, []⟩).2.2.trace
      = [.FetchBlocks 1200 1206 2, .blocksVerifier (blk 1200 :: blocksS3),
          .Connect ((blk 1200 :: blocksS3).map Block.header)] ∧
    forkChoices (onNewBlockEvent syncS eventS3 treeS3 ⟨worldRange, []⟩).2.2.trace = [] ∧
    (onNewBlockEvent syncS eventS3 treeS3 ⟨worldRange, []⟩).2.1 = treeS3 ∧
    specChainBuilder.Tip (onNewBlockEvent syncS eventS3 treeS3 ⟨worldRange, []⟩).2.1
      = hdr 1200 := by
  refine ⟨rfl, rfl, ?_, ?_, ?_, ?_, ?_⟩ <;> decide

/-- C17, amended: for a new-block event above the root `r` whose parent hash is
not in the builder, when `FetchBlocks(r.Number, N+1, peerId)` succeeds and the
blocks verifier accepts the batch.  If `Connect` fails on the headers of the
batch, the event is dropped with `nil` and no execution call.  If `Connect`
succeeds and changes the tip and `InsertBlocks` succeeds, the calls are
`FetchBlocks`, verifier, `Connect`, `InsertBlocks` and
`UpdateForkChoice(head, finalized)` with `head` the tip after `Connect` and, for
a builder whose `Connect` never moves the root, `finalized = r`.  The `Connect`
of the specification does fail whenever the batch has a header numbered at or
below the root. -/
theorem onNewBlockEvent_backfill_connects (s : Sync W B) (event : EventNewBlock)
    (ccBuilder : B) (st : Ext W) (blocks : List Block)
    (hN : Uint64 (s.ccBuilderMethods.Root ccBuilder).number < Uint64 event.NewBlock.header.number)
    (hP : s.ccBuilderMethods.ContainsHash ccBuilder event.NewBlock.header.parentHash = false)
    (hF : (s.p2pService.FetchBlocks (Uint64 (s.ccBuilderMethods.Root ccBuilder).number)
        (u64add (Uint64 event.NewBlock.header.number) 1) event.PeerId st.world).1 = .ok blocks)
    (hV : s.blocksVerifier blocks = none) :
    (∀ e : Error, (s.ccBuilderMethods.Connect ccBuilder (blocks.map Block.header)).1 = some e →
      onNewBlockEvent s event ccBuilder st
        = (none, (s.ccBuilderMethods.Connect ccBuilder (blocks.map Block.header)).2,
          { world := (s.p2pService.FetchBlocks (Uint64 (s.ccBuilderMethods.Root ccBuilder).number)
              (u64add (Uint64 event.NewBlock.header.number) 1) event.PeerId st.world).2,
            trace := st.trace ++
              [⟨.FetchBlocks (Uint64 (s.ccBuilderMethods.Root ccBuilder).number)
                  (u64add (Uint64 event.NewBlock.header.number) 1) event.PeerId, .blocks blocks⟩,
                ⟨.blocksVerifier blocks, .ok⟩,
                ⟨.Connect (blocks.map Block.header), .err e⟩] })) ∧
    ((s.ccBuilderMethods.Connect ccBuilder (blocks.map Block.header)).1 = none →
      s.ccBuilderMethods.Tip (s.ccBuilderMethods.Connect ccBuilder (blocks.map Block.header)).2
        ≠ s.ccBuilderMethods.Tip ccBuilder →
      (s.execution.InsertBlocks blocks
        (s.p2pService.FetchBlocks (Uint64 (s.ccBuilderMethods.Root ccBuilder).number)
          (u64add (Uint64 event.NewBlock.header.number) 1) event.PeerId st.world).2).1 = none →
      (∀ (b : B) (hs : List Header),
        s.ccBuilderMethods.Root (s.ccBuilderMethods.Connect b hs).2 = s.ccBuilderMethods.Root b) →
      (onNewBlockEvent s event ccBuilder st).2.2.trace
        = st.trace ++
          [⟨.FetchBlocks (Uint64 (s.ccBuilderMethods.Root ccBuilder).number)
              (u64add (Uint64 event.NewBlock.header.number) 1) event.PeerId, .blocks blocks⟩,
            ⟨.blocksVerifier blocks, .ok⟩,
            ⟨.Connect (blocks.map Block.header), .ok⟩,
            ⟨.InsertBlocks blocks, .ok⟩,
            ⟨.UpdateForkChoice
                (s.ccBuilderMethods.Tip
                  (s.ccBuilderMethods.Connect ccBuilder (blocks.map Block.header)).2)
                (s.ccBuilderMethods.Root ccBuilder),
              Reply.ofErr (onNewBlockEvent s event ccBuilder st).1⟩]) ∧
    (∀ (t : ChainTree) (hs : List Header), (∃ x ∈ hs, x.number ≤ t.root.number) →
      (specChainBuilder.Connect t hs).1 ≠ none) := by
  refine ⟨?_, ?_, specChainBuilder_connect_below_root⟩
  · intro e hC
    rw [onNewBlockEvent_fetched s event ccBuilder st blocks hN hP hF,
      onNewBlocks_connect_failed s event.PeerId blocks ccBuilder _ e hV hC]
    simp
  · intro hC hT hI hRoot
    rw [onNewBlockEvent_fetched s event ccBuilder st blocks hN hP hF]
    rw [(onNewBlocks_accepted s event.PeerId blocks ccBuilder _ hV hC hT hI).1, hRoot]
    simp

/-- C17, amended, at scenario S3 with the five blocks 1201 to 1205 returned:
the head advances to 1205 over the root 1200. -/
theorem onNewBlockEvent_backfill_connects_witness :
    (Uint64 (syncS.ccBuilderMethods.Root treeS3).number < Uint64 eventS3.NewBlock.header.number ∧
      syncS.ccBuilderMethods.ContainsHash treeS3 eventS3.NewBlock.header.parentHash = false ∧
      (syncS.p2pService.FetchBlocks (Uint64 (syncS.ccBuilderMethods.Root treeS3).number)
        (u64add (Uint64 eventS3.NewBlock.header.number) 1) eventS3.PeerId worldS3).1
        = .ok blocksS3 ∧
      syncS.blocksVerifier blocksS3 = none ∧
      (syncS.ccBuilderMethods.Connect treeS3 (blocksS3.map Block.header)).1 = none ∧
      syncS.ccBuilderMethods.Tip
          (syncS.ccBuilderMethods.Connect treeS3 (blocksS3.map Block.header)).2
        ≠ syncS.ccBuilderMethods.Tip treeS3 ∧
      (syncS.execution.InsertBlocks blocksS3
        (syncS.p2pService.FetchBlocks (Uint64 (syncS.ccBuilderMethods.Root treeS3).number)
          (u64add (Uint64 eventS3.NewBlock.header.number) 1) eventS3.PeerId worldS3).2).1
        = none ∧
      (∀ (b : ChainTree) (hs : List Header),
        syncS.ccBuilderMethods.Root (syncS.ccBuilderMethods.Connect b hs).2
          = syncS.ccBuilderMethods.Root b)) ∧
    (onNewBlockEvent syncS eventS3 treeS3 ⟨worldS3, []⟩).2.2.trace
      = [] ++
        [⟨.FetchBlocks 1200 1206 2, .blocks blocksS3⟩,
          ⟨.blocksVerifier blocksS3, .ok⟩,
          ⟨.Connect (blocksS3.map Block.header), .ok⟩,
          ⟨.InsertBlocks blocksS3, .ok⟩,
          ⟨.UpdateForkChoice (hdr 1205) (hdr 1200), .ok⟩] :=
  ⟨⟨by decide, by decide, rfl, rfl, by decide, by decide, rfl, specChainBuilder_connect_root⟩,
    (onNewBlockEvent_backfill_connects syncS eventS3 treeS3 ⟨worldS3, []⟩ blocksS3 (by decide)
      (by decide) rfl rfl).2.1 (by decide) (by decide) rfl specChainBuilder_connect_root⟩

/-! ## Handling the same new-block event twice -/

/-- A `Connect` of the specification that fails leaves the builder as it was. -/
theorem ChainTree.connect_failed (t : ChainTree) (hs : List Header)
    (h : (t.Connect hs).1 ≠ none) : (t.Connect hs).2 = t := by
  unfold ChainTree.Connect at h ⊢
  cases hs with
  | nil => rfl
  | cons first rest =>
    simp only at h ⊢
    split
    · rfl
    · split
      · rfl
      · split
        · rfl
        · rename_i h1 h2 h3
          simp [h1, h2, h3] at h

/-- A `Connect` of the specification that succeeds adds the headers that were
not stored yet. -/
theorem ChainTree.connect_ok (t : ChainTree) (hs : List Header)
    (h : (t.Connect hs).1 = none) :
    (t.Connect hs).2
      = { root := t.root, nodes := t.nodes ++ hs.filter (fun x => !t.nodes.contains x) } := by
  unfold ChainTree.Connect at h ⊢
  cases hs with
  | nil => cases t; simp
  | cons first rest =>
    simp only at h ⊢
    split
    · rename_i h1; simp [h1] at h
    · split
      · rename_i h1 h2; simp [h1, h2] at h
      · split
        · rename_i h1 h2 h3; simp [h1, h2, h3] at h
        · rfl

/-- Connecting headers that are all stored already changes nothing. -/
theorem ChainTree.connect_stored (t : ChainTree) (hs : List Header)
    (h : ∀ x ∈ hs, x ∈ t.nodes) : (t.Connect hs).2 = t := by
  by_cases hc : (t.Connect hs).1 = none
  · rw [ChainTree.connect_ok t hs hc]
    have hf : hs.filter (fun x => !t.nodes.contains x) = [] := by
      rw [List.filter_eq_nil_iff]
      intro x hx
      simp [h x hx]
    rw [hf, List.append_nil]
  · exact ChainTree.connect_failed t hs hc

/-- After a `Connect` of the specification that succeeds every header of the
batch is stored. -/
theorem ChainTree.mem_connect (t : ChainTree) (hs : List Header)
    (h : (t.Connect hs).1 = none) : ∀ x ∈ hs, x ∈ (t.Connect hs).2.nodes := by
  intro x hx
  rw [ChainTree.connect_ok t hs h]
  simp only [List.mem_append, List.mem_filter]
  by_cases hm : x ∈ t.nodes
  · exact Or.inl hm
  · exact Or.inr ⟨hx, by simp [hm]⟩

/-- The builder of the specification keeps the contract of `Connect`. -/
theorem specChainBuilder_connectContract : ConnectContract specChainBuilder where
  tip_pointer := by
    intro b hs h
    simp only [specChainBuilder] at h ⊢
    rw [h]
  root_kept := specChainBuilder_connect_root
  hash_kept := by
    intro b hs x hx
    simp only [specChainBuilder] at hx ⊢
    by_cases hc : (b.Connect hs).1 = none
    · rw [ChainTree.connect_ok b hs hc]
      simp only [ChainTree.ContainsHash, List.any_append, Bool.or_eq_true] at hx ⊢
      exact Or.inl hx
    · rw [ChainTree.connect_failed b hs hc]
      exact hx
  failed_kept := by
    intro b hs h
    exact ChainTree.connect_failed b hs h
  again := by
    intro b hs
    simp only [specChainBuilder]
    by_cases hc : (b.Connect hs).1 = none
    · exact ChainTree.connect_stored _ hs (ChainTree.mem_connect b hs hc)
    · rw [ChainTree.connect_failed b hs hc]
      exact ChainTree.connect_failed b hs hc
  present := by
    intro b hs h hh hc
    simp only [specChainBuilder] at hc ⊢
    apply ChainTree.connect_stored
    intro x hx
    simp only [List.mem_singleton] at hx
    subst hx
    exact ChainTree.mem_connect b hs hc x hh

/-- Entries without an `UpdateForkChoice` leave the fork-choice pointers as
they were. -/
theorem forkChoicePointers_append (trace es : List Entry)
    (h : ∀ e ∈ es, e.call.isExecution = false) :
    forkChoicePointers (trace ++ es) = forkChoicePointers trace := by
  have hf : es.filterMap (fun e => match e with
      | ⟨.UpdateForkChoice t f, .ok⟩ => some (t, f)
      | _ => none) = [] := by
    rw [List.filterMap_eq_nil_iff]
    intro e he
    have := h e he
    rcases e with ⟨c, r⟩
    cases c <;> first | rfl | simp [Call.isExecution] at this
  simp [forkChoicePointers, List.filterMap_append, hf]

/-- The builder that the tail of `onNewBlockEvent` returns for a batch that the
blocks verifier accepts is the builder after `Connect`. -/
theorem onNewBlocks_builder (s : Sync W B) (peerId : PeerId) (newBlocks : List Block)
    (ccBuilder : B) (st : Ext W) (hV : s.blocksVerifier newBlocks = none) :
    (onNewBlocks s peerId newBlocks ccBuilder st).2.1
      = (s.ccBuilderMethods.Connect ccBuilder (newBlocks.map Block.header)).2 := by
  rcases hc : (s.ccBuilderMethods.Connect ccBuilder (newBlocks.map Block.header)).1 with _ | e
  · by_cases hT : s.ccBuilderMethods.TipPtr
        (s.ccBuilderMethods.Connect ccBuilder (newBlocks.map Block.header)).2
        = s.ccBuilderMethods.TipPtr ccBuilder
    · rw [onNewBlocks_same_tip s peerId newBlocks ccBuilder st hV hc hT]
    · rcases hi : (s.execution.InsertBlocks newBlocks st.world).1 with _ | ei
      · rw [(onNewBlocks_new_tip s peerId newBlocks ccBuilder st hV hc hT).2 hi]
      · rw [(onNewBlocks_new_tip s peerId newBlocks ccBuilder st hV hc hT).1 ei hi]
  · rw [onNewBlocks_connect_failed s peerId newBlocks ccBuilder st e hV hc]

/-- When `Connect` leaves the builder as it is, and `Tip()` returns the same
pointer as long as the tip header is the same, the tail of `onNewBlockEvent`
returns `nil` and that builder, without an execution call. -/
theorem onNewBlocks_quiet (s : Sync W B) (peerId : PeerId) (newBlocks : List Block)
    (ccBuilder : B) (st : Ext W)
    (hPtr : ∀ (b : B) (hs : List Header),
      s.ccBuilderMethods.Tip (s.ccBuilderMethods.Connect b hs).2 = s.ccBuilderMethods.Tip b →
      s.ccBuilderMethods.TipAddr (s.ccBuilderMethods.Connect b hs).2
        = s.ccBuilderMethods.TipAddr b)
    (hQ : s.blocksVerifier newBlocks = none →
      (s.ccBuilderMethods.Connect ccBuilder (newBlocks.map Block.header)).2 = ccBuilder) :
    (onNewBlocks s peerId newBlocks ccBuilder st).2.1 = ccBuilder ∧
    ∃ es : List Entry,
      (onNewBlocks s peerId newBlocks ccBuilder st).2.2.trace = st.trace ++ es ∧
      ∀ e ∈ es, e.call.isExecution = false := by
  rcases hV : s.blocksVerifier newBlocks with _ | ev
  · have hq := hQ hV
    rcases hc : (s.ccBuilderMethods.Connect ccBuilder (newBlocks.map Block.header)).1 with _ | e
    · have hT : s.ccBuilderMethods.TipPtr
          (s.ccBuilderMethods.Connect ccBuilder (newBlocks.map Block.header)).2
          = s.ccBuilderMethods.TipPtr ccBuilder := by
        have hTip : s.ccBuilderMethods.Tip
            (s.ccBuilderMethods.Connect ccBuilder (newBlocks.map Block.header)).2
            = s.ccBuilderMethods.Tip ccBuilder := by rw [hq]
        have hAddr := hPtr ccBuilder (newBlocks.map Block.header) hTip
        simp only [CanonicalChainBuilder.TipPtr, hTip, hAddr]
      rw [onNewBlocks_same_tip s peerId newBlocks ccBuilder st hV hc hT]
      refine ⟨hq, _, rfl, ?_⟩
      intro e he
      simp only [List.mem_cons, List.mem_singleton, List.not_mem_nil, or_false] at he
      rcases he with rfl | rfl <;> rfl
    · rw [onNewBlocks_connect_failed s peerId newBlocks ccBuilder st e hV hc]
      refine ⟨hq, _, rfl, ?_⟩
      intro x hx
      simp only [List.mem_cons, List.mem_singleton, List.not_mem_nil, or_false] at hx
      rcases hx with rfl | rfl <;> rfl
  · rw [onNewBlocks_rejected s peerId newBlocks ccBuilder st ev hV]
    refine ⟨rfl, _, rfl, ?_⟩
    intro x hx
    simp only [List.mem_cons, List.mem_singleton, List.not_mem_nil, or_false] at hx
    rcases hx with rfl | rfl <;> rfl

/-- When `Connect` would leave the builder as it is for the batch of the event,
and `Tip()` returns the same pointer as long as the tip header is the same,
`onNewBlockEvent` returns that builder, without an execution call. -/
theorem onNewBlockEvent_quiet (s : Sync W B) (event : EventNewBlock) (ccBuilder : B)
    (st : Ext W)
    (hPtr : ∀ (b : B) (hs : List Header),
      s.ccBuilderMethods.Tip (s.ccBuilderMethods.Connect b hs).2 = s.ccBuilderMethods.Tip b →
      s.ccBuilderMethods.TipAddr (s.ccBuilderMethods.Connect b hs).2
        = s.ccBuilderMethods.TipAddr b)
    (hK : Uint64 (s.ccBuilderMethods.Root ccBuilder).number
        < Uint64 event.NewBlock.header.number →
      s.ccBuilderMethods.ContainsHash ccBuilder event.NewBlock.header.parentHash = true →
      s.blocksVerifier [event.NewBlock] = none →
      (s.ccBuilderMethods.Connect ccBuilder ([event.NewBlock].map Block.header)).2 = ccBuilder)
    (hU : Uint64 (s.ccBuilderMethods.Root ccBuilder).number
        < Uint64 event.NewBlock.header.number →
      s.ccBuilderMethods.ContainsHash ccBuilder event.NewBlock.header.parentHash = false →
      ∀ blocks : List Block,
      (s.p2pService.FetchBlocks (Uint64 (s.ccBuilderMethods.Root ccBuilder).number)
        (u64add (Uint64 event.NewBlock.header.number) 1) event.PeerId st.world).1 = .ok blocks →
      s.blocksVerifier blocks = none →
      (s.ccBuilderMethods.Connect ccBuilder (blocks.map Block.header)).2 = ccBuilder) :
    (onNewBlockEvent s event ccBuilder st).2.1 = ccBuilder ∧
    ∃ es : List Entry,
      (onNewBlockEvent s event ccBuilder st).2.2.trace = st.trace ++ es ∧
      ∀ e ∈ es, e.call.isExecution = false := by
  by_cases hN : Uint64 (s.ccBuilderMethods.Root ccBuilder).number
      < Uint64 event.NewBlock.header.number
  · rcases hP : s.ccBuilderMethods.ContainsHash ccBuilder event.NewBlock.header.parentHash
    · rcases hf : (s.p2pService.FetchBlocks (Uint64 (s.ccBuilderMethods.Root ccBuilder).number)
          (u64add (Uint64 event.NewBlock.header.number) 1) event.PeerId st.world).1
        with err | blocks
      · rw [onNewBlockEvent_fetch_error s event ccBuilder st err hN hP hf]
        refine ⟨rfl, _, rfl, ?_⟩
        intro x hx
        simp only [List.mem_singleton] at hx
        subst hx
        rfl
      · rw [onNewBlockEvent_fetched s event ccBuilder st blocks hN hP hf]
        obtain ⟨h1, es, h2, h3⟩ := onNewBlocks_quiet s event.PeerId blocks ccBuilder
          { world := (s.p2pService.FetchBlocks
              (Uint64 (s.ccBuilderMethods.Root ccBuilder).number)
              (u64add (Uint64 event.NewBlock.header.number) 1) event.PeerId st.world).2,
            trace := st.trace ++
              [⟨.FetchBlocks (Uint64 (s.ccBuilderMethods.Root ccBuilder).number)
                (u64add (Uint64 event.NewBlock.header.number) 1) event.PeerId,
                .blocks blocks⟩] }
          hPtr (hU hN hP blocks hf)
        refine ⟨h1, ⟨.FetchBlocks (Uint64 (s.ccBuilderMethods.Root ccBuilder).number)
            (u64add (Uint64 event.NewBlock.header.number) 1) event.PeerId, .blocks blocks⟩
          :: es, ?_, ?_⟩
        · rw [h2]
          simp
        · intro x hx
          simp only [List.mem_cons] at hx
          rcases hx with rfl | hx
          · rfl
          · exact h3 x hx
    · rw [onNewBlockEvent_known s event ccBuilder st hN hP]
      exact onNewBlocks_quiet s event.PeerId [event.NewBlock] ccBuilder st hPtr (hK hN hP)
  · refine ⟨?_, [], ?_, by simp⟩
    · simp [onNewBlockEvent, Nat.le_of_not_lt hN]
    · simp [onNewBlockEvent, Nat.le_of_not_lt hN]

/-- The builder that `onNewBlockEvent` returns: the one after `Connect` when the
blocks verifier accepted the batch, and the one from before in every other
case. -/
theorem onNewBlockEvent_builder (s : Sync W B) (event : EventNewBlock) (ccBuilder : B)
    (st : Ext W) :
    (onNewBlockEvent s event ccBuilder st).2.1 = ccBuilder ∧
      (s.ccBuilderMethods.ContainsHash ccBuilder event.NewBlock.header.parentHash = true →
        Uint64 (s.ccBuilderMethods.Root ccBuilder).number
          < Uint64 event.NewBlock.header.number →
        s.blocksVerifier [event.NewBlock] ≠ none) ∧
      (s.ccBuilderMethods.ContainsHash ccBuilder event.NewBlock.header.parentHash = false →
        Uint64 (s.ccBuilderMethods.Root ccBuilder).number
          < Uint64 event.NewBlock.header.number →
        ∀ blocks : List Block,
        (s.p2pService.FetchBlocks (Uint64 (s.ccBuilderMethods.Root ccBuilder).number)
          (u64add (Uint64 event.NewBlock.header.number) 1) event.PeerId st.world).1
          = .ok blocks →
        s.blocksVerifier blocks ≠ none) ∨
    (s.ccBuilderMethods.ContainsHash ccBuilder event.NewBlock.header.parentHash = true ∧
      (onNewBlockEvent s event ccBuilder st).2.1
        = (s.ccBuilderMethods.Connect ccBuilder ([event.NewBlock].map Block.header)).2) ∨
    (s.ccBuilderMethods.ContainsHash ccBuilder event.NewBlock.header.parentHash = false ∧
      ∃ blocks : List Block,
        (s.p2pService.FetchBlocks (Uint64 (s.ccBuilderMethods.Root ccBuilder).number)
          (u64add (Uint64 event.NewBlock.header.number) 1) event.PeerId st.world).1
          = .ok blocks ∧
        (onNewBlockEvent s event ccBuilder st).2.1
          = (s.ccBuilderMethods.Connect ccBuilder (blocks.map Block.header)).2) := by
  by_cases hN : Uint64 (s.ccBuilderMethods.Root ccBuilder).number
      < Uint64 event.NewBlock.header.number
  · rcases hP : s.ccBuilderMethods.ContainsHash ccBuilder event.NewBlock.header.parentHash
    · rcases hf : (s.p2pService.FetchBlocks (Uint64 (s.ccBuilderMethods.Root ccBuilder).number)
          (u64add (Uint64 event.NewBlock.header.number) 1) event.PeerId st.world).1
        with err | blocks
      · refine Or.inl ⟨?_, by simp, fun _ _ blocks h => by simp at h⟩
        rw [onNewBlockEvent_fetch_error s event ccBuilder st err hN hP hf]
      · rcases hV : s.blocksVerifier blocks with _ | ev
        · refine Or.inr (Or.inr ⟨rfl, blocks, rfl, ?_⟩)
          rw [onNewBlockEvent_fetched s event ccBuilder st blocks hN hP hf]
          exact onNewBlocks_builder s event.PeerId blocks ccBuilder _ hV
        · refine Or.inl ⟨?_, by simp, fun _ _ blocks2 h => ?_⟩
          · rw [onNewBlockEvent_fetched s event ccBuilder st blocks hN hP hf,
              onNewBlocks_rejected s event.PeerId blocks ccBuilder _ ev hV]
          · simp only [Except.ok.injEq] at h
            subst h
            simp [hV]
    · rcases hV : s.blocksVerifier [event.NewBlock] with _ | ev
      · refine Or.inr (Or.inl ⟨rfl, ?_⟩)
        rw [onNewBlockEvent_known s event ccBuilder st hN hP]
        exact onNewBlocks_builder s event.PeerId [event.NewBlock] ccBuilder st hV
      · refine Or.inl ⟨?_, fun _ _ => by simp, by simp⟩
        rw [onNewBlockEvent_known s event ccBuilder st hN hP,
          onNewBlocks_rejected s event.PeerId _ ccBuilder st ev hV]
  · refine Or.inl ⟨?_, fun _ h => absurd h hN, fun _ h => absurd h hN⟩
    simp [onNewBlockEvent, Nat.le_of_not_lt hN]

/-- C15, as stated, fails: with the builder of the specification (root and tip
at 1200), an accepting blocks verifier and a peer that answers every fetch with
the blocks 1201 to 1204, handling the new-block event for block 1205 once leaves
the builder with tip 1204 and the fork choice at (1204, 1200); handling it a
second time finds the parent 1204 in the builder, connects block 1205 and moves
the fork choice to (1205, 1200). -/
theorem newBlock_twice_differs :
    (∀ (a b : Nat) (p : PeerId) (w w1 : Script),
      ((steadySync (.ok blocksTo1204)).p2pService.FetchBlocks a b p w).1
        = ((steadySync (.ok blocksTo1204)).p2pService.FetchBlocks a b p w1).1) ∧
    (handleTwice (steadySync (.ok blocksTo1204)) eventS3 treeS3 ⟨worldIdle, []⟩).2.1
      ≠ (onNewBlockEvent (steadySync (.ok blocksTo1204)) eventS3 treeS3 ⟨worldIdle, []⟩).2.1 ∧
    specChainBuilder.Tip
        (onNewBlockEvent (steadySync (.ok blocksTo1204)) eventS3 treeS3 ⟨worldIdle, []⟩).2.1
      = hdr 1204 ∧
    specChainBuilder.Tip
        (handleTwice (steadySync (.ok blocksTo1204)) eventS3 treeS3 ⟨worldIdle, []⟩).2.1
      = hdr 1205 ∧
    forkChoicePointers
        (onNewBlockEvent (steadySync (.ok blocksTo1204)) eventS3 treeS3 ⟨worldIdle, []⟩).2.2.trace
      = some (hdr 1204, hdr 1200) ∧
    forkChoicePointers
        (handleTwice (steadySync (.ok blocksTo1204)) eventS3 treeS3 ⟨worldIdle, []⟩).2.2.trace
      = some (hdr 1205, hdr 1200) := by
  refine ⟨fun _ _ _ _ _ => rfl, ?_, ?_, ?_, ?_, ?_⟩ <;> decide

/-- C15, amended: for a builder that keeps the contract of `Connect`, the
pointer that `Tip()` returns included (an equal tip header is returned at the
same address), a peer whose `FetchBlocks` answers a request in the same way
whenever it is asked, and a new-block event such that, when its parent is not in
the builder, a successful backfill contains the block of the event itself:
handling the event a second time leaves the builder that the first handling
left (same node set, root and tip, and the same pointer from `Tip()`), makes no
execution call, and so leaves the fork-choice head and finalized pointers as
they were after the first handling. -/
theorem newBlock_twice_same (s : Sync W B) (hM : ConnectContract s.ccBuilderMethods)
    (hDet : ∀ (a b : Nat) (p : PeerId) (w w1 : W),
      (s.p2pService.FetchBlocks a b p w).1 = (s.p2pService.FetchBlocks a b p w1).1)
    (event : EventNewBlock) (ccBuilder : B) (st : Ext W)
    (hIncl : s.ccBuilderMethods.ContainsHash ccBuilder event.NewBlock.header.parentHash = false →
      ∀ blocks : List Block,
      (s.p2pService.FetchBlocks (Uint64 (s.ccBuilderMethods.Root ccBuilder).number)
        (u64add (Uint64 event.NewBlock.header.number) 1) event.PeerId st.world).1 = .ok blocks →
      event.NewBlock.header ∈ blocks.map Block.header) :
    (handleTwice s event ccBuilder st).2.1 = (onNewBlockEvent s event ccBuilder st).2.1 ∧
    s.ccBuilderMethods.TipPtr (handleTwice s event ccBuilder st).2.1
      = s.ccBuilderMethods.TipPtr (onNewBlockEvent s event ccBuilder st).2.1 ∧
    (∃ es : List Entry,
      (handleTwice s event ccBuilder st).2.2.trace
        = (onNewBlockEvent s event ccBuilder st).2.2.trace ++ es ∧
      ∀ e ∈ es, e.call.isExecution = false) ∧
    forkChoicePointers (handleTwice s event ccBuilder st).2.2.trace
      = forkChoicePointers (onNewBlockEvent s event ccBuilder st).2.2.trace := by
  have key : (handleTwice s event ccBuilder st).2.1 = (onNewBlockEvent s event ccBuilder st).2.1 ∧
      ∃ es : List Entry,
        (handleTwice s event ccBuilder st).2.2.trace
          = (onNewBlockEvent s event ccBuilder st).2.2.trace ++ es ∧
        ∀ e ∈ es, e.call.isExecution = false := by
    unfold handleTwice
    apply onNewBlockEvent_quiet
    · exact hM.tip_pointer
    · intro hN2 hP2 hV2
      rcases onNewBlockEvent_builder s event ccBuilder st with
        ⟨h1, hA, -⟩ | ⟨hP, h1⟩ | ⟨hP, blocks, hf, h1⟩
      · rw [h1] at hN2 hP2
        exact absurd hV2 (hA hP2 hN2)
      · rw [h1]
        exact hM.again ccBuilder _
      · rw [h1]
        rcases hc : (s.ccBuilderMethods.Connect ccBuilder (blocks.map Block.header)).1 with _ | e
        · exact hM.present ccBuilder _ _ (hIncl hP blocks hf) hc
        · have hk := hM.failed_kept ccBuilder (blocks.map Block.header) (by simp [hc])
          rw [h1, hk, hP] at hP2
          exact absurd hP2 (by simp)
    · intro hN2 hP2 blocks2 hf2 hV2
      rcases onNewBlockEvent_builder s event ccBuilder st with
        ⟨h1, -, hB⟩ | ⟨hP, h1⟩ | ⟨hP, blocks, hf, h1⟩
      · rw [h1] at hN2 hP2 hf2
        rw [hDet _ _ _ _ st.world] at hf2
        exact absurd hV2 (hB hP2 hN2 blocks2 hf2)
      · rw [h1] at hP2
        rw [hM.hash_kept ccBuilder _ _ hP] at hP2
        exact absurd hP2 (by simp)
      · rw [h1] at hf2 ⊢
        rw [hM.root_kept, hDet _ _ _ _ st.world, hf] at hf2
        simp only [Except.ok.injEq] at hf2
        subst hf2
        exact hM.again ccBuilder _
  obtain ⟨h1, es, h2, h3⟩ := key
  refine ⟨h1, by rw [h1], ⟨es, h2, h3⟩, ?_⟩
  rw [h2]
  exact forkChoicePointers_append _ es h3

/-- C15, amended, at scenario S3 with a peer that always answers with the blocks
1201 to 1205: the second handling fetches and verifies again, connects nothing
new, and leaves builder and fork choice where the first left them. -/
theorem newBlock_twice_same_witness :
    (ConnectContract (steadySync (.ok blocksS3)).ccBuilderMethods ∧
      (∀ (a b : Nat) (p : PeerId) (w w1 : Script),
        ((steadySync (.ok blocksS3)).p2pService.FetchBlocks a b p w).1
          = ((steadySync (.ok blocksS3)).p2pService.FetchBlocks a b p w1).1) ∧
      eventS3.NewBlock.header ∈ blocksS3.map Block.header) ∧
    (handleTwice (steadySync (.ok blocksS3)) eventS3 treeS3 ⟨worldIdle, []⟩).2.1
      = (onNewBlockEvent (steadySync (.ok blocksS3)) eventS3 treeS3 ⟨worldIdle, []⟩).2.1 ∧
    forkChoicePointers
        (handleTwice (steadySync (.ok blocksS3)) eventS3 treeS3 ⟨worldIdle, []⟩).2.2.trace
      = forkChoicePointers
          (onNewBlockEvent (steadySync (.ok blocksS3)) eventS3 treeS3 ⟨worldIdle, []⟩).2.2.trace ∧
    forkChoicePointers
        (onNewBlockEvent (steadySync (.ok blocksS3)) eventS3 treeS3 ⟨worldIdle, []⟩).2.2.trace
      = some (hdr 1205, hdr 1200) :=
  ⟨⟨specChainBuilder_connectContract, fun _ _ _ _ _ => rfl, by decide⟩,
    (newBlock_twice_same (steadySync (.ok blocksS3)) specChainBuilder_connectContract
      (fun _ _ _ _ _ => rfl) eventS3 treeS3 ⟨worldIdle, []⟩
      (fun _ blocks h => by
        have hb : blocks = blocksS3 := (Except.ok.inj h).symm
        rw [hb]
        decide)).1,
    (newBlock_twice_same (steadySync (.ok blocksS3)) specChainBuilder_connectContract
      (fun _ _ _ _ _ => rfl) eventS3 treeS3 ⟨worldIdle, []⟩
      (fun _ blocks h => by
        have hb : blocks = blocksS3 := (Except.ok.inj h).symm
        rw [hb]
        decide)).2.2.2,
    by decide⟩

/-- A builder whose `Tip()` returns an equal header at another address is handled
as the code handles it.  With the copying builder, root and tip at block 1200:
the first handling of the new-block event for block 1201 connects the block and
updates the fork choice; the second connects nothing new and leaves the tip
header 1201, but `Tip()` returns it at another address, so `newTip != oldTip`
holds and `InsertBlocks` and `UpdateForkChoice` are called again.  The copying
builder keeps every part of the contract of `Connect` that speaks of headers
and fails the part that speaks of the pointer. -/
theorem copyingBuilder_handled_again :
    copyingBuilder.Tip (onNewBlockEvent copyingSync eventS2 (treeS3, 0) ⟨worldIdle, []⟩).2.1
      = hdr 1201 ∧
    copyingBuilder.Tip (handleTwice copyingSync eventS2 (treeS3, 0) ⟨worldIdle, []⟩).2.1
      = hdr 1201 ∧
    (handleTwice copyingSync eventS2 (treeS3, 0) ⟨worldIdle, []⟩).2.1.1
      = (onNewBlockEvent copyingSync eventS2 (treeS3, 0) ⟨worldIdle, []⟩).2.1.1 ∧
    copyingBuilder.TipPtr (handleTwice copyingSync eventS2 (treeS3, 0) ⟨worldIdle, []⟩).2.1
      ≠ copyingBuilder.TipPtr
          (onNewBlockEvent copyingSync eventS2 (treeS3, 0) ⟨worldIdle, []⟩).2.1 ∧
    (handleTwice copyingSync eventS2 (treeS3, 0) ⟨worldIdle, []⟩).2.2.trace
      = (onNewBlockEvent copyingSync eventS2 (treeS3, 0) ⟨worldIdle, []⟩).2.2.trace
        ++ [⟨.blocksVerifier [blk 1201], .ok⟩, ⟨.Connect [hdr 1201], .ok⟩,
          ⟨.InsertBlocks [blk 1201], .ok⟩,
          ⟨.UpdateForkChoice (hdr 1201) (hdr 1200), .ok⟩] ∧
    ¬ ConnectContract copyingBuilder := by
  refine ⟨by decide, by decide, by decide, by decide, by decide, fun h => ?_⟩
  have h1 := h.tip_pointer (treeS3, 0) []
  exact absurd (h1 (by decide)) (by decide)

end PolygonSync
